import Mathlib

/-!
Verification of the italian-law-mcp ingestion and citation components.

Strings from the TypeScript source are shallowly embedded as `List Char`.
JS numbers that only ever hold non-negative integers (HTTP statuses,
versions, years, article counts, timestamps) are embedded as `Nat`.
Definitions are direct translations of the TypeScript functions named in
the accompanying comments.
-/

namespace ItalianLaw

/-- JS `\s` whitespace class, restricted to the ASCII whitespace characters
that can occur in the strings this code base manipulates. -/
def isWsC (c : Char) : Bool :=
  c == ' ' || c == '\t' || c == '\n' || c == '\r' || c == '\x0b' || c == '\x0c'

/-- ASCII decimal digit test (JS `\d`). -/
def isDigitC (c : Char) : Bool := c.isDigit

/-- ASCII lower-casing, matching JS `toLowerCase` on the ASCII strings used here. -/
def lowerC (c : Char) : Char := c.toLower

/-- `String.prototype.trim()`: strip leading and trailing whitespace. -/
def trimChars (s : List Char) : List Char :=
  ((s.dropWhile isWsC).reverse.dropWhile isWsC).reverse

/-- One step of `replace(/\s+/g, ' ')`: collapse every whitespace run to a single space. -/
def collapseWs : List Char → List Char
  | [] => []
  | c :: t =>
    if isWsC c then
      match t with
      | [] => [' ']
      | c2 :: t2 => if isWsC c2 then collapseWs (c2 :: t2) else ' ' :: c2 :: collapseWs t2
    else c :: collapseWs t

/-- `normalizeWhitespace` from scripts/ingest.ts:
`text.replace(/\s+/g, ' ').trim()`. -/
def normalizeWhitespace (s : List Char) : List Char := trimChars (collapseWs s)

/-- Numeric value of an ASCII digit character. -/
def digitVal (c : Char) : Nat := c.toNat - 48

/-- JS `parseInt(s, 10)` on a string of decimal digits. -/
def parseNat (s : List Char) : Nat := s.foldl (fun a c => a * 10 + digitVal c) 0

/-- Decimal rendering worker; `fuel` bounds the number of digits produced. -/
def renderNatGo : Nat → Nat → List Char → List Char
  | 0, _, acc => acc
  | fuel + 1, n, acc =>
    let acc' := Char.ofNat (48 + n % 10) :: acc
    if n < 10 then acc' else renderNatGo fuel (n / 10) acc'

/-- Decimal rendering of a `Nat`, matching JS template interpolation of a
non-negative integer (`${n}`). -/
def renderNat (n : Nat) : List Char := renderNatGo (n + 1) n []

/- ── basic lemmas about the helpers ─────────────────────────────────────── -/

theorem renderNatGo_acc (fuel : Nat) :
    ∀ n acc, renderNatGo fuel n acc = renderNatGo fuel n [] ++ acc := by
  induction fuel with
  | zero => intro n acc; simp [renderNatGo]
  | succ f ih =>
    intro n acc
    simp only [renderNatGo]
    by_cases h : n < 10
    · simp [h]
    · simp only [h, if_false]
      rw [ih (n / 10) (Char.ofNat (48 + n % 10) :: acc),
        ih (n / 10) [Char.ofNat (48 + n % 10)]]
      simp

theorem renderNatGo_fuel (f1 : Nat) :
    ∀ f2 n, n < f1 → n < f2 → renderNatGo f1 n [] = renderNatGo f2 n [] := by
  induction f1 with
  | zero => intro f2 n h; omega
  | succ f ih =>
    intro f2 n h1 h2
    cases f2 with
    | zero => omega
    | succ f2' =>
      simp only [renderNatGo]
      by_cases h : n < 10
      · simp [h]
      · simp only [h, if_false]
        rw [renderNatGo_acc f, renderNatGo_acc f2']
        have hlt : n / 10 < n := Nat.div_lt_self (by omega) (by omega)
        rw [ih f2' (n / 10) (by omega) (by omega)]

theorem renderNat_step (n : Nat) :
    renderNat n = if n < 10 then [Char.ofNat (48 + n % 10)]
      else renderNat (n / 10) ++ [Char.ofNat (48 + n % 10)] := by
  by_cases h : n < 10
  · simp [renderNat, renderNatGo, h]
  · have h1 : renderNat n = renderNatGo n (n / 10) [Char.ofNat (48 + n % 10)] := by
      simp [renderNat, renderNatGo, h]
    have hlt : n / 10 < n := Nat.div_lt_self (by omega) (by omega)
    rw [h1, renderNatGo_acc n, renderNatGo_fuel n (n / 10 + 1) (n / 10) (by omega) (by omega)]
    simp only [h, if_false]
    rfl

theorem digit_char_spec (m : Nat) (h : m < 10) :
    isDigitC (Char.ofNat (48 + m)) = true ∧ digitVal (Char.ofNat (48 + m)) = m ∧
      isWsC (Char.ofNat (48 + m)) = false := by
  interval_cases m <;> exact ⟨by decide, by decide, by decide⟩

theorem renderNat_ne_nil (n : Nat) : renderNat n ≠ [] := by
  rw [renderNat_step]
  by_cases h : n < 10 <;> simp [h]

theorem renderNat_digits (n : Nat) : ∀ c ∈ renderNat n, isDigitC c = true := by
  induction n using Nat.strong_induction_on with
  | _ n ih =>
    rw [renderNat_step]
    by_cases h : n < 10
    · simp only [h, if_true, List.mem_singleton]
      rintro c rfl
      exact (digit_char_spec (n % 10) (Nat.mod_lt _ (by omega))).1
    · simp only [h, if_false, List.mem_append, List.mem_singleton]
      rintro c (hc | rfl)
      · exact ih (n / 10) (Nat.div_lt_self (by omega) (by omega)) c hc
      · exact (digit_char_spec (n % 10) (Nat.mod_lt _ (by omega))).1

theorem parseNat_append (a b : List Char) :
    parseNat (a ++ b) = b.foldl (fun x c => x * 10 + digitVal c) (parseNat a) := by
  simp [parseNat, List.foldl_append]

theorem parseNat_renderNat (n : Nat) : parseNat (renderNat n) = n := by
  induction n using Nat.strong_induction_on with
  | _ n ih =>
    rw [renderNat_step]
    by_cases h : n < 10
    · simp only [h, if_true, parseNat, List.foldl_cons, List.foldl_nil]
      have := (digit_char_spec (n % 10) (Nat.mod_lt _ (by omega))).2.1
      rw [this]; omega
    · simp only [h, if_false]
      rw [parseNat_append, ih (n / 10) (Nat.div_lt_self (by omega) (by omega))]
      simp only [List.foldl_cons, List.foldl_nil]
      have := (digit_char_spec (n % 10) (Nat.mod_lt _ (by omega))).2.1
      rw [this]; omega

theorem dropWhile_idem (p : Char → Bool) (l : List Char) :
    (l.dropWhile p).dropWhile p = l.dropWhile p := by
  induction l with
  | nil => rfl
  | cons c t ih =>
    by_cases h : p c
    · simp [List.dropWhile_cons, h, ih]
    · simp [List.dropWhile_cons, h]

theorem head_dropWhile_not (p : Char → Bool) (l : List Char) :
    ∀ c, (l.dropWhile p).head? = some c → p c = false := by
  induction l with
  | nil => intro c h; simp at h
  | cons a t ih =>
    intro c h
    by_cases hp : p a
    · exact ih c (by simpa [List.dropWhile_cons, hp] using h)
    · simp [List.dropWhile_cons, hp] at h
      subst h
      simpa using hp

theorem dropWhile_eq_self (p : Char → Bool) (l : List Char)
    (h : ∀ c, l.head? = some c → p c = false) : l.dropWhile p = l := by
  cases l with
  | nil => rfl
  | cons a t => simp [List.dropWhile_cons, h a rfl]

theorem trimChars_head (s : List Char) :
    ∀ c, (trimChars s).head? = some c → isWsC c = false := by
  intro c hc
  unfold trimChars at hc
  rw [List.head?_reverse] at hc
  have hbne : (s.dropWhile isWsC).reverse.dropWhile isWsC ≠ [] := by
    intro h; rw [h] at hc; simp at hc
  obtain ⟨pre, hpre⟩ := List.dropWhile_suffix (l := (s.dropWhile isWsC).reverse) isWsC
  have h2 : ((s.dropWhile isWsC).reverse).getLast? = some c := by
    rw [← hpre, List.getLast?_append_of_ne_nil _ hbne]; exact hc
  rw [List.getLast?_reverse] at h2
  exact head_dropWhile_not isWsC s c h2

theorem trimChars_last (s : List Char) :
    ∀ c, (trimChars s).getLast? = some c → isWsC c = false := by
  intro c hc
  unfold trimChars at hc
  rw [List.getLast?_reverse] at hc
  exact head_dropWhile_not isWsC (s.dropWhile isWsC).reverse c hc

theorem trimChars_eq_self (s : List Char)
    (h1 : ∀ c, s.head? = some c → isWsC c = false)
    (h2 : ∀ c, s.getLast? = some c → isWsC c = false) : trimChars s = s := by
  unfold trimChars
  rw [dropWhile_eq_self _ _ h1]
  rw [dropWhile_eq_self _ _ (by intro c hc; rw [List.head?_reverse] at hc; exact h2 c hc)]
  exact List.reverse_reverse s

theorem trimChars_idem (s : List Char) : trimChars (trimChars s) = trimChars s :=
  trimChars_eq_self _ (trimChars_head s) (trimChars_last s)

/- ── normalizeEuYear (scripts/ingest.ts) ─────────────────────────────────── -/

/-- `normalizeEuYear` from scripts/ingest.ts: 2-digit years are mapped through
the century pivot (≥50 → 19xx, <50 → 20xx); other tokens are parsed as-is.
On an all-digit token `parseInt` cannot return `NaN`, so the `NaN → 0`
branch of the source is unreachable and is not represented. -/
def normalizeEuYear (rawYear : List Char) : Nat :=
  let parsed := parseNat rawYear
  if rawYear.length = 2 then
    if parsed ≥ 50 then 1900 + parsed else 2000 + parsed
  else parsed

/- ── provisions and dedupeProvisions (scripts/ingest.ts) ────────────────── -/

/-- `ProvisionSeed` from scripts/ingest.ts (the `metadata` bag, which
`dedupeProvisions` copies verbatim, is omitted). The TS field `section` is
called `sectionRef` here because `section` is a Lean keyword. -/
structure ProvisionSeed where
  provision_ref : List Char
  chapter : Option (List Char) := none
  sectionRef : List Char
  title : Option (List Char) := none
  content : List Char
deriving DecidableEq, Repr

instance : Inhabited ProvisionSeed := ⟨⟨[], none, [], none, []⟩⟩

/-- `ProvisionDedupStats` from scripts/ingest.ts. -/
structure ProvisionDedupStats where
  duplicate_refs : Nat
  conflicting_duplicates : Nat
deriving DecidableEq, Repr

/-- `pickPreferredProvision` from scripts/ingest.ts. -/
def pickPreferredProvision (existing incoming : ProvisionSeed) : ProvisionSeed :=
  let existingContent := normalizeWhitespace existing.content
  let incomingContent := normalizeWhitespace incoming.content
  if incomingContent.length > existingContent.length then
    { incoming with title := incoming.title.orElse fun _ => existing.title }
  else
    { existing with title := existing.title.orElse fun _ => incoming.title }

/-- JS `Map` with insertion-order iteration, embedded as an association list:
`set` on a fresh key appends, `set` on an existing key overwrites in place. -/
def mapSet (m : List (List Char × ProvisionSeed)) (k : List Char) (v : ProvisionSeed) :
    List (List Char × ProvisionSeed) :=
  match m with
  | [] => [(k, v)]
  | (k', v') :: t => if k' = k then (k', v) :: t else (k', v') :: mapSet t k v

def mapGet (m : List (List Char × ProvisionSeed)) (k : List Char) : Option ProvisionSeed :=
  match m with
  | [] => none
  | (k', v') :: t => if k' = k then some v' else mapGet t k

/-- Body of the `for` loop of `dedupeProvisions`. -/
def dedupeStep (st : List (List Char × ProvisionSeed) × ProvisionDedupStats)
    (provision : ProvisionSeed) : List (List Char × ProvisionSeed) × ProvisionDedupStats :=
  let byRef := st.1
  let stats := st.2
  let ref := trimChars provision.provision_ref
  match mapGet byRef ref with
  | none => (mapSet byRef ref { provision with provision_ref := ref }, stats)
  | some existing =>
    let stats' : ProvisionDedupStats :=
      { duplicate_refs := stats.duplicate_refs + 1
        conflicting_duplicates :=
          if normalizeWhitespace existing.content ≠ normalizeWhitespace provision.content
          then stats.conflicting_duplicates + 1 else stats.conflicting_duplicates }
    (mapSet byRef ref (pickPreferredProvision existing provision), stats')

/-- `dedupeProvisions` from scripts/ingest.ts. -/
def dedupeProvisions (provisions : List ProvisionSeed) :
    List ProvisionSeed × ProvisionDedupStats :=
  let st := provisions.foldl dedupeStep ([], ⟨0, 0⟩)
  (st.1.map Prod.snd, st.2)

def mapKeys (m : List (List Char × ProvisionSeed)) : List (List Char) := m.map Prod.fst

theorem mapKeys_nil : mapKeys [] = [] := rfl

theorem mapKeys_cons (k : List Char) (v : ProvisionSeed)
    (t : List (List Char × ProvisionSeed)) : mapKeys ((k, v) :: t) = k :: mapKeys t := rfl

theorem mapKeys_append (m₁ m₂ : List (List Char × ProvisionSeed)) :
    mapKeys (m₁ ++ m₂) = mapKeys m₁ ++ mapKeys m₂ := by
  simp [mapKeys]

theorem mapGet_eq_none_iff (m : List (List Char × ProvisionSeed)) (k : List Char) :
    mapGet m k = none ↔ k ∉ mapKeys m := by
  induction m with
  | nil => simp [mapGet, mapKeys_nil]
  | cons kv t ih =>
    obtain ⟨k', v'⟩ := kv
    rw [mapKeys_cons, List.mem_cons]
    by_cases h : k' = k
    · subst h; simp [mapGet]
    · simp only [mapGet, h, if_false, ih]
      constructor
      · intro hk
        push_neg
        exact ⟨fun hh => h hh.symm, hk⟩
      · intro hk
        push_neg at hk
        exact hk.2

theorem mapGet_mem (m : List (List Char × ProvisionSeed)) (k : List Char)
    (v : ProvisionSeed) (h : mapGet m k = some v) : (k, v) ∈ m := by
  induction m with
  | nil => simp [mapGet] at h
  | cons kv t ih =>
    obtain ⟨k', v'⟩ := kv
    by_cases hk : k' = k
    · subst hk
      simp [mapGet] at h
      subst h
      exact List.mem_cons_self _ _
    · simp [mapGet, hk] at h
      exact List.mem_cons_of_mem _ (ih h)

theorem mapSet_keys_mem (m : List (List Char × ProvisionSeed)) (k : List Char)
    (v : ProvisionSeed) (h : k ∈ mapKeys m) : mapKeys (mapSet m k v) = mapKeys m := by
  induction m with
  | nil => simp [mapKeys_nil] at h
  | cons kv t ih =>
    obtain ⟨k', v'⟩ := kv
    by_cases hk : k' = k
    · subst hk; simp [mapSet, mapKeys_cons]
    · rw [mapKeys_cons, List.mem_cons] at h
      rcases h with h | h
      · exact absurd h.symm hk
      · simp only [mapSet, hk, if_false, mapKeys_cons, ih h]

theorem mapSet_not_mem (m : List (List Char × ProvisionSeed)) (k : List Char)
    (v : ProvisionSeed) (h : k ∉ mapKeys m) : mapSet m k v = m ++ [(k, v)] := by
  induction m with
  | nil => simp [mapSet]
  | cons kv t ih =>
    obtain ⟨k', v'⟩ := kv
    rw [mapKeys_cons, List.mem_cons] at h
    push_neg at h
    have hne : ¬ k' = k := fun hh => h.1 hh.symm
    simp [mapSet, hne, ih h.2]

theorem mapSet_values_mem (m : List (List Char × ProvisionSeed)) (k : List Char)
    (v : ProvisionSeed) :
    ∀ kv ∈ mapSet m k v, kv ∈ m ∨ kv = (k, v) := by
  induction m with
  | nil => simp [mapSet]
  | cons kv0 t ih =>
    obtain ⟨k', v'⟩ := kv0
    intro kv hkv
    by_cases hk : k' = k
    · subst hk
      simp [mapSet] at hkv
      rcases hkv with h | h
      · right; simp [h]
      · left; exact List.mem_cons_of_mem _ h
    · simp only [mapSet, hk, if_false, List.mem_cons] at hkv
      rcases hkv with h | h
      · left; simp [h]
      · rcases ih kv h with h' | h'
        · left; exact List.mem_cons_of_mem _ h'
        · right; exact h'

/-- Invariant of the `byRef` map inside `dedupeProvisions`: keys are
pairwise distinct and every stored value's trimmed reference equals its key. -/
def DedupeInv (m : List (List Char × ProvisionSeed)) : Prop :=
  (mapKeys m).Nodup ∧ ∀ kv ∈ m, trimChars kv.2.provision_ref = kv.1

theorem pickPreferred_ref (existing incoming : ProvisionSeed) :
    (pickPreferredProvision existing incoming).provision_ref = existing.provision_ref ∨
    (pickPreferredProvision existing incoming).provision_ref = incoming.provision_ref := by
  by_cases h : (normalizeWhitespace incoming.content).length >
      (normalizeWhitespace existing.content).length
  · right; simp [pickPreferredProvision, h]
  · left; simp [pickPreferredProvision, h]

theorem dedupeStep_inv (m : List (List Char × ProvisionSeed))
    (stats : ProvisionDedupStats) (p : ProvisionSeed) (h : DedupeInv m) :
    DedupeInv (dedupeStep (m, stats) p).1 := by
  obtain ⟨hnd, hval⟩ := h
  rcases hget : mapGet m (trimChars p.provision_ref) with _ | existing
  · have hk : trimChars p.provision_ref ∉ mapKeys m := (mapGet_eq_none_iff _ _).mp hget
    simp only [dedupeStep, hget]
    rw [mapSet_not_mem _ _ _ hk]
    constructor
    · rw [mapKeys_append, mapKeys_cons, mapKeys_nil]
      rw [List.nodup_append]
      refine ⟨hnd, by simp, ?_⟩
      intro a ha hb
      simp at hb
      subst hb
      exact hk ha
    · intro kv hkv
      rcases List.mem_append.mp hkv with h' | h'
      · exact hval kv h'
      · simp at h'
        subst h'
        simpa using trimChars_idem p.provision_ref
  · have hmem : (trimChars p.provision_ref, existing) ∈ m := mapGet_mem _ _ _ hget
    have hk : trimChars p.provision_ref ∈ mapKeys m :=
      List.mem_map_of_mem Prod.fst hmem
    simp only [dedupeStep, hget]
    constructor
    · rw [mapSet_keys_mem _ _ _ hk]; exact hnd
    · intro kv hkv
      rcases mapSet_values_mem m _ _ kv hkv with h' | h'
      · exact hval kv h'
      · subst h'
        rcases pickPreferred_ref existing p with h2 | h2
        · simp only [h2]; exact hval _ hmem
        · simp only [h2]

theorem dedupeFold_inv (l : List ProvisionSeed) :
    ∀ m stats, DedupeInv m → DedupeInv ((l.foldl dedupeStep (m, stats)).1) := by
  induction l with
  | nil => intro m stats h; simpa using h
  | cons p t ih =>
    intro m stats h
    simp only [List.foldl_cons]
    have h' := dedupeStep_inv m stats p h
    have hsplit : dedupeStep (m, stats) p =
        ((dedupeStep (m, stats) p).1, (dedupeStep (m, stats) p).2) := rfl
    rw [hsplit]
    exact ih _ _ h'

theorem dedupe_values_nodup (m : List (List Char × ProvisionSeed)) (h : DedupeInv m) :
    ((m.map Prod.snd).map (·.provision_ref)).Nodup := by
  obtain ⟨hnd, hval⟩ := h
  have hmapeq : ((m.map Prod.snd).map (·.provision_ref)).map trimChars = mapKeys m := by
    simp only [List.map_map, mapKeys]
    exact List.map_congr_left fun kv hkv => hval kv hkv
  exact List.Nodup.of_map trimChars (hmapeq ▸ hnd)

/-- C3: `dedupeProvisions` keeps exactly one provision per reference token;
between two provisions sharing a (trimmed) reference token with differing
normalized content, the longer normalized content survives, an equal-length
tie keeps the first-seen entry, and the survivor's heading falls back to the
other side's heading when the survivor lacks one. -/
theorem dedupeProvisions_dedup_law (p q : ProvisionSeed)
    (href : trimChars q.provision_ref = trimChars p.provision_ref)
    (hdiff : normalizeWhitespace p.content ≠ normalizeWhitespace q.content) :
    (∀ l : List ProvisionSeed,
       (((dedupeProvisions l).1).map (·.provision_ref)).Nodup) ∧
    ((normalizeWhitespace q.content).length > (normalizeWhitespace p.content).length →
      (dedupeProvisions [p, q]).1 =
        [{ q with title := q.title.orElse fun _ => p.title }]) ∧
    ((normalizeWhitespace q.content).length ≤ (normalizeWhitespace p.content).length →
      (dedupeProvisions [p, q]).1 =
        [{ p with provision_ref := trimChars p.provision_ref,
                  title := p.title.orElse fun _ => q.title }]) := by
  refine ⟨?_, ?_, ?_⟩
  · intro l
    have h := dedupeFold_inv l [] ⟨0, 0⟩ ⟨by simp [mapKeys], by simp⟩
    exact dedupe_values_nodup _ h
  · intro hlen
    simp [dedupeProvisions, dedupeStep, mapGet, mapSet, pickPreferredProvision, href, hlen]
  · intro hlen
    have hlen' : ¬ ((normalizeWhitespace q.content).length >
        (normalizeWhitespace p.content).length) := by omega
    simp [dedupeProvisions, dedupeStep, mapGet, mapSet, pickPreferredProvision, href, hlen']

/-- Witness for C3 at concrete provisions: the incoming longer-content
duplicate survives and inherits the incumbent's heading. -/
theorem dedupeProvisions_dedup_law_witness :
    trimChars " art1 ".data = trimChars "art1".data ∧
    (normalizeWhitespace "short".data ≠ normalizeWhitespace "much longer body".data) ∧
    (dedupeProvisions
        [{ provision_ref := "art1".data, sectionRef := "1".data,
           title := some "Heading".data, content := "short".data },
         { provision_ref := " art1 ".data, sectionRef := "1".data,
           title := none, content := "much longer body".data }]).1 =
      [{ provision_ref := " art1 ".data, sectionRef := "1".data,
         title := some "Heading".data, content := "much longer body".data }] := by
  refine ⟨by decide, by decide, ?_⟩
  have h := dedupeProvisions_dedup_law
    { provision_ref := "art1".data, sectionRef := "1".data,
      title := some "Heading".data, content := "short".data }
    { provision_ref := " art1 ".data, sectionRef := "1".data,
      title := none, content := "much longer body".data }
    (by decide) (by decide)
  have h2 := h.2.1 (by decide)
  simpa using h2

/- ── normalizeEuYear theorem (C7) ────────────────────────────────────────── -/

/-- C7: `normalizeEuYear` maps a 2-digit numeric token with value `v` to
`1900 + v` when `v ≥ 50` and to `2000 + v` when `v < 50`, and leaves longer
numeric tokens unchanged; in particular `"16"` normalizes to `2016` and
`"96"` to `1996`. -/
theorem normalizeEuYear_century_pivot (s : List Char)
    (hd : ∀ c ∈ s, isDigitC c = true) :
    (s.length = 2 →
      (parseNat s ≥ 50 → normalizeEuYear s = 1900 + parseNat s) ∧
      (parseNat s < 50 → normalizeEuYear s = 2000 + parseNat s)) ∧
    (s.length ≠ 2 → normalizeEuYear s = parseNat s) ∧
    normalizeEuYear "16".data = 2016 ∧ normalizeEuYear "96".data = 1996 := by
  refine ⟨?_, ?_, by decide, by decide⟩
  · intro h2
    constructor
    · intro hge; simp [normalizeEuYear, h2, hge]
    · intro hlt
      have : ¬ (parseNat s ≥ 50) := by omega
      simp [normalizeEuYear, h2, this]
  · intro h2; simp [normalizeEuYear, h2]

/-- Witness for C7 at the concrete tokens named by the specification. -/
theorem normalizeEuYear_century_pivot_witness :
    (∀ c ∈ "96".data, isDigitC c = true) ∧ normalizeEuYear "96".data = 1996 := by
  refine ⟨by decide, ?_⟩
  exact (normalizeEuYear_century_pivot "96".data (by decide)).2.2.2

/- ── ingestAct (scripts, census-driven ingestion pipeline) ───────────────── -/

/-- `ArticleFetchResult` from the fetcher module. -/
structure ArticleFetchResult where
  url : List Char
  html : List Char
  status : Nat
deriving DecidableEq, Repr

/-- The fields of a census law record that `ingestAct` reads. -/
structure CensusLawMeta where
  id : List Char
  type : List Char
  title : List Char
  date : List Char
  url : List Char
deriving DecidableEq, Repr

/-- `ParsedAct` seed record as written by `ingestAct`. -/
structure ParsedAct where
  id : List Char
  type : List Char
  title : List Char
  short_name : List Char
  status : List Char
  issued_date : List Char
  url : List Char
  provisions : List ProvisionSeed
deriving DecidableEq, Repr

/-- The empty seed written by `ingestAct` on a fetch error or when no
articles were fetched. -/
def emptySeed (law : CensusLawMeta) : ParsedAct :=
  { id := law.id, type := law.type, title := law.title, short_name := law.title,
    status := "in_force".data, issued_date := law.date, url := law.url, provisions := [] }

/-- One iteration of the article loop in `ingestAct`: a parse failure
contributes nothing; an article whose `provision_ref` was already seen is
discarded; otherwise the provision is appended and its ref recorded. -/
def selectStep (st : List ProvisionSeed × List (List Char))
    (parsed : Option ProvisionSeed) : List ProvisionSeed × List (List Char) :=
  match parsed with
  | none => st
  | some p =>
    if p.provision_ref ∈ st.2 then st
    else (st.1 ++ [p], st.2 ++ [p.provision_ref])

/-- The provision-selection loop of `ingestAct` over the per-article parse
results (`parseArticleHtml(html) ?? parseAttachmentArticleHtml(html)`). -/
def ingestSelect (parsedArticles : List (Option ProvisionSeed)) : List ProvisionSeed :=
  (parsedArticles.foldl selectStep ([], [])).1

/-- `ingestAct` from the census-driven ingestion pipeline, abstracted over
the two HTML parsers and over the outcome of `fetchAllArticles` (an
exception, or the list of fetched articles). Returns the seed record it
writes together with its `failed` flag. -/
def ingestAct (parseArticleHtml parseAttachmentArticleHtml : List Char → Option ProvisionSeed)
    (law : CensusLawMeta) (fetched : Except Unit (List ArticleFetchResult)) :
    ParsedAct × Bool :=
  match fetched with
  | .error _ => (emptySeed law, true)
  | .ok articles =>
    if articles.length = 0 then (emptySeed law, true)
    else
      let provisions := ingestSelect (articles.map fun a =>
        (parseArticleHtml a.html).orElse fun _ => parseAttachmentArticleHtml a.html)
      ({ emptySeed law with provisions := provisions }, false)

/-- C9: every seed record `ingestAct` writes — on success, on an empty
article list, and on a fetch error alike — carries lifecycle status
`"in_force"`; the pipeline never emits `"amended"`, `"repealed"` or
`"not_yet_in_force"`, whatever the parsers and the fetch outcome do. -/
theorem ingestAct_status_always_in_force
    (parseArticleHtml parseAttachmentArticleHtml : List Char → Option ProvisionSeed)
    (law : CensusLawMeta) (fetched : Except Unit (List ArticleFetchResult)) :
    (ingestAct parseArticleHtml parseAttachmentArticleHtml law fetched).1.status
        = "in_force".data ∧
    (ingestAct parseArticleHtml parseAttachmentArticleHtml law fetched).1.status
        ≠ "amended".data ∧
    (ingestAct parseArticleHtml parseAttachmentArticleHtml law fetched).1.status
        ≠ "repealed".data ∧
    (ingestAct parseArticleHtml parseAttachmentArticleHtml law fetched).1.status
        ≠ "not_yet_in_force".data := by
  have h : (ingestAct parseArticleHtml parseAttachmentArticleHtml law fetched).1.status
      = "in_force".data := by
    cases fetched with
    | error e => simp [ingestAct, emptySeed]
    | ok articles =>
      by_cases ha : articles.length = 0 <;> simp [ingestAct, emptySeed, ha]
  exact ⟨h, by rw [h]; decide, by rw [h]; decide, by rw [h]; decide⟩

theorem selectFold_seen (l : List (Option ProvisionSeed)) :
    ∀ sel seen, seen = sel.map (·.provision_ref) →
      (l.foldl selectStep (sel, seen)).2 = (l.foldl selectStep (sel, seen)).1.map (·.provision_ref) := by
  induction l with
  | nil => intro sel seen h; simpa using h
  | cons a t ih =>
    intro sel seen h
    cases a with
    | none => simpa [selectStep] using ih sel seen h
    | some p =>
      by_cases hp : p.provision_ref ∈ seen
      · simpa [selectStep, hp] using ih sel seen h
      · have := ih (sel ++ [p]) (seen ++ [p.provision_ref]) (by simp [h])
        simpa [selectStep, hp] using this

theorem selectFold_nodup (l : List (Option ProvisionSeed)) :
    ∀ sel seen, seen = sel.map (·.provision_ref) → seen.Nodup →
      ((l.foldl selectStep (sel, seen)).1.map (·.provision_ref)).Nodup := by
  induction l with
  | nil => intro sel seen h hnd; simpa [← h] using hnd
  | cons a t ih =>
    intro sel seen h hnd
    cases a with
    | none => simpa [selectStep] using ih sel seen h hnd
    | some p =>
      by_cases hp : p.provision_ref ∈ seen
      · simpa [selectStep, hp] using ih sel seen h hnd
      · have hnd' : (seen ++ [p.provision_ref]).Nodup := by
          rw [List.nodup_append]
          refine ⟨hnd, by simp, ?_⟩
          intro x hx hx2
          simp at hx2
          subst hx2
          exact hp hx
        simpa [selectStep, hp] using
          ih (sel ++ [p]) (seen ++ [p.provision_ref]) (by simp [h]) hnd'

theorem filter_eq_nil_of_not_mem (sel : List ProvisionSeed) (r : List Char)
    (h : r ∉ sel.map (·.provision_ref)) :
    sel.filter (fun p => p.provision_ref == r) = [] := by
  rw [List.filter_eq_nil]
  intro p hp
  simp only [beq_iff_eq]
  intro hr
  exact h (by rw [← hr]; exact List.mem_map_of_mem _ hp)

theorem selectFold_filter (l : List (Option ProvisionSeed)) :
    ∀ sel seen, seen = sel.map (·.provision_ref) → ∀ r,
      ((l.foldl selectStep (sel, seen)).1.filter (fun p => p.provision_ref == r)) =
        sel.filter (fun p => p.provision_ref == r) ++
          (if r ∈ seen then []
           else ((l.filterMap id).filter (fun p => p.provision_ref == r)).take 1) := by
  induction l with
  | nil =>
    intro sel seen h r
    by_cases hr : r ∈ seen <;> simp [hr]
  | cons a t ih =>
    intro sel seen h r
    cases a with
    | none => simpa [selectStep] using ih sel seen h r
    | some p =>
      by_cases hp : p.provision_ref ∈ seen
      · -- duplicate ref: state unchanged, and `p` cannot contribute to an
        -- unseen ref `r`
        rw [List.foldl_cons, show selectStep (sel, seen) (some p) = (sel, seen) from by
          simp [selectStep, hp]]
        rw [ih sel seen h r]
        by_cases hr : r ∈ seen
        · simp [hr]
        · have hne : ¬ (p.provision_ref == r) = true := by
            simp only [beq_iff_eq]
            intro hh
            exact hr (hh ▸ hp)
          simp [hr, List.filterMap_cons, List.filter_cons, hne]
      · rw [List.foldl_cons, show selectStep (sel, seen) (some p) =
            (sel ++ [p], seen ++ [p.provision_ref]) from by simp [selectStep, hp]]
        rw [ih (sel ++ [p]) (seen ++ [p.provision_ref]) (by simp [h]) r]
        by_cases hr : r = p.provision_ref
        · subst hr
          have hsel : sel.filter (fun q => q.provision_ref == p.provision_ref) = [] :=
            filter_eq_nil_of_not_mem sel _ (h ▸ hp)
          simp [List.filter_append, hsel, hp, List.filterMap_cons, List.filter_cons]
        · have hne : ¬ (p.provision_ref == r) = true := by
            simp only [beq_iff_eq]
            exact fun hh => hr hh.symm
          by_cases hrs : r ∈ seen
          · simp [List.filter_append, hne, hrs, hr, List.filterMap_cons, List.filter_cons]
          · simp [List.filter_append, hne, hrs, hr, List.filterMap_cons, List.filter_cons]

theorem dedupe_noop_fold (l : List ProvisionSeed) :
    ∀ (acc : List ProvisionSeed) (stats : ProvisionDedupStats),
      (∀ p ∈ acc ++ l, trimChars p.provision_ref = p.provision_ref) →
      ((acc ++ l).map (·.provision_ref)).Nodup →
      l.foldl dedupeStep (acc.map (fun p => (p.provision_ref, p)), stats)
        = ((acc ++ l).map (fun p => (p.provision_ref, p)), stats) := by
  induction l with
  | nil => intro acc stats _ _; simp
  | cons x t ih =>
    intro acc stats htrim hnd
    have hx : trimChars x.provision_ref = x.provision_ref :=
      htrim x (by simp)
    have hxacc : x.provision_ref ∉ acc.map (·.provision_ref) := by
      intro hmem
      have : ¬ ((acc ++ x :: t).map (·.provision_ref)).Nodup := by
        simp only [List.map_append, List.map_cons, List.nodup_append]
        intro ⟨_, _, hdisj⟩
        exact hdisj hmem (by simp)
      exact this hnd
    have hkeys : mapKeys (acc.map (fun p => (p.provision_ref, p)))
        = acc.map (·.provision_ref) := by
      simp [mapKeys, List.map_map]
    have hget : mapGet (acc.map (fun p => (p.provision_ref, p))) x.provision_ref = none := by
      rw [mapGet_eq_none_iff, hkeys]
      exact hxacc
    rw [List.foldl_cons]
    have hstep : dedupeStep (acc.map (fun p => (p.provision_ref, p)), stats) x
        = ((acc ++ [x]).map (fun p => (p.provision_ref, p)), stats) := by
      simp only [dedupeStep, hx, hget]
      rw [mapSet_not_mem _ _ _ (by rw [hkeys]; exact hxacc)]
      simp
    rw [hstep]
    have := ih (acc ++ [x]) stats (by simpa using htrim) (by simpa using hnd)
    simpa using this

theorem dedupe_noop (l : List ProvisionSeed)
    (htrim : ∀ p ∈ l, trimChars p.provision_ref = p.provision_ref)
    (hnd : (l.map (·.provision_ref)).Nodup) :
    dedupeProvisions l = (l, ⟨0, 0⟩) := by
  have h := dedupe_noop_fold l [] ⟨0, 0⟩ (by simpa using htrim) (by simpa using hnd)
  simp only [List.map_nil, List.nil_append] at h
  unfold dedupeProvisions
  rw [h]
  simp [List.map_map]
  exact List.map_id l

/-- C10: within one Act's ingestion, for every reference token only the
first successfully parsed article survives (later duplicates are discarded
regardless of content), so the seed's provision list has pairwise-distinct
`provision_ref`s, and on such a list the longer-body dedup rule of the
database build is a no-op (it returns the list unchanged with zero
duplicate statistics). -/
theorem ingestAct_first_parse_wins
    (parseArticleHtml parseAttachmentArticleHtml : List Char → Option ProvisionSeed)
    (law : CensusLawMeta) (articles : List ArticleFetchResult)
    (hne : articles ≠ []) :
    (ingestAct parseArticleHtml parseAttachmentArticleHtml law (.ok articles)).1.provisions
        = ingestSelect (articles.map fun a =>
            (parseArticleHtml a.html).orElse fun _ => parseAttachmentArticleHtml a.html) ∧
    (∀ parsed : List (Option ProvisionSeed), ∀ r,
      (ingestSelect parsed).filter (fun p => p.provision_ref == r) =
        ((parsed.filterMap id).filter (fun p => p.provision_ref == r)).take 1) ∧
    (∀ parsed : List (Option ProvisionSeed),
      ((ingestSelect parsed).map (·.provision_ref)).Nodup) ∧
    (∀ parsed : List (Option ProvisionSeed),
      (∀ p ∈ ingestSelect parsed, trimChars p.provision_ref = p.provision_ref) →
      dedupeProvisions (ingestSelect parsed) = (ingestSelect parsed, ⟨0, 0⟩)) := by
  refine ⟨?_, ?_, ?_, ?_⟩
  · have hlen : ¬ articles.length = 0 := by
      simpa [List.length_eq_zero] using hne
    simp [ingestAct, hlen]
  · intro parsed r
    have h := selectFold_filter parsed [] [] (by simp) r
    simpa [ingestSelect] using h
  · intro parsed
    exact selectFold_nodup parsed [] [] (by simp) (by simp)
  · intro parsed htrim
    exact dedupe_noop _ htrim (selectFold_nodup parsed [] [] (by simp) (by simp))

/-- Witness for C10: two articles parsing to the same ref keep only the
first parse, even though the later duplicate has longer content. -/
theorem ingestAct_first_parse_wins_witness :
    ([⟨"u1".data, "A".data, 200⟩, ⟨"u2".data, "B".data, 200⟩]
        : List ArticleFetchResult) ≠ [] ∧
    (ingestAct
        (fun h => if h = "A".data then
            some { provision_ref := "art1".data, sectionRef := "1".data,
                   content := "body".data }
          else if h = "B".data then
            some { provision_ref := "art1".data, sectionRef := "1".data,
                   content := "much longer body".data }
          else none)
        (fun _ => none)
        ⟨"dlgs-196-2003".data, "dlgs".data, "t".data, "d".data, "u".data⟩
        (.ok [⟨"u1".data, "A".data, 200⟩, ⟨"u2".data, "B".data, 200⟩])).1.provisions
      = [{ provision_ref := "art1".data, sectionRef := "1".data,
           content := "body".data }] := by
  refine ⟨by decide, ?_⟩
  have h := ingestAct_first_parse_wins
    (fun h => if h = "A".data then
        some { provision_ref := "art1".data, sectionRef := "1".data,
               content := "body".data }
      else if h = "B".data then
        some { provision_ref := "art1".data, sectionRef := "1".data,
               content := "much longer body".data }
      else none)
    (fun _ => none)
    ⟨"dlgs-196-2003".data, "dlgs".data, "t".data, "d".data, "u".data⟩
    [⟨"u1".data, "A".data, 200⟩, ⟨"u2".data, "B".data, 200⟩]
    (by decide)
  rw [h.1]
  decide

/- ── fetchWithSession and rateLimit (scripts/lib/fetcher.ts) ─────────────── -/

/-- `response.status === 429 || response.status >= 500`. -/
def isTransientStatus (status : Nat) : Bool := status == 429 || 500 ≤ status

/-- `MIN_DELAY_MS` from scripts/lib/fetcher.ts. -/
def MIN_DELAY_MS : Nat := 150

/-- Trace of one `fetchWithSession` call: the status of every request
issued, the backoff delays slept between attempts, and the outcome —
`Except.ok status` for a normal return of the last response, or
`Except.error ()` for the `throw new Error` after the loop. -/
instance : DecidableEq (Except Unit Nat) := fun a b =>
  match a, b with
  | .ok x, .ok y => if h : x = y then .isTrue (by rw [h]) else .isFalse (by simp [h])
  | .error _, .error _ => .isTrue (by rfl)
  | .ok _, .error _ => .isFalse (by simp)
  | .error _, .ok _ => .isFalse (by simp)

structure SessionFetchRun where
  statuses : List Nat
  backoffs : List Nat
  outcome : Except Unit Nat
deriving DecidableEq, Repr

/-- The retry loop of `fetchWithSession`, with the environment's responses
given as a function from attempt index to HTTP status. `fuel` counts the
loop iterations still available (`maxRetries + 1 - attempt`); running out
of fuel corresponds to falling through the loop to the final `throw`. -/
def fetchWithSessionGo (resp : Nat → Nat) (maxRetries : Nat) :
    Nat → Nat → SessionFetchRun
  | _, 0 => ⟨[], [], .error ()⟩
  | attempt, fuel + 1 =>
    let st := resp attempt
    if isTransientStatus st = true ∧ attempt < maxRetries then
      let rest := fetchWithSessionGo resp maxRetries (attempt + 1) fuel
      ⟨st :: rest.statuses, 2 ^ (attempt + 1) * 1000 :: rest.backoffs, rest.outcome⟩
    else ⟨[st], [], .ok st⟩

/-- `fetchWithSession(url, maxRetries = 3)` from scripts/lib/fetcher.ts,
projected onto its retry/return behaviour (cookie bookkeeping does not
affect which attempts happen or what is returned). -/
def fetchWithSession (resp : Nat → Nat) (maxRetries : Nat) : SessionFetchRun :=
  fetchWithSessionGo resp maxRetries 0 (maxRetries + 1)

theorem fetchGo_ok (resp : Nat → Nat) (maxRetries : Nat) :
    ∀ fuel attempt, attempt + fuel = maxRetries + 1 → attempt ≤ maxRetries →
      ∃ st, (fetchWithSessionGo resp maxRetries attempt fuel).outcome = .ok st := by
  intro fuel
  induction fuel with
  | zero => intro attempt h1 h2; omega
  | succ f ih =>
    intro attempt h1 h2
    by_cases hc : isTransientStatus (resp attempt) = true ∧ attempt < maxRetries
    · have h3 := ih (attempt + 1) (by omega) (by omega)
      obtain ⟨st, hst⟩ := h3
      exact ⟨st, by simp only [fetchWithSessionGo, hc, if_true]; exact hst⟩
    · exact ⟨resp attempt, by simp only [fetchWithSessionGo, hc, if_false]⟩

/-- C4 (refuting the fatal-error part): `fetchWithSession` retries only on
429/5xx with per-attempt backoff `2^(attempt+1) * 1000` ms (doubling), a
non-transient status is returned as-is with no retry — but on the failing
input where every response is HTTP 500, all `maxRetries + 1 = 4` attempts
return 500 and the function returns the last 500 response as a *normal*
result: the `throw new Error(...)` after the loop is unreachable for every
response sequence and retry bound. -/
theorem fetchWithSession_exhaustion_not_fatal :
    (∀ (resp : Nat → Nat) (maxRetries : Nat),
        (fetchWithSession resp maxRetries).outcome ≠ .error ()) ∧
    fetchWithSession (fun _ => 404) 3 = ⟨[404], [], .ok 404⟩ ∧
    fetchWithSession (fun _ => 500) 3 =
      ⟨[500, 500, 500, 500], [2000, 4000, 8000], .ok 500⟩ := by
  refine ⟨?_, by decide, by decide⟩
  intro resp maxRetries herr
  obtain ⟨st, hst⟩ := fetchGo_ok resp maxRetries (maxRetries + 1) 0 (by omega) (by omega)
  rw [fetchWithSession] at herr
  rw [hst] at herr
  exact Except.noConfusion herr

/-- One call of `rateLimit` from scripts/lib/fetcher.ts, run against the
`lastRequestTime` value it read and the clock value `now` at entry: the
returned value is the time at which the caller proceeds to dispatch its
request (and also the value written back into `lastRequestTime`, since the
code re-reads `Date.now()` after the awaited timeout). -/
def rateLimitStep (last now : Nat) : Nat :=
  if now - last < MIN_DELAY_MS then last + MIN_DELAY_MS else now

/-- Two concurrent batch callers entering `rateLimit` in the same
event-loop tick: each async body runs synchronously up to its first
`await`, and `lastRequestTime` is written only after the awaited timeout
resolves, so both callers read the same `lastRequestTime` snapshot before
either caller writes it. -/
def concurrentIssueTimes (last now : Nat) : Nat × Nat :=
  (rateLimitStep last now, rateLimitStep last now)

/-- The serialized discipline the specification asserts: the second caller
enters the gate only after the first caller has dispatched and updated
`lastRequestTime`. -/
def serializedIssueTimes (last now : Nat) : Nat × Nat :=
  let t1 := rateLimitStep last now
  (t1, rateLimitStep t1 t1)

/-- C8 (refutation): with `lastRequestTime = 1000` and both batch callers
entering `rateLimit` at clock 1100, both issue their requests at time 1150
with zero separation — the check-then-act pattern of `rateLimit` does not
serialize concurrent callers — whereas serialized callers would be
separated by exactly the 150 ms minimum delay. -/
theorem rateLimit_concurrent_race :
    concurrentIssueTimes 1000 1100 = (1150, 1150) ∧
    (concurrentIssueTimes 1000 1100).2 - (concurrentIssueTimes 1000 1100).1 = 0 ∧
    ((concurrentIssueTimes 1000 1100).2 - (concurrentIssueTimes 1000 1100).1
        < MIN_DELAY_MS) ∧
    (serializedIssueTimes 1000 1100).2 - (serializedIssueTimes 1000 1100).1
        = MIN_DELAY_MS := by
  refine ⟨by decide, by decide, by decide, by decide⟩

/- ── extractArticleUrls (scripts/lib/fetcher.ts) ─────────────────────────── -/

/-- Characters matched by `[^'")\s]` in the scan regex
`caricaArticolo\?([^'")\s]+)`. -/
def isParamC (c : Char) : Bool :=
  !(c == '\'' || c == '"' || c == ')' || isWsC c)

def caricaLit : List Char := "caricaArticolo?".data

/-- The global-regex scan loop of `extractArticleUrls`: at each position
where the literal `caricaArticolo?` is followed by at least one parameter
character, the maximal parameter run is captured and scanning resumes
after it; otherwise scanning advances one character. `fuel` is the input
length (each step consumes at least one character). -/
def scanDirectivesGo : Nat → List Char → List (List Char)
  | 0, _ => []
  | _ + 1, [] => []
  | fuel + 1, c :: t =>
    if caricaLit.isPrefixOf (c :: t) then
      let after := (c :: t).drop caricaLit.length
      let params := after.takeWhile isParamC
      if params.isEmpty then scanDirectivesGo fuel t
      else params :: scanDirectivesGo fuel (after.dropWhile isParamC)
    else scanDirectivesGo fuel t

def scanDirectives (html : List Char) : List (List Char) :=
  scanDirectivesGo html.length html

/-- `needle` occurs as a contiguous substring (JS `String.prototype.includes`). -/
def containsSub (needle : List Char) : List Char → Bool
  | [] => needle.isEmpty
  | c :: t => needle.isPrefixOf (c :: t) || containsSub needle t

/-- First capture of a regex `<lit>(\d+)` applied to a string: the maximal
digit run after the first occurrence of the literal that is followed by at
least one digit (`params.match(/art\.idArticolo=(\d+)/)?.[1]`). -/
def findNumParam (lit : List Char) : List Char → Option (List Char)
  | [] => none
  | c :: t =>
    if lit.isPrefixOf (c :: t) then
      let after := (c :: t).drop lit.length
      let ds := after.takeWhile isDigitC
      if ds.isEmpty then findNumParam lit t else some ds
    else findNumParam lit t

/-- `params.replace(/ /g, '%20')`. -/
def replaceSpaces : List Char → List Char
  | [] => []
  | c :: t => if c == ' ' then '%' :: '2' :: '0' :: replaceSpaces t else c :: replaceSpaces t

/-- `params.replace(/&$/, '')`: drop a single trailing ampersand. -/
def dropTrailingAmp (params : List Char) : List Char :=
  match params.reverse with
  | '&' :: rest => rest.reverse
  | _ => params

/-- `params.replace(/&$/, '').replace(/ /g, '%20')`. -/
def cleanParams (params : List Char) : List Char :=
  replaceSpaces (dropTrailingAmp params)

/-- One deduplication-map entry of `extractArticleUrls`; the JS map key
`` `${idArticolo}:${idSottoArticolo}` `` is represented by the pair of the
two captured digit strings (they contain no `:`), and the stored URL by its
parameter part (the prefix `BASE_URL + "/atto/caricaArticolo?"` is
constant). -/
structure UrlEntry where
  idArticolo : List Char
  idSottoArticolo : List Char
  version : Nat
  params : List Char
deriving DecidableEq, Repr

def dirKey (e : UrlEntry) : List Char × List Char := (e.idArticolo, e.idSottoArticolo)

def directiveEntry (params : List Char) : UrlEntry :=
  { idArticolo := (findNumParam "art.idArticolo=".data params).getD []
    idSottoArticolo := (findNumParam "art.idSottoArticolo=".data params).getD []
    version := parseNat ((findNumParam "art.versione=".data params).getD "0".data)
    params := cleanParams params }

/-- `seen.set(key, ...)` guarded by `!existing || version > existing.version`:
a fresh key is appended, an existing key is overwritten in place only by a
strictly higher version. -/
def upsertEntry (seen : List UrlEntry) (e : UrlEntry) : List UrlEntry :=
  match seen with
  | [] => [e]
  | x :: t =>
    if dirKey x = dirKey e then
      if e.version > x.version then e :: t else x :: t
    else x :: upsertEntry t e

def isHistorical (params : List Char) : Bool := containsSub "imUpdate=true".data params

def buildEntries (directives : List (List Char)) : List UrlEntry :=
  directives.foldl
    (fun seen params =>
      if isHistorical params then seen else upsertEntry seen (directiveEntry params))
    []

/-- The sort comparator `aArt - bArt || aSub - bSub` on numeric key values
(`Number('') = 0` for a missing capture, like `parseNat [] = 0`). -/
def entryLE (a b : UrlEntry) : Prop :=
  parseNat a.idArticolo < parseNat b.idArticolo ∨
    (parseNat a.idArticolo = parseNat b.idArticolo ∧
      parseNat a.idSottoArticolo ≤ parseNat b.idSottoArticolo)

instance : DecidableRel entryLE := fun a b => by unfold entryLE; infer_instance

instance : IsTotal UrlEntry entryLE := ⟨by intro a b; unfold entryLE; omega⟩

instance : IsTrans UrlEntry entryLE := ⟨by intro a b c; unfold entryLE; omega⟩

def BASE_URL : List Char := "https://www.normattiva.it".data

/-- The deduplicated entries of `extractArticleUrls`, in output order.
JS `Array.prototype.sort` is a stable sort driven by the comparator; it is
modelled by stable insertion sort over `entryLE`. -/
def extractArticleEntries (html : List Char) : List UrlEntry :=
  (buildEntries (scanDirectives html)).insertionSort entryLE

/-- `extractArticleUrls` from scripts/lib/fetcher.ts. -/
def extractArticleUrls (html : List Char) : List (List Char) :=
  (extractArticleEntries html).map fun e =>
    BASE_URL ++ "/atto/caricaArticolo?".data ++ e.params

def keptDirectives (html : List Char) : List (List Char) :=
  (scanDirectives html).filter (fun p => !isHistorical p)

/-- Highest version among the non-historical directives with a given key. -/
def maxVersion (es : List UrlEntry) (k : List Char × List Char) : Nat :=
  ((es.filter (fun x => dirKey x = k)).map (·.version)).foldl max 0

theorem maxVersion_append_single (p : List UrlEntry) (x : UrlEntry)
    (k : List Char × List Char) :
    maxVersion (p ++ [x]) k =
      if dirKey x = k then max (maxVersion p k) x.version else maxVersion p k := by
  unfold maxVersion
  rw [List.filter_append, List.map_append, List.foldl_append]
  by_cases h : dirKey x = k <;> simp [h]

theorem maxVersion_of_no_mem (p : List UrlEntry) (k : List Char × List Char)
    (h : ∀ x ∈ p, dirKey x ≠ k) : maxVersion p k = 0 := by
  unfold maxVersion
  rw [List.filter_eq_nil_iff.mpr (by intro x hx; simpa using h x hx)]
  rfl

theorem upsert_of_fresh (acc : List UrlEntry) (x : UrlEntry)
    (h : ∀ e ∈ acc, dirKey e ≠ dirKey x) : upsertEntry acc x = acc ++ [x] := by
  induction acc with
  | nil => rfl
  | cons a t ih =>
    have ha : dirKey a ≠ dirKey x := h a (by simp)
    simp only [upsertEntry, ha, if_false, List.cons_append, List.cons.injEq, true_and]
    exact ih fun e he => h e (List.mem_cons_of_mem _ he)

theorem upsert_of_found (x : UrlEntry) :
    ∀ (l1 : List UrlEntry) (y : UrlEntry) (l2 : List UrlEntry),
      dirKey y = dirKey x → (∀ e ∈ l1, dirKey e ≠ dirKey x) →
      upsertEntry (l1 ++ y :: l2) x =
        l1 ++ (if x.version > y.version then x else y) :: l2 := by
  intro l1
  induction l1 with
  | nil =>
    intro y l2 hy _
    simp only [List.nil_append, upsertEntry, hy, if_true]
    by_cases hv : x.version > y.version <;> simp [hv]
  | cons a t ih =>
    intro y l2 hy h1
    have ha : dirKey a ≠ dirKey x := h1 a (by simp)
    simp only [List.cons_append, upsertEntry, ha, if_false, List.cons.injEq, true_and]
    exact ih y l2 hy fun e he => h1 e (List.mem_cons_of_mem _ he)

theorem exists_first_split {α : Type} (P : α → Prop) [DecidablePred P] :
    ∀ (l : List α), (∃ y ∈ l, P y) →
      ∃ l1 y l2, l = l1 ++ y :: l2 ∧ P y ∧ ∀ e ∈ l1, ¬P e := by
  intro l
  induction l with
  | nil => rintro ⟨y, hy, _⟩; simp at hy
  | cons a t ih =>
    intro hex
    by_cases ha : P a
    · exact ⟨[], a, t, by simp, ha, by simp⟩
    · have : ∃ y ∈ t, P y := by
        obtain ⟨y, hy, hPy⟩ := hex
        rcases List.mem_cons.mp hy with rfl | hy'
        · exact absurd hPy ha
        · exact ⟨y, hy', hPy⟩
      obtain ⟨l1, y, l2, heq, hPy, hnone⟩ := ih this
      refine ⟨a :: l1, y, l2, by simp [heq], hPy, ?_⟩
      intro e he
      rcases List.mem_cons.mp he with rfl | he'
      · exact ha
      · exact hnone e he'

/-- Invariant of the deduplication map of `extractArticleUrls`: keys are
pairwise distinct, the key set equals the key set of the processed
directives, and each stored entry is one of the processed entries and
carries the highest version seen for its key. -/
def UpsertInv (processed acc : List UrlEntry) : Prop :=
  (acc.map dirKey).Nodup ∧
  (∀ k, (∃ e ∈ acc, dirKey e = k) ↔ ∃ x ∈ processed, dirKey x = k) ∧
  (∀ e ∈ acc, e ∈ processed ∧ e.version = maxVersion processed (dirKey e))

theorem upsert_inv (processed acc : List UrlEntry) (x : UrlEntry)
    (h : UpsertInv processed acc) : UpsertInv (processed ++ [x]) (upsertEntry acc x) := by
  obtain ⟨hnd, hkeys, hmax⟩ := h
  by_cases hfresh : ∀ e ∈ acc, dirKey e ≠ dirKey x
  · rw [upsert_of_fresh acc x hfresh]
    have hnotp : ∀ z ∈ processed, dirKey z ≠ dirKey x := by
      intro z hz hzk
      obtain ⟨e, he, hek⟩ := (hkeys (dirKey x)).mpr ⟨z, hz, hzk⟩
      exact hfresh e he hek
    refine ⟨?_, ?_, ?_⟩
    · rw [List.map_append, List.nodup_append]
      refine ⟨hnd, by simp, ?_⟩
      intro k hk hk2
      simp at hk2
      obtain ⟨e, he, hek⟩ := List.mem_map.mp hk
      exact hfresh e he (by rw [hek, hk2])
    · intro k
      constructor
      · rintro ⟨e, he, hek⟩
        rcases List.mem_append.mp he with he' | he'
        · obtain ⟨z, hz, hzk⟩ := (hkeys k).mp ⟨e, he', hek⟩
          exact ⟨z, List.mem_append_left _ hz, hzk⟩
        · simp at he'
          exact ⟨x, List.mem_append_right _ (by simp), by rw [← he']; exact hek⟩
      · rintro ⟨z, hz, hzk⟩
        rcases List.mem_append.mp hz with hz' | hz'
        · obtain ⟨e, he, hek⟩ := (hkeys k).mpr ⟨z, hz', hzk⟩
          exact ⟨e, List.mem_append_left _ he, hek⟩
        · simp at hz'
          exact ⟨x, List.mem_append_right _ (by simp), by rw [← hz']; exact hzk⟩
    · intro e he
      rcases List.mem_append.mp he with he' | he'
      · obtain ⟨hmem, hver⟩ := hmax e he'
        refine ⟨List.mem_append_left _ hmem, ?_⟩
        rw [maxVersion_append_single]
        have : dirKey x ≠ dirKey e := fun hh => hfresh e he' hh.symm
        simp [this, hver]
      · simp at he'
        subst he'
        refine ⟨List.mem_append_right _ (by simp), ?_⟩
        rw [maxVersion_append_single]
        simp [maxVersion_of_no_mem processed (dirKey e) hnotp]
  · push_neg at hfresh
    obtain ⟨l1, y, l2, heq, hy, hl1⟩ :=
      exists_first_split (fun e => dirKey e = dirKey x) acc hfresh
    subst heq
    rw [upsert_of_found x l1 y l2 hy hl1]
    have hyp := hmax y (by simp)
    set z := if x.version > y.version then x else y with hz
    have hzk : dirKey z = dirKey y := by
      rw [hz]
      by_cases hv : x.version > y.version <;> simp [hv, hy]
    have hndparts : (l1.map dirKey).Nodup ∧ dirKey y ∉ l2.map dirKey ∧
        (l2.map dirKey).Nodup ∧ (l1.map dirKey).Disjoint (dirKey y :: l2.map dirKey) := by
      rw [List.map_append, List.map_cons, List.nodup_append] at hnd
      obtain ⟨h1, h2, h3⟩ := hnd
      rw [List.nodup_cons] at h2
      exact ⟨h1, h2.1, h2.2, h3⟩
    have hl2 : ∀ e ∈ l2, dirKey e ≠ dirKey x := by
      intro e he hek
      exact hndparts.2.1 (by rw [hy, ← hek]; exact List.mem_map_of_mem dirKey he)
    refine ⟨?_, ?_, ?_⟩
    · rw [List.map_append, List.map_cons, hzk]
      rw [List.map_append, List.map_cons] at hnd
      exact hnd
    · intro k
      constructor
      · rintro ⟨e, he, hek⟩
        rcases List.mem_append.mp he with he' | he'
        · obtain ⟨w, hw, hwk⟩ := (hkeys k).mp ⟨e, by simp [he'], hek⟩
          exact ⟨w, List.mem_append_left _ hw, hwk⟩
        · rcases List.mem_cons.mp he' with rfl | he''
          · obtain ⟨w, hw, hwk⟩ := (hkeys k).mp ⟨y, by simp, by rw [← hzk, hek]⟩
            exact ⟨w, List.mem_append_left _ hw, hwk⟩
          · obtain ⟨w, hw, hwk⟩ := (hkeys k).mp ⟨e, by simp [he''], hek⟩
            exact ⟨w, List.mem_append_left _ hw, hwk⟩
      · rintro ⟨w, hw, hwk⟩
        rcases List.mem_append.mp hw with hw' | hw'
        · obtain ⟨e, he, hek⟩ := (hkeys k).mpr ⟨w, hw', hwk⟩
          rcases List.mem_append.mp he with he' | he'
          · exact ⟨e, List.mem_append_left _ he', hek⟩
          · rcases List.mem_cons.mp he' with rfl | he''
            · exact ⟨z, List.mem_append_right _ (by simp), by rw [hzk]; exact hek⟩
            · exact ⟨e, List.mem_append_right _ (by simp [he'']), hek⟩
        · simp at hw'
          subst hw'
          exact ⟨z, List.mem_append_right _ (by simp), by rw [hzk, hy]; exact hwk⟩
    · intro e he
      rcases List.mem_append.mp he with he' | he'
      · obtain ⟨hmem, hver⟩ := hmax e (by simp [he'])
        refine ⟨List.mem_append_left _ hmem, ?_⟩
        rw [maxVersion_append_single]
        have : dirKey x ≠ dirKey e := fun hh => hl1 e he' hh.symm
        simp [this, hver]
      · rcases List.mem_cons.mp he' with rfl | he''
        · -- the surviving entry for the contested key
          have hmv : maxVersion (processed ++ [x]) (dirKey z) =
              max y.version x.version := by
            rw [maxVersion_append_single]
            rw [if_pos (show dirKey x = dirKey z from by rw [hzk, hy])]
            rw [show maxVersion processed (dirKey z) = y.version from by
              rw [hzk]; exact hyp.2.symm]
          constructor
          · rw [hz]
            by_cases hv : x.version > y.version
            · simp only [hv, if_true]
              exact List.mem_append_right _ (by simp)
            · simp only [hv, if_false]
              exact List.mem_append_left _ hyp.1
          · rw [hmv, hz]
            by_cases hv : x.version > y.version
            · simp only [hv, if_true]; omega
            · simp only [hv, if_false]; omega
        · obtain ⟨hmem, hver⟩ := hmax e (by simp [he''])
          refine ⟨List.mem_append_left _ hmem, ?_⟩
          rw [maxVersion_append_single]
          have : dirKey x ≠ dirKey e := fun hh => hl2 e he'' hh.symm
          simp [this, hver]

theorem buildFold_inv (es : List UrlEntry) :
    ∀ processed acc, UpsertInv processed acc →
      UpsertInv (processed ++ es) (es.foldl upsertEntry acc) := by
  induction es with
  | nil => intro p a h; simpa using h
  | cons x t ih =>
    intro p a h
    have h' := upsert_inv p a x h
    have h2 := ih (p ++ [x]) (upsertEntry a x) h'
    simpa using h2

theorem foldl_skip_filter (ds : List (List Char)) :
    ∀ acc, ds.foldl (fun seen params =>
        if isHistorical params then seen else upsertEntry seen (directiveEntry params)) acc
      = ((ds.filter (fun p => !isHistorical p)).map directiveEntry).foldl upsertEntry acc := by
  induction ds with
  | nil => intro acc; rfl
  | cons d t ih =>
    intro acc
    by_cases h : isHistorical d <;>
      simp [List.filter_cons, h, ih]

theorem buildEntries_inv (ds : List (List Char)) :
    UpsertInv ((ds.filter (fun p => !isHistorical p)).map directiveEntry)
      (buildEntries ds) := by
  unfold buildEntries
  rw [foldl_skip_filter]
  have h := buildFold_inv ((ds.filter (fun p => !isHistorical p)).map directiveEntry)
    [] [] ⟨by simp, by simp, by simp⟩
  simpa using h

theorem scanDirectivesGo_chars (fuel : Nat) :
    ∀ s ps, ps ∈ scanDirectivesGo fuel s → ∀ c ∈ ps, isParamC c = true := by
  induction fuel with
  | zero => intro s ps h; simp [scanDirectivesGo] at h
  | succ f ih =>
    intro s ps h
    match s with
    | [] => simp [scanDirectivesGo] at h
    | c0 :: t =>
      by_cases hp : caricaLit.isPrefixOf (c0 :: t)
      · by_cases hemp : (((c0 :: t).drop caricaLit.length).takeWhile isParamC).isEmpty
        · rw [show scanDirectivesGo (f + 1) (c0 :: t) = scanDirectivesGo f t from by
            simp [scanDirectivesGo, hp, hemp]] at h
          exact ih t ps h
        · rw [show scanDirectivesGo (f + 1) (c0 :: t) =
              ((c0 :: t).drop caricaLit.length).takeWhile isParamC ::
                scanDirectivesGo f (((c0 :: t).drop caricaLit.length).dropWhile isParamC)
              from by simp [scanDirectivesGo, hp, hemp]] at h
          rcases List.mem_cons.mp h with heq | h'
          · subst heq
            intro c hc
            exact List.mem_takeWhile_imp hc
          · exact ih _ ps h'
      · rw [show scanDirectivesGo (f + 1) (c0 :: t) = scanDirectivesGo f t from by
          simp [scanDirectivesGo, hp]] at h
        exact ih t ps h

theorem containsSub_iff_infix (needle : List Char) :
    ∀ l, containsSub needle l = true ↔ needle <:+: l := by
  intro l
  induction l with
  | nil =>
    simp only [containsSub, List.isEmpty_iff, List.infix_nil]
  | cons c t ih =>
    simp only [containsSub, Bool.or_eq_true, List.isPrefixOf_iff_prefix, ih,
      List.infix_cons_iff]

theorem containsSub_false_of_prefix (needle l l' : List Char) (hpre : l' <+: l)
    (h : containsSub needle l = false) : containsSub needle l' = false := by
  by_contra hc
  have h1 : containsSub needle l' = true := by
    cases h2 : containsSub needle l' with
    | false => exact absurd h2 hc
    | true => rfl
  have h3 : needle <:+: l := (( containsSub_iff_infix needle l').mp h1).trans hpre.isInfix
  rw [( containsSub_iff_infix needle l).mpr h3] at h
  exact Bool.noConfusion h

theorem dropTrailingAmp_prefix (p : List Char) : dropTrailingAmp p <+: p := by
  unfold dropTrailingAmp
  split
  · next rest hrev =>
    refine ⟨['&'], ?_⟩
    have : p = ('&' :: rest).reverse := by rw [← hrev, List.reverse_reverse]
    rw [this]
    simp
  · exact List.prefix_refl p

theorem replaceSpaces_id (l : List Char) (h : ∀ c ∈ l, (c == ' ') = false) :
    replaceSpaces l = l := by
  induction l with
  | nil => rfl
  | cons c t ih =>
    have hc : (c == ' ') = false := h c (by simp)
    simp only [replaceSpaces, hc, Bool.false_eq_true, if_false, List.cons.injEq, true_and]
    exact ih fun x hx => h x (by simp [hx])

theorem isParamC_not_space (c : Char) (h : isParamC c = true) : (c == ' ') = false := by
  by_contra hc
  have : c = ' ' := by
    cases h2 : (c == ' ') with
    | false => exact absurd h2 hc
    | true => exact beq_iff_eq.mp h2
  subst this
  simp [isParamC, isWsC] at h

theorem cleanParams_no_needle (needle p : List Char)
    (hchars : ∀ c ∈ p, isParamC c = true)
    (h : containsSub needle p = false) : containsSub needle (cleanParams p) = false := by
  unfold cleanParams
  have hpre := dropTrailingAmp_prefix p
  have hsub : ∀ c ∈ dropTrailingAmp p, isParamC c = true := by
    intro c hc
    exact hchars c (hpre.subset hc)
  rw [replaceSpaces_id _ fun c hc => isParamC_not_space c (hsub c hc)]
  exact containsSub_false_of_prefix needle p _ hpre h

/-- C5: for every landing-page HTML string, `extractArticleUrls` emits no
URL whose parameters carry the historical flag `imUpdate=true`; it emits at
most one URL per article identity `(idArticolo, idSottoArticolo)` — the one
of a non-historical directive carrying the highest version number seen for
that identity, and every non-historical identity is represented; and the
output is ordered ascending by the numeric `(idArticolo, idSottoArticolo)`
key. -/
theorem extractArticleUrls_spec (html : List Char) :
    (∀ e ∈ extractArticleEntries html,
        containsSub "imUpdate=true".data e.params = false) ∧
    ((extractArticleEntries html).map dirKey).Nodup ∧
    (∀ e ∈ extractArticleEntries html,
        ∃ p ∈ keptDirectives html, directiveEntry p = e ∧
          e.version = maxVersion ((keptDirectives html).map directiveEntry) (dirKey e)) ∧
    (∀ p ∈ keptDirectives html,
        ∃ e ∈ extractArticleEntries html, dirKey e = dirKey (directiveEntry p)) ∧
    List.Sorted entryLE (extractArticleEntries html) ∧
    extractArticleUrls html = (extractArticleEntries html).map
      (fun e => BASE_URL ++ "/atto/caricaArticolo?".data ++ e.params) := by
  have hinv := buildEntries_inv (scanDirectives html)
  have hperm : List.Perm (extractArticleEntries html) (buildEntries (scanDirectives html)) :=
    List.perm_insertionSort entryLE _
  have hkept : keptDirectives html = (scanDirectives html).filter (fun p => !isHistorical p) := rfl
  obtain ⟨hnd, hkeys, hmax⟩ := hinv
  have hmem3 : ∀ e ∈ extractArticleEntries html,
      ∃ p ∈ keptDirectives html, directiveEntry p = e ∧
        e.version = maxVersion ((keptDirectives html).map directiveEntry) (dirKey e) := by
    intro e he
    have he' : e ∈ buildEntries (scanDirectives html) := hperm.mem_iff.mp he
    obtain ⟨hmem, hver⟩ := hmax e he'
    obtain ⟨p, hp, hpe⟩ := List.mem_map.mp hmem
    exact ⟨p, hkept ▸ hp, hpe, by rw [hkept]; exact hver⟩
  refine ⟨?_, ?_, hmem3, ?_, ?_, rfl⟩
  · intro e he
    obtain ⟨p, hp, hpe, _⟩ := hmem3 e he
    have hpscan : p ∈ scanDirectives html := by
      rw [hkept] at hp
      exact (List.mem_filter.mp hp).1
    have hphist : isHistorical p = false := by
      rw [hkept] at hp
      have := (List.mem_filter.mp hp).2
      simpa using this
    have hchars : ∀ c ∈ p, isParamC c = true :=
      scanDirectivesGo_chars html.length html p hpscan
    have : containsSub "imUpdate=true".data (cleanParams p) = false :=
      cleanParams_no_needle _ p hchars hphist
    rw [← hpe]
    exact this
  · have := hperm.map dirKey
    exact this.nodup_iff.mpr hnd
  · intro p hp
    have hx : ∃ x ∈ ((scanDirectives html).filter (fun q => !isHistorical q)).map directiveEntry,
        dirKey x = dirKey (directiveEntry p) :=
      ⟨directiveEntry p, List.mem_map_of_mem _ (hkept ▸ hp), rfl⟩
    obtain ⟨e, he, hek⟩ := (hkeys (dirKey (directiveEntry p))).mpr hx
    exact ⟨e, hperm.mem_iff.mpr he, hek⟩
  · exact List.sorted_insertionSort entryLE _

set_option maxRecDepth 40000 in
/-- Witness for C5: a landing page listing the same article identity at
versions 1 (flagged historical) and 3 yields exactly the version-3 URL. -/
theorem extractArticleUrls_spec_witness :
    (⟨"7".data, "1".data, 3,
        "art.versione=3&art.idArticolo=7&art.idSottoArticolo=1".data⟩ : UrlEntry) ∈
      extractArticleEntries ("showArticle('/atto/caricaArticolo?art.versione=1&art.idArticolo=7&art.idSottoArticolo=1&art.imUpdate=true') showArticle('/atto/caricaArticolo?art.versione=3&art.idArticolo=7&art.idSottoArticolo=1')").data ∧
    containsSub "imUpdate=true".data
      ("art.versione=3&art.idArticolo=7&art.idSottoArticolo=1".data) = false ∧
    extractArticleUrls ("showArticle('/atto/caricaArticolo?art.versione=1&art.idArticolo=7&art.idSottoArticolo=1&art.imUpdate=true') showArticle('/atto/caricaArticolo?art.versione=3&art.idArticolo=7&art.idSottoArticolo=1')").data =
      ["https://www.normattiva.it/atto/caricaArticolo?art.versione=3&art.idArticolo=7&art.idSottoArticolo=1".data] := by
  refine ⟨by decide, ?_, by decide⟩
  have h := (extractArticleUrls_spec ("showArticle('/atto/caricaArticolo?art.versione=1&art.idArticolo=7&art.idSottoArticolo=1&art.imUpdate=true') showArticle('/atto/caricaArticolo?art.versione=3&art.idArticolo=7&art.idSottoArticolo=1')").data).1
    ⟨"7".data, "1".data, 3,
        "art.versione=3&art.idArticolo=7&art.idSottoArticolo=1".data⟩ (by decide)
  exact h

/- ── citation parser (src/citation/parser.ts) ────────────────────────────── -/

/-- `ItalianDocumentType`. -/
inductive DocType
  | legge | dlgs | dl | dpr | rd | codice | unknown
deriving DecidableEq, Repr

def docTypeStr : DocType → List Char
  | .legge => "legge".data
  | .dlgs => "dlgs".data
  | .dl => "dl".data
  | .dpr => "dpr".data
  | .rd => "rd".data
  | .codice => "codice".data
  | .unknown => "unknown".data

/-- `ParsedCitation` from src/types/citations.ts. -/
structure ParsedCitation where
  valid : Bool
  type : DocType
  title : Option (List Char) := none
  year : Option Nat := none
  number : Option Nat := none
  article : Option (List Char) := none
  comma : Option (List Char) := none
  suffix : Option (List Char) := none
  document_id : Option (List Char) := none
  error : Option (List Char) := none
deriving DecidableEq, Repr

/-- Consume a literal case-insensitively (the pattern is given in
lowercase); returns the consumed source characters and the rest. -/
def eatCI : List Char → List Char → Option (List Char × List Char)
  | [], s => some ([], s)
  | _ :: _, [] => none
  | p :: pt, c :: ct =>
    if lowerC c = p then (eatCI pt ct).map fun pr => (c :: pr.1, pr.2) else none

/-- `\s+` (maximal). -/
def ws1 : List Char → Option (List Char)
  | [] => none
  | c :: t => if isWsC c then some (t.dropWhile isWsC) else none

/-- `\s*` (maximal). -/
def wsStar (s : List Char) : List Char := s.dropWhile isWsC

/-- `(\d+)` (maximal, non-empty). -/
def digits1 (s : List Char) : Option (List Char × List Char) :=
  match s.takeWhile isDigitC with
  | [] => none
  | ds => some (ds, s.dropWhile isDigitC)

/-- `(\d{4})`. -/
def exactly4Digits : List Char → Option (List Char × List Char)
  | a :: b :: c :: d :: rest =>
    if isDigitC a && isDigitC b && isDigitC c && isDigitC d then some ([a, b, c, d], rest)
    else none
  | _ => none

/-- `\.?`, committed greedily.  Safe wherever used here: every continuation
that follows one of these optional dots starts with a whitespace, comma or
digit requirement that a leftover `.` cannot satisfy either, so regex
backtracking over the dot can never turn a failure into a success. -/
def optDot : List Char → List Char
  | '.' :: t => t
  | s => s

/-- `,?`, committed greedily (safe: no continuation after it can start with
a comma). -/
def optComma : List Char → List Char
  | ',' :: t => t
  | s => s

def eatChar (ch : Char) : List Char → Option (List Char)
  | c :: t => if c = ch then some t else none
  | [] => none

/-- `ARTICLE_SUFFIXES` (the ordered alternation `bis|ter|...|decies`; no
entry is a prefix of another, so at most one alternative can match at a
given position). -/
def ARTICLE_SUFFIXES : List (List Char) :=
  ["bis".data, "ter".data, "quater".data, "quinquies".data, "sexies".data,
   "septies".data, "octies".data, "novies".data, "decies".data]

/-- Group 1 of every grammar:
`(\d+(?:-(?:bis|ter|quater|quinquies|sexies|septies|octies|novies|decies))?)`.
The optional suffix part is committed greedily (safe: when it matches, the
no-suffix alternative leaves a `-` in front of the continuation, which no
continuation accepts except at the very end of the identifier grammar,
where both choices succeed and the regex prefers the longer one anyway). -/
def refTok (s : List Char) : Option (List Char × List Char) :=
  (digits1 s).bind fun pr =>
    match pr.2 with
    | '-' :: t =>
      match ARTICLE_SUFFIXES.findSome? (fun sfx => eatCI sfx t) with
      | some (raw, rest) => some (pr.1 ++ '-' :: raw, rest)
      | none => some (pr.1, '-' :: t)
    | _ => some (pr.1, pr.2)

/-- `Art\.?\s+`. -/
def artHead (s : List Char) : Option (List Char) :=
  (eatCI "art".data s).bind fun pr => ws1 (optDot pr.2)

/-- `comma\s+(\d+)\s*,\s*` (the inner optional group of the comma slot). -/
def innerComma (s : List Char) : Option (List Char × List Char) :=
  (eatCI "comma".data s).bind fun pr =>
  (ws1 pr.2).bind fun s2 =>
  (digits1 s2).bind fun dr =>
  (eatChar ',' (wsStar dr.2)).map fun s5 => (dr.1, wsStar s5)

/-- `,\s*`. -/
def commaWs (s : List Char) : Option (List Char) :=
  (eatChar ',' s).map wsStar

/-- The optional slots `(?:,\s*(?:comma\s+(\d+)\s*,\s*)?)?(?:,\s*)?` that sit
between the article reference and the instrument name in the short, codice
and full grammars.  The regex engine tries, in order: full inner group with
and without the second comma group, bare comma with and without a second
comma, and nothing.  (The path "empty first group then bare comma" consumes
exactly what "bare comma then empty second group" consumes and is therefore
subsumed by it.)  `k` is the continuation for the rest of the pattern. -/
def commaSlot {α : Type} (s : List Char)
    (k : Option (List Char) → List Char → Option α) : Option α :=
  ((commaWs s).bind fun s1 =>
    (innerComma s1).bind fun dr =>
    (commaWs dr.2).bind fun s3 =>
    k (some dr.1) s3) <|>
  ((commaWs s).bind fun s1 =>
    (innerComma s1).bind fun dr =>
    k (some dr.1) dr.2) <|>
  ((commaWs s).bind fun s1 =>
    (commaWs s1).bind fun s2 =>
    k none s2) <|>
  ((commaWs s).bind fun s1 =>
    k none s1) <|>
  k none s

/-- Tokens of one alternation branch. -/
inductive RTok
  | lit (cs : List Char)
  | wsPlus
  | dotOpt
deriving DecidableEq, Repr

/-- Match a branch token sequence, returning the raw matched characters. -/
def eatToks : List RTok → List Char → Option (List Char × List Char)
  | [], s => some ([], s)
  | .lit cs :: ts, s =>
    (eatCI cs s).bind fun pr =>
      (eatToks ts pr.2).map fun qr => (pr.1 ++ qr.1, qr.2)
  | .wsPlus :: ts, s =>
    match s with
    | [] => none
    | c :: t =>
      if isWsC c then
        (eatToks ts (t.dropWhile isWsC)).map fun qr =>
          ((c :: t.takeWhile isWsC) ++ qr.1, qr.2)
      else none
  | .dotOpt :: ts, s =>
    match s with
    | '.' :: t => (eatToks ts t).map fun qr => ('.' :: qr.1, qr.2)
    | _ => eatToks ts s

/-- Regex alternation with continuation backtracking: the first branch whose
local match lets the continuation succeed wins. -/
def tryAlts {α : Type} (alts : List (List RTok)) (s : List Char)
    (k : List Char → List Char → Option α) : Option α :=
  alts.findSome? fun toks => (eatToks toks s).bind fun pr => k pr.1 pr.2

/-- `(D\.Lgs\.?|D\.L\.?|L\.?|D\.P\.R\.?|R\.D\.?|Legge|Decreto\s+legislativo|Decreto-legge)`. -/
def shortTypeAlts : List (List RTok) :=
  [[.lit "d.lgs".data, .dotOpt], [.lit "d.l".data, .dotOpt], [.lit "l".data, .dotOpt],
   [.lit "d.p.r".data, .dotOpt], [.lit "r.d".data, .dotOpt], [.lit "legge".data],
   [.lit "decreto".data, .wsPlus, .lit "legislativo".data], [.lit "decreto-legge".data]]

/-- `(Decreto\s+legislativo|Decreto-legge|Decreto\s+legge|Legge|Regio\s+decreto|D\.P\.R\.?)`. -/
def fullTypeAlts : List (List RTok) :=
  [[.lit "decreto".data, .wsPlus, .lit "legislativo".data],
   [.lit "decreto-legge".data],
   [.lit "decreto".data, .wsPlus, .lit "legge".data],
   [.lit "legge".data],
   [.lit "regio".data, .wsPlus, .lit "decreto".data],
   [.lit "d.p.r".data, .dotOpt]]

/-- The Italian month-name alternation of the full grammar. -/
def monthAlts : List (List RTok) :=
  [[.lit "gennaio".data], [.lit "febbraio".data], [.lit "marzo".data],
   [.lit "aprile".data], [.lit "maggio".data], [.lit "giugno".data],
   [.lit "luglio".data], [.lit "agosto".data], [.lit "settembre".data],
   [.lit "ottobre".data], [.lit "novembre".data], [.lit "dicembre".data]]

/-- `(legge|dlgs|dl|dpr|rd)` of the identifier grammar. -/
def idTypeAlts : List (List RTok) :=
  [[.lit "legge".data], [.lit "dlgs".data], [.lit "dl".data],
   [.lit "dpr".data], [.lit "rd".data]]

/-- `(?:n\.?\s*)?`, committed when the next character is `n`/`N` (safe: the
fallback path would have to read that same `n` as a digit and fail). -/
def optNum (s : List Char) : List Char :=
  match s with
  | c :: t => if lowerC c = 'n' then wsStar (optDot t) else c :: t
  | [] => []

/-- `\s+(?:n\.?\s*)?(\d+)\s*\/\s*(\d{4})`: the tail shared by the comma and
short grammars.  Returns (number, year, rest). -/
def shortTail (s : List Char) : Option (List Char × List Char × List Char) :=
  (ws1 s).bind fun s1 =>
  (digits1 (optNum s1)).bind fun nr =>
  (eatChar '/' (wsStar nr.2)).bind fun s5 =>
  (exactly4Digits (wsStar s5)).map fun yr => (nr.1, yr.1, yr.2)

/-- Captures of `COMMA_CITATION` (plus the unconsumed rest of the input). -/
structure CommaCaps where
  ref : List Char
  comma : List Char
  typeRaw : List Char
  num : List Char
  yr : List Char
  rest : List Char
deriving DecidableEq, Repr

/-- `COMMA_CITATION`:
`^Art\.?\s+(ref)\s*,\s*comma\s+(\d+)\s*,\s*(TYPE)\s+(?:n\.?\s*)?(\d+)\s*\/\s*(\d{4})`. -/
def matchComma (s : List Char) : Option CommaCaps :=
  (artHead s).bind fun s1 =>
  (refTok s1).bind fun rr =>
  (eatChar ',' (wsStar rr.2)).bind fun s4 =>
  (eatCI "comma".data (wsStar s4)).bind fun pr =>
  (ws1 pr.2).bind fun s6 =>
  (digits1 s6).bind fun cr =>
  (eatChar ',' (wsStar cr.2)).bind fun s9 =>
  tryAlts shortTypeAlts (wsStar s9) fun traw s11 =>
    (shortTail s11).map fun nyr =>
      ⟨rr.1, cr.1, traw, nyr.1, nyr.2.1, nyr.2.2⟩

/-- Captures of `SHORT_CITATION`. -/
structure ShortCaps where
  ref : List Char
  comma : Option (List Char)
  typeRaw : List Char
  num : List Char
  yr : List Char
  rest : List Char
deriving DecidableEq, Repr

/-- `SHORT_CITATION`:
`^Art\.?\s+(ref)\s*(?:,\s*(?:comma\s+(\d+)\s*,\s*)?)?(?:,\s*)?(TYPE)\s+(?:n\.?\s*)?(\d+)\s*\/\s*(\d{4})`. -/
def matchShort (s : List Char) : Option ShortCaps :=
  (artHead s).bind fun s1 =>
  (refTok s1).bind fun rr =>
  commaSlot (wsStar rr.2) fun cm s3 =>
    tryAlts shortTypeAlts s3 fun traw s4 =>
      (shortTail s4).map fun nyr => ⟨rr.1, cm, traw, nyr.1, nyr.2.1, nyr.2.2⟩

/-- Captures of `FULL_CITATION`. -/
structure FullCaps where
  ref : List Char
  comma : Option (List Char)
  typeRaw : List Char
  day : List Char
  month : List Char
  yr : List Char
  num : List Char
  rest : List Char
deriving DecidableEq, Repr

/-- `\s+(\d{1,2})\s+(month)\s+(\d{4})\s*,?\s*n\.?\s*(\d+)`: the tail of the
full grammar.  (`\d{1,2}` fails exactly when the digit run is longer than
two or not followed by whitespace.) -/
def fullTail (s : List Char) :
    Option (List Char × List Char × List Char × List Char × List Char) :=
  (ws1 s).bind fun s1 =>
  (digits1 s1).bind fun dr =>
  if dr.1.length > 2 then none else
  (ws1 dr.2).bind fun s3 =>
  tryAlts monthAlts s3 fun mraw s4 =>
    (ws1 s4).bind fun s5 =>
    (exactly4Digits s5).bind fun yr =>
    (eatCI "n".data (wsStar (optComma (wsStar yr.2)))).bind fun pr =>
    (digits1 (wsStar (optDot pr.2))).map fun nr =>
      (dr.1, mraw, yr.1, nr.1, nr.2)

/-- `FULL_CITATION`:
`^Art\.?\s+(ref)\s*(?:,\s*(?:comma\s+(\d+)\s*,\s*)?)?(?:,\s*)?(TYPE)\s+(\d{1,2})\s+(month)\s+(\d{4})\s*,?\s*n\.?\s*(\d+)`. -/
def matchFull (s : List Char) : Option FullCaps :=
  (artHead s).bind fun s1 =>
  (refTok s1).bind fun rr =>
  commaSlot (wsStar rr.2) fun cm s3 =>
    tryAlts fullTypeAlts s3 fun traw s4 =>
      (fullTail s4).map fun r =>
        ⟨rr.1, cm, traw, r.1, r.2.1, r.2.2.1, r.2.2.2.1, r.2.2.2.2⟩

/-- JS `\w`. -/
def isWordC (c : Char) : Bool := c.isAlphanum || c = '_'

/-- `(Codice\s+\w+(?:\s+\w+)?)`, capturing the raw matched text (the second
word is taken greedily; nothing follows the group in the regex). -/
def codiceCapture (s : List Char) : Option (List Char × List Char) :=
  (eatCI "codice".data s).bind fun pr =>
  match pr.2 with
  | [] => none
  | c :: t =>
    if isWsC c then
      let s2 := t.dropWhile isWsC
      let wsRaw := c :: t.takeWhile isWsC
      match s2.takeWhile isWordC with
      | [] => none
      | w1 =>
        let s3 := s2.dropWhile isWordC
        match s3 with
        | [] => some (pr.1 ++ wsRaw ++ w1, [])
        | c2 :: t2 =>
          if isWsC c2 then
            let s4 := t2.dropWhile isWsC
            match s4.takeWhile isWordC with
            | [] => some (pr.1 ++ wsRaw ++ w1, c2 :: t2)
            | w2 => some (pr.1 ++ wsRaw ++ w1 ++ (c2 :: t2.takeWhile isWsC) ++ w2,
                s4.dropWhile isWordC)
          else some (pr.1 ++ wsRaw ++ w1, c2 :: t2)
    else none

/-- Captures of `CODICE_CITATION`. -/
structure CodiceCaps where
  ref : List Char
  comma : Option (List Char)
  title : List Char
  rest : List Char
deriving DecidableEq, Repr

/-- `CODICE_CITATION`:
`^Art\.?\s+(ref)\s*(?:,\s*(?:comma\s+(\d+)\s*,\s*)?)?(?:,\s*)?(Codice\s+\w+(?:\s+\w+)?)`. -/
def matchCodice (s : List Char) : Option CodiceCaps :=
  (artHead s).bind fun s1 =>
  (refTok s1).bind fun rr =>
  commaSlot (wsStar rr.2) fun cm s3 =>
    (codiceCapture s3).map fun tr => ⟨rr.1, cm, tr.1, tr.2⟩

/-- Captures of `ID_BASED_CITATION`. -/
structure IdCaps where
  typeRaw : List Char
  num : List Char
  yr : List Char
  ref : List Char
  comma : Option (List Char)
  rest : List Char
deriving DecidableEq, Repr

/-- `(?:\s*,?\s*comma\s+(\d+))?`: the optional paragraph tail of the
identifier grammar. -/
def idTail (s : List Char) : Option (List Char × List Char) :=
  (eatCI "comma".data (wsStar (optComma (wsStar s)))).bind fun pr =>
  (ws1 pr.2).bind fun s2 =>
  digits1 s2

/-- `ID_BASED_CITATION`:
`^(legge|dlgs|dl|dpr|rd)-(\d+)-(\d{4})\s*,?\s*art\.?\s*(ref)(?:\s*,?\s*comma\s+(\d+))?`. -/
def matchId (s : List Char) : Option IdCaps :=
  tryAlts idTypeAlts s fun traw s1 =>
  (eatChar '-' s1).bind fun s2 =>
  (digits1 s2).bind fun nr =>
  (eatChar '-' nr.2).bind fun s4 =>
  (exactly4Digits s4).bind fun yr =>
  (eatCI "art".data (wsStar (optComma (wsStar yr.2)))).bind fun pr =>
  (refTok (wsStar (optDot pr.2))).map fun rr =>
    match idTail rr.2 with
    | some cr => ⟨traw, nr.1, yr.1, rr.1, some cr.1, cr.2⟩
    | none => ⟨traw, nr.1, yr.1, rr.1, none, rr.2⟩

/-- `TYPE_MAP` from src/citation/parser.ts. -/
def TYPE_MAP : List (List Char × DocType) :=
  [("decreto legislativo".data, .dlgs), ("d.lgs.".data, .dlgs), ("d.lgs".data, .dlgs),
   ("dlgs".data, .dlgs), ("decreto-legge".data, .dl), ("decreto legge".data, .dl),
   ("d.l.".data, .dl), ("d.l".data, .dl), ("dl".data, .dl), ("legge".data, .legge),
   ("l.".data, .legge), ("d.p.r.".data, .dpr), ("dpr".data, .dpr), ("r.d.".data, .rd),
   ("rd".data, .rd), ("regio decreto".data, .rd), ("codice".data, .codice)]

def lookupType : List (List Char × DocType) → List Char → Option DocType
  | [], _ => none
  | (k, v) :: t, s => if k = s then some v else lookupType t s

/-- `resolveDocType`: `TYPE_MAP[raw.toLowerCase().replace(/\s+/g, ' ').trim()] ?? 'unknown'`. -/
def resolveDocType (raw : List Char) : DocType :=
  (lookupType TYPE_MAP (trimChars (collapseWs (raw.map lowerC)))).getD .unknown

/-- `parseArticleRef`: split a captured reference on
`^(\d+)-(bis|...|decies)$`, lower-casing the suffix. -/
def parseArticleRef (raw : List Char) : List Char × Option (List Char) :=
  match digits1 raw with
  | some (ds, '-' :: t) =>
    match ARTICLE_SUFFIXES.findSome? (fun sfx =>
        match eatCI sfx t with
        | some (_, []) => some sfx
        | _ => none) with
    | some sfx => (ds, some sfx)
    | none => (raw, none)
  | _ => (raw, none)

/-- `buildDocumentId`. -/
def buildDocumentId (t : DocType) (number year : Nat) : List Char :=
  docTypeStr t ++ '-' :: renderNat number ++ '-' :: renderNat year

def mkCommaCit (c : CommaCaps) : ParsedCitation :=
  let ar := parseArticleRef c.ref
  let docType := resolveDocType c.typeRaw
  let number := parseNat c.num
  let year := parseNat c.yr
  { valid := true, type := docType, article := some ar.1, suffix := ar.2,
    comma := some c.comma, number := some number, year := some year,
    document_id := some (buildDocumentId docType number year) }

/-- `match[1].toLowerCase() as ItalianDocumentType` in the identifier
grammar (the capture is always one of the five identifiers). -/
def idTypeOf (l : List Char) : DocType :=
  if l = "legge".data then .legge
  else if l = "dlgs".data then .dlgs
  else if l = "dl".data then .dl
  else if l = "dpr".data then .dpr
  else if l = "rd".data then .rd
  else .unknown

def mkIdCit (c : IdCaps) : ParsedCitation :=
  let docType := idTypeOf (c.typeRaw.map lowerC)
  let number := parseNat c.num
  let year := parseNat c.yr
  let ar := parseArticleRef c.ref
  { valid := true, type := docType, article := some ar.1, suffix := ar.2,
    comma := c.comma, number := some number, year := some year,
    document_id := some (buildDocumentId docType number year) }

def mkCodiceCit (c : CodiceCaps) : ParsedCitation :=
  let ar := parseArticleRef c.ref
  { valid := true, type := .codice, title := some (trimChars c.title),
    article := some ar.1, suffix := ar.2, comma := c.comma }

def mkFullCit (c : FullCaps) : ParsedCitation :=
  let ar := parseArticleRef c.ref
  let docType := resolveDocType c.typeRaw
  let number := parseNat c.num
  let year := parseNat c.yr
  { valid := true, type := docType, article := some ar.1, suffix := ar.2,
    comma := c.comma, number := some number, year := some year,
    document_id := some (buildDocumentId docType number year) }

def mkShortCit (c : ShortCaps) : ParsedCitation :=
  let ar := parseArticleRef c.ref
  let docType := resolveDocType c.typeRaw
  let number := parseNat c.num
  let year := parseNat c.yr
  { valid := true, type := docType, article := some ar.1, suffix := ar.2,
    comma := c.comma, number := some number, year := some year,
    document_id := some (buildDocumentId docType number year) }

def invalidCitation (t : List Char) : ParsedCitation :=
  { valid := false, type := .unknown,
    error := some ("Could not parse Italian citation: \"".data ++ t ++ "\"".data) }

/- `formatCitation` (src/citation/formatter.ts). -/

inductive CitationFormat
  | full | short | pinpoint
deriving DecidableEq, Repr

/-- `TYPE_FULL_NAME` (a record keyed by the type string; `unknown` is not a
key, so lookups for it fall back to the raw type name). -/
def TYPE_FULL_NAME : DocType → Option (List Char)
  | .dlgs => some "Decreto legislativo".data
  | .dl => some "Decreto-legge".data
  | .legge => some "Legge".data
  | .dpr => some "Decreto del Presidente della Repubblica".data
  | .rd => some "Regio decreto".data
  | .codice => some []
  | .unknown => none

/-- `TYPE_SHORT_NAME`. -/
def TYPE_SHORT_NAME : DocType → Option (List Char)
  | .dlgs => some "D.Lgs.".data
  | .dl => some "D.L.".data
  | .legge => some "L.".data
  | .dpr => some "D.P.R.".data
  | .rd => some "R.D.".data
  | .codice => some []
  | .unknown => none

/-- JS truthiness of an optional string (absent or empty is falsy). -/
def truthyStr : Option (List Char) → Bool
  | some (_ :: _) => true
  | _ => false

/-- JS truthiness of an optional number (absent or 0 is falsy). -/
def truthyNat : Option Nat → Bool
  | some (_ + 1) => true
  | _ => false

/-- `buildArticleRef`. -/
def buildArticleRef (p : ParsedCitation) : List Char :=
  p.article.getD [] ++ (match p.suffix with | some sfx => '-' :: sfx | none => [])

/-- `formatCitation` from src/citation/formatter.ts. -/
def formatCitation (p : ParsedCitation) (format : CitationFormat) : List Char :=
  if p.valid = false ∨ truthyStr p.article = false then [] else
  let articleRef := buildArticleRef p
  let commaRef := if truthyStr p.comma then ", comma ".data ++ p.comma.getD [] else []
  match format with
  | .full =>
    if p.type = .codice ∧ truthyStr p.title = true then
      "Art. ".data ++ articleRef ++ commaRef ++ ", ".data ++ p.title.getD []
    else
      let typeName := (TYPE_FULL_NAME p.type).getD (docTypeStr p.type)
      if truthyNat p.number = true ∧ truthyNat p.year = true then
        trimChars ("Art. ".data ++ articleRef ++ commaRef ++ ", ".data ++ typeName
          ++ " n. ".data ++ renderNat (p.number.getD 0) ++ '/' :: renderNat (p.year.getD 0))
      else "Art. ".data ++ articleRef ++ commaRef
  | .short =>
    if p.type = .codice ∧ truthyStr p.title = true then
      "Art. ".data ++ articleRef ++ commaRef ++ ", ".data ++ p.title.getD []
    else
      let typeAbbrev := (TYPE_SHORT_NAME p.type).getD (docTypeStr p.type)
      if truthyNat p.number = true ∧ truthyNat p.year = true then
        trimChars ("Art. ".data ++ articleRef ++ commaRef ++ ", ".data ++ typeAbbrev
          ++ " ".data ++ renderNat (p.number.getD 0) ++ '/' :: renderNat (p.year.getD 0))
      else "Art. ".data ++ articleRef ++ commaRef
  | .pinpoint => "Art. ".data ++ articleRef ++ commaRef

/-- `parseCitation` from src/citation/parser.ts: the five grammars are tried
in source order — comma, identifier, codice, full, short — anchored at the
start of the trimmed input; when none matches, an invalid citation carrying
the trimmed text in its diagnostic message is returned. -/
def parseCitation (citation : List Char) : ParsedCitation :=
  let trimmed := trimChars citation
  match matchComma trimmed with
  | some c => mkCommaCit c
  | none =>
    match matchId trimmed with
    | some c => mkIdCit c
    | none =>
      match matchCodice trimmed with
      | some c => mkCodiceCit c
      | none =>
        match matchFull trimmed with
        | some c => mkFullCit c
        | none =>
          match matchShort trimmed with
          | some c => mkShortCit c
          | none => invalidCitation trimmed

/-- C1 (amended: each grammar matches anchored at the start of the trimmed
input, a prefix — the regexes carry no end anchor): `parseCitation` tries
the five grammars in strict precedence order (a) comma, (b) identifier,
(c) codice, (d) full, (e) short; the first that matches determines the
result — in particular an input matched by both (a) and (e) is parsed by
(a) with its paragraph number captured — and when none matches the result
is an invalid citation carrying the trimmed input text in its diagnostic
message; the function is total, so it never throws. -/
theorem parseCitation_precedence (s : List Char) :
    (∀ c, matchComma (trimChars s) = some c → parseCitation s = mkCommaCit c) ∧
    (∀ c c', matchComma (trimChars s) = some c → matchShort (trimChars s) = some c' →
      parseCitation s = mkCommaCit c ∧ (parseCitation s).comma = some c.comma) ∧
    (matchComma (trimChars s) = none →
      ∀ c, matchId (trimChars s) = some c → parseCitation s = mkIdCit c) ∧
    (matchComma (trimChars s) = none → matchId (trimChars s) = none →
      ∀ c, matchCodice (trimChars s) = some c → parseCitation s = mkCodiceCit c) ∧
    (matchComma (trimChars s) = none → matchId (trimChars s) = none →
      matchCodice (trimChars s) = none →
      ∀ c, matchFull (trimChars s) = some c → parseCitation s = mkFullCit c) ∧
    (matchComma (trimChars s) = none → matchId (trimChars s) = none →
      matchCodice (trimChars s) = none → matchFull (trimChars s) = none →
      ∀ c, matchShort (trimChars s) = some c → parseCitation s = mkShortCit c) ∧
    (matchComma (trimChars s) = none → matchId (trimChars s) = none →
      matchCodice (trimChars s) = none → matchFull (trimChars s) = none →
      matchShort (trimChars s) = none →
      parseCitation s = invalidCitation (trimChars s) ∧
      (parseCitation s).valid = false ∧
      (parseCitation s).error =
        some ("Could not parse Italian citation: \"".data ++ trimChars s ++ "\"".data)) := by
  refine ⟨?_, ?_, ?_, ?_, ?_, ?_, ?_⟩
  · intro c h
    simp only [parseCitation, h]
  · intro c c' h h'
    constructor
    · simp only [parseCitation, h]
    · simp only [parseCitation, h, mkCommaCit]
  · intro h0 c h
    simp only [parseCitation, h0, h]
  · intro h0 h1 c h
    simp only [parseCitation, h0, h1, h]
  · intro h0 h1 h2 c h
    simp only [parseCitation, h0, h1, h2, h]
  · intro h0 h1 h2 h3 c h
    simp only [parseCitation, h0, h1, h2, h3, h]
  · intro h0 h1 h2 h3 h4
    refine ⟨by simp only [parseCitation, h0, h1, h2, h3, h4], ?_, ?_⟩
    · simp only [parseCitation, h0, h1, h2, h3, h4, invalidCitation]
    · simp only [parseCitation, h0, h1, h2, h3, h4, invalidCitation]

/-- Witness for C1: a paragraph-bearing short citation is matched by both
the comma grammar (a) and the short grammar (e), and grammar (a) wins with
the paragraph number captured. -/
theorem parseCitation_precedence_witness :
    matchComma (trimChars "Art. 1, comma 2, D.Lgs. 196/2003".data) =
      some ⟨"1".data, "2".data, "D.Lgs.".data, "196".data, "2003".data, []⟩ ∧
    matchShort (trimChars "Art. 1, comma 2, D.Lgs. 196/2003".data) =
      some ⟨"1".data, some "2".data, "D.Lgs.".data, "196".data, "2003".data, []⟩ ∧
    parseCitation "Art. 1, comma 2, D.Lgs. 196/2003".data =
      mkCommaCit ⟨"1".data, "2".data, "D.Lgs.".data, "196".data, "2003".data, []⟩ ∧
    (parseCitation "Art. 1, comma 2, D.Lgs. 196/2003".data).comma = some "2".data := by
  refine ⟨by decide, by decide, ?_, ?_⟩
  · exact (parseCitation_precedence "Art. 1, comma 2, D.Lgs. 196/2003".data).1
      ⟨"1".data, "2".data, "D.Lgs.".data, "196".data, "2003".data, []⟩ (by decide)
  · exact ((parseCitation_precedence "Art. 1, comma 2, D.Lgs. 196/2003".data).2.1
      ⟨"1".data, "2".data, "D.Lgs.".data, "196".data, "2003".data, []⟩
      ⟨"1".data, some "2".data, "D.Lgs.".data, "196".data, "2003".data, []⟩
      (by decide) (by decide)).2

/-- Counterexample for C1 as frozen: on an input with trailing text no
grammar matches the *full* trimmed input (the only matching grammar, the
short one, leaves a non-empty remainder), yet `parseCitation` returns a
valid citation — the grammars are start-anchored only. -/
theorem parseCitation_prefix_counterexample :
    matchComma (trimChars "Art. 5, D.Lgs. 196/2003 and more words".data) = none ∧
    matchId (trimChars "Art. 5, D.Lgs. 196/2003 and more words".data) = none ∧
    matchCodice (trimChars "Art. 5, D.Lgs. 196/2003 and more words".data) = none ∧
    matchFull (trimChars "Art. 5, D.Lgs. 196/2003 and more words".data) = none ∧
    matchShort (trimChars "Art. 5, D.Lgs. 196/2003 and more words".data) =
      some ⟨"5".data, none, "D.Lgs.".data, "196".data, "2003".data,
        " and more words".data⟩ ∧
    (" and more words".data ≠ ([] : List Char)) ∧
    (parseCitation "Art. 5, D.Lgs. 196/2003 and more words".data).valid = true := by
  refine ⟨by decide, by decide, by decide, by decide, by decide, by decide, by decide⟩

/- ── helper lemmas for the round-trip theorem (C2) ───────────────────────── -/

theorem digit_not_ws (c : Char) (h : isDigitC c = true) : isWsC c = false := by
  by_contra hc
  have hws : isWsC c = true := by
    cases h2 : isWsC c with
    | false => exact absurd h2 hc
    | true => rfl
  simp only [isWsC, Bool.or_eq_true, beq_iff_eq] at hws
  rcases hws with ((((rfl | rfl) | rfl) | rfl) | rfl) | rfl <;>
    exact absurd h (by decide)

theorem digit_bounds (c : Char) (h : isDigitC c = true) :
    48 ≤ c.toNat ∧ c.toNat ≤ 57 := by
  simp only [isDigitC, Char.isDigit, Bool.and_eq_true, decide_eq_true_eq] at h
  obtain ⟨h1, h2⟩ := h
  exact ⟨h1, h2⟩

theorem digit_lower (c : Char) (h : isDigitC c = true) : lowerC c = c := by
  have hb := digit_bounds c h
  simp only [lowerC, Char.toLower]
  rw [if_neg]
  simp only [Bool.and_eq_true, decide_eq_true_eq, not_and]
  intro h65
  omega

theorem digit_ne (c x : Char) (h : isDigitC c = true) (hx : isDigitC x = false) : c ≠ x := by
  intro heq
  rw [heq] at h
  rw [h] at hx
  exact Bool.noConfusion hx

theorem takeWhile_digits_append (a rest : List Char)
    (had : ∀ c ∈ a, isDigitC c = true)
    (hr : ∀ c, rest.head? = some c → isDigitC c = false) :
    (a ++ rest).takeWhile isDigitC = a ∧ (a ++ rest).dropWhile isDigitC = rest := by
  induction a with
  | nil =>
    simp only [List.nil_append]
    cases rest with
    | nil => exact ⟨rfl, rfl⟩
    | cons c t =>
      have := hr c rfl
      simp [List.takeWhile_cons, List.dropWhile_cons, this]
  | cons c t ih =>
    have hc : isDigitC c = true := had c (by simp)
    have iht := ih fun x hx => had x (by simp [hx])
    simp [List.takeWhile_cons, List.dropWhile_cons, hc, iht.1, iht.2]

theorem digits1_run (a rest : List Char) (ha : a ≠ [])
    (had : ∀ c ∈ a, isDigitC c = true)
    (hr : ∀ c, rest.head? = some c → isDigitC c = false) :
    digits1 (a ++ rest) = some (a, rest) := by
  obtain ⟨tw, dw⟩ := takeWhile_digits_append a rest had hr
  unfold digits1
  rw [tw, dw]
  cases a with
  | nil => exact absurd rfl ha
  | cons c t => rfl

theorem wsStar_digits (a rest : List Char) (ha : a ≠ [])
    (had : ∀ c ∈ a, isDigitC c = true) :
    wsStar (a ++ rest) = a ++ rest := by
  cases a with
  | nil => exact absurd rfl ha
  | cons c t =>
    have := digit_not_ws c (had c (by simp))
    simp [wsStar, List.dropWhile_cons, this]

theorem exactly4_run (y rest : List Char) (hy : y.length = 4)
    (hyd : ∀ c ∈ y, isDigitC c = true) :
    exactly4Digits (y ++ rest) = some (y, rest) := by
  match y, hy with
  | [a, b, c, d], _ =>
    have ha := hyd a (by simp)
    have hb := hyd b (by simp)
    have hc := hyd c (by simp)
    have hd := hyd d (by simp)
    simp [exactly4Digits, ha, hb, hc, hd]

theorem renderNat_len4 (y : Nat) (h1 : 1000 ≤ y) (h2 : y ≤ 9999) :
    (renderNat y).length = 4 := by
  rw [renderNat_step y]
  rw [if_neg (by omega)]
  rw [renderNat_step (y / 10)]
  rw [if_neg (by omega)]
  rw [renderNat_step (y / 10 / 10)]
  rw [if_neg (by omega)]
  rw [renderNat_step (y / 10 / 10 / 10)]
  rw [if_pos (by omega)]
  simp

/-- Membership in a formatted reference token: splits back exactly. -/
theorem parseArticleRef_formatted (a sfxPart : List Char) (ha : a ≠ [])
    (had : ∀ c ∈ a, isDigitC c = true)
    (hs : (sfxPart = [] ∧ True) ∨ ∃ sfx ∈ ARTICLE_SUFFIXES, sfxPart = '-' :: sfx) :
    parseArticleRef (a ++ sfxPart) =
      (a, match sfxPart with | [] => none | _ :: t => some t) := by
  rcases hs with ⟨rfl, -⟩ | ⟨sfx, hsfx, rfl⟩
  · unfold parseArticleRef
    rw [List.append_nil]
    rw [show digits1 a = some (a, []) from by
      have := digits1_run a [] ha had (by intro c hc; simp at hc)
      simpa using this]
  · unfold parseArticleRef
    rw [digits1_run a ('-' :: sfx) ha had (by intro c hc; simp at hc; subst hc; decide)]
    fin_cases hsfx <;> rfl

/-- `refTok` on a formatted reference followed by a comma. -/
theorem refTok_formatted (a sfxPart rest : List Char) (ha : a ≠ [])
    (had : ∀ c ∈ a, isDigitC c = true)
    (hs : (sfxPart = [] ∧ True) ∨ ∃ sfx ∈ ARTICLE_SUFFIXES, sfxPart = '-' :: sfx) :
    refTok (a ++ sfxPart ++ ',' :: rest) = some (a ++ sfxPart, ',' :: rest) := by
  rcases hs with ⟨rfl, -⟩ | ⟨sfx, hsfx, rfl⟩
  · unfold refTok
    rw [List.append_nil]
    rw [digits1_run a (',' :: rest) ha had (by intro c hc; simp at hc; subst hc; decide)]
    simp
  · unfold refTok
    rw [List.append_assoc]
    rw [digits1_run a ('-' :: sfx ++ ',' :: rest) ha had
      (by intro c hc; simp at hc; subst hc; decide)]
    fin_cases hsfx <;> simp [ARTICLE_SUFFIXES, eatCI, lowerC]

/-- `artHead` then `refTok`, the shared prefix of the four `Art.`-style
grammars, on a formatted citation. -/
theorem art_ref_eval {α : Type} (a sfxPart rest : List Char)
    (k : List Char × List Char → Option α) (ha : a ≠ [])
    (had : ∀ c ∈ a, isDigitC c = true)
    (hs : (sfxPart = [] ∧ True) ∨ ∃ sfx ∈ ARTICLE_SUFFIXES, sfxPart = '-' :: sfx) :
    ((artHead ('A' :: 'r' :: 't' :: '.' :: ' ' :: (a ++ sfxPart ++ ',' :: rest))).bind
        fun s1 => (refTok s1).bind k)
      = k (a ++ sfxPart, ',' :: rest) := by
  have h1 : artHead ('A' :: 'r' :: 't' :: '.' :: ' ' :: (a ++ sfxPart ++ ',' :: rest))
      = some ((a ++ sfxPart ++ ',' :: rest).dropWhile isWsC) := rfl
  have h2 : (a ++ sfxPart ++ ',' :: rest).dropWhile isWsC = a ++ sfxPart ++ ',' :: rest := by
    rw [List.append_assoc]
    have := wsStar_digits a (sfxPart ++ ',' :: rest) ha had
    simpa [wsStar, List.append_assoc] using this
  rw [h1, h2, Option.some_bind, refTok_formatted a sfxPart rest ha had hs, Option.some_bind]

theorem tryAlts_nil {α : Type} (s : List Char) (k : List Char → List Char → Option α) :
    tryAlts [] s k = none := rfl

theorem tryAlts_cons_fail {α : Type} (toks : List RTok) (alts : List (List RTok))
    (s : List Char) (k : List Char → List Char → Option α)
    (h : ((eatToks toks s).bind fun pr => k pr.1 pr.2) = none) :
    tryAlts (toks :: alts) s k = tryAlts alts s k := by
  simp only [tryAlts, List.findSome?_cons, h]

theorem tryAlts_cons_success {α : Type} (toks : List RTok) (alts : List (List RTok))
    (s : List Char) (k : List Char → List Char → Option α) (v : α)
    (h : ((eatToks toks s).bind fun pr => k pr.1 pr.2) = some v) :
    tryAlts (toks :: alts) s k = some v := by
  simp only [tryAlts, List.findSome?_cons, h]

theorem ws1_digits (d rest : List Char) (hd : d ≠ [])
    (hdd : ∀ c ∈ d, isDigitC c = true) :
    ws1 (' ' :: (d ++ rest)) = some (d ++ rest) := by
  have h := wsStar_digits d rest hd hdd
  simp only [ws1, if_pos (show isWsC ' ' = true from rfl)]
  simpa [wsStar] using h

theorem optNum_digits (d rest : List Char) (hd : d ≠ [])
    (hdd : ∀ c ∈ d, isDigitC c = true) :
    optNum (d ++ rest) = d ++ rest := by
  cases d with
  | nil => exact absurd rfl hd
  | cons c t =>
    have hc := hdd c (by simp)
    have hl := digit_lower c hc
    have hne : lowerC c ≠ 'n' := by
      rw [hl]
      exact digit_ne c 'n' hc (by decide)
    simp [optNum, hne]

theorem renderNat_facts (n : Nat) :
    renderNat n ≠ [] ∧ ∀ c ∈ renderNat n, isDigitC c = true :=
  ⟨renderNat_ne_nil n, renderNat_digits n⟩

/-- `shortTail` on `" <n>/<y>"` with a 4-digit year. -/
theorem shortTail_fmt1 (n y : Nat) (h4 : (renderNat y).length = 4) :
    shortTail (' ' :: (renderNat n ++ '/' :: renderNat y)) =
      some (renderNat n, renderNat y, []) := by
  unfold shortTail
  rw [ws1_digits (renderNat n) ('/' :: renderNat y) (renderNat_ne_nil n) (renderNat_digits n)]
  rw [Option.some_bind]
  rw [optNum_digits (renderNat n) ('/' :: renderNat y) (renderNat_ne_nil n) (renderNat_digits n)]
  rw [digits1_run (renderNat n) ('/' :: renderNat y) (renderNat_ne_nil n) (renderNat_digits n)
    (by intro c hc; simp at hc; subst hc; decide)]
  rw [Option.some_bind]
  rw [show wsStar ('/' :: renderNat y) = '/' :: renderNat y from rfl]
  rw [show eatChar '/' ('/' :: renderNat y) = some (renderNat y) from rfl]
  rw [Option.some_bind]
  rw [show wsStar (renderNat y) = renderNat y from by
    have := wsStar_digits (renderNat y) [] (renderNat_ne_nil y) (renderNat_digits y)
    simpa using this]
  rw [show exactly4Digits (renderNat y) = some (renderNat y, []) from by
    have := exactly4_run (renderNat y) [] h4 (renderNat_digits y)
    simpa using this]
  rfl

/-- `shortTail` on `" n. <n>/<y>"` with a 4-digit year. -/
theorem shortTail_fmt2 (n y : Nat) (h4 : (renderNat y).length = 4) :
    shortTail (' ' :: 'n' :: '.' :: ' ' :: (renderNat n ++ '/' :: renderNat y)) =
      some (renderNat n, renderNat y, []) := by
  unfold shortTail
  rw [show ws1 (' ' :: 'n' :: '.' :: ' ' :: (renderNat n ++ '/' :: renderNat y))
      = some ('n' :: '.' :: ' ' :: (renderNat n ++ '/' :: renderNat y)) from rfl]
  rw [Option.some_bind]
  rw [show optNum ('n' :: '.' :: ' ' :: (renderNat n ++ '/' :: renderNat y))
      = wsStar (renderNat n ++ '/' :: renderNat y) from rfl]
  rw [show wsStar (renderNat n ++ '/' :: renderNat y) = renderNat n ++ '/' :: renderNat y from
    wsStar_digits (renderNat n) ('/' :: renderNat y) (renderNat_ne_nil n) (renderNat_digits n)]
  rw [digits1_run (renderNat n) ('/' :: renderNat y) (renderNat_ne_nil n) (renderNat_digits n)
    (by intro c hc; simp at hc; subst hc; decide)]
  rw [Option.some_bind]
  rw [show wsStar ('/' :: renderNat y) = '/' :: renderNat y from rfl]
  rw [show eatChar '/' ('/' :: renderNat y) = some (renderNat y) from rfl]
  rw [Option.some_bind]
  rw [show wsStar (renderNat y) = renderNat y from by
    have := wsStar_digits (renderNat y) [] (renderNat_ne_nil y) (renderNat_digits y)
    simpa using this]
  rw [show exactly4Digits (renderNat y) = some (renderNat y, []) from by
    have := exactly4_run (renderNat y) [] h4 (renderNat_digits y)
    simpa using this]
  rfl

/-- `fullTail` fails on `" <n>/<y>"`: there is no date. -/
theorem fullTail_slash_none (n y : Nat) :
    fullTail (' ' :: (renderNat n ++ '/' :: renderNat y)) = none := by
  unfold fullTail
  rw [ws1_digits (renderNat n) ('/' :: renderNat y) (renderNat_ne_nil n) (renderNat_digits n)]
  rw [Option.some_bind]
  rw [digits1_run (renderNat n) ('/' :: renderNat y) (renderNat_ne_nil n) (renderNat_digits n)
    (by intro c hc; simp at hc; subst hc; decide)]
  rw [Option.some_bind]
  by_cases hl : (renderNat n).length > 2
  · simp [hl]
  · simp only [hl, if_false]
    rw [show ws1 ('/' :: renderNat y) = none from rfl]
    rfl

theorem commaSlot_nocomma {α : Type} (X : List Char)
    (k : Option (List Char) → List Char → Option α)
    (h1 : innerComma (wsStar X) = none)
    (h2 : commaWs (wsStar X) = none) :
    commaSlot (',' :: X) k = (k none (wsStar X) <|> k none (',' :: X)) := by
  unfold commaSlot
  rw [show commaWs (',' :: X) = some (wsStar X) from rfl]
  simp only [Option.some_bind, h1, h2, Option.none_bind]
  rfl

/-- `matchComma` on a formatted citation without a paragraph slot fails at
the literal `comma`. -/
theorem matchComma_fmt_none (a sfxPart X : List Char) (ha : a ≠ [])
    (had : ∀ c ∈ a, isDigitC c = true)
    (hs : (sfxPart = [] ∧ True) ∨ ∃ sfx ∈ ARTICLE_SUFFIXES, sfxPart = '-' :: sfx)
    (hX : X.dropWhile isWsC = X)
    (hc : eatCI "comma".data X = none) :
    matchComma ('A' :: 'r' :: 't' :: '.' :: ' ' ::
      (a ++ sfxPart ++ ',' :: ' ' :: X)) = none := by
  unfold matchComma
  rw [art_ref_eval a sfxPart (' ' :: X) _ ha had hs]
  simp only
  rw [show wsStar (',' :: ' ' :: X) = ',' :: ' ' :: X from rfl]
  rw [show eatChar ',' (',' :: ' ' :: X) = some (' ' :: X) from rfl]
  rw [Option.some_bind]
  rw [show wsStar (' ' :: X) = X from hX]
  rw [hc]
  rfl

/-- `matchShort` on a formatted citation without a paragraph slot. -/
theorem matchShort_fmt (a sfxPart X : List Char) (v : ShortCaps) (ha : a ≠ [])
    (had : ∀ c ∈ a, isDigitC c = true)
    (hs : (sfxPart = [] ∧ True) ∨ ∃ sfx ∈ ARTICLE_SUFFIXES, sfxPart = '-' :: sfx)
    (hX : X.dropWhile isWsC = X)
    (h1 : innerComma X = none)
    (h2 : commaWs X = none)
    (hk : tryAlts shortTypeAlts X (fun traw s4 => (shortTail s4).map fun nyr =>
        (⟨a ++ sfxPart, none, traw, nyr.1, nyr.2.1, nyr.2.2⟩ : ShortCaps)) = some v) :
    matchShort ('A' :: 'r' :: 't' :: '.' :: ' ' ::
      (a ++ sfxPart ++ ',' :: ' ' :: X)) = some v := by
  unfold matchShort
  rw [art_ref_eval a sfxPart (' ' :: X) _ ha had hs]
  simp only
  rw [show wsStar (',' :: ' ' :: X) = ',' :: ' ' :: X from rfl]
  rw [commaSlot_nocomma (' ' :: X) _
    (by rw [show wsStar (' ' :: X) = X from hX]; exact h1)
    (by rw [show wsStar (' ' :: X) = X from hX]; exact h2)]
  rw [show wsStar (' ' :: X) = X from hX]
  rw [hk]
  rfl

/-- `matchComma` on a formatted citation with a paragraph slot. -/
theorem matchComma_fmt (a sfxPart cm X : List Char) (v : CommaCaps) (ha : a ≠ [])
    (had : ∀ c ∈ a, isDigitC c = true)
    (hs : (sfxPart = [] ∧ True) ∨ ∃ sfx ∈ ARTICLE_SUFFIXES, sfxPart = '-' :: sfx)
    (hcm : cm ≠ []) (hcmd : ∀ c ∈ cm, isDigitC c = true)
    (hX : X.dropWhile isWsC = X)
    (hk : tryAlts shortTypeAlts X (fun traw s4 => (shortTail s4).map fun nyr =>
        (⟨a ++ sfxPart, cm, traw, nyr.1, nyr.2.1, nyr.2.2⟩ : CommaCaps)) = some v) :
    matchComma ('A' :: 'r' :: 't' :: '.' :: ' ' ::
      (a ++ sfxPart ++ ',' :: ' ' :: 'c' :: 'o' :: 'm' :: 'm' :: 'a' :: ' ' ::
        (cm ++ ',' :: ' ' :: X))) = some v := by
  unfold matchComma
  rw [art_ref_eval a sfxPart
    (' ' :: 'c' :: 'o' :: 'm' :: 'm' :: 'a' :: ' ' :: (cm ++ ',' :: ' ' :: X)) _ ha had hs]
  simp only
  rw [show wsStar (',' :: ' ' :: 'c' :: 'o' :: 'm' :: 'm' :: 'a' :: ' ' ::
      (cm ++ ',' :: ' ' :: X)) = ',' :: ' ' :: 'c' :: 'o' :: 'm' :: 'm' :: 'a' :: ' ' ::
      (cm ++ ',' :: ' ' :: X) from rfl]
  rw [show eatChar ',' (',' :: ' ' :: 'c' :: 'o' :: 'm' :: 'm' :: 'a' :: ' ' ::
      (cm ++ ',' :: ' ' :: X)) = some (' ' :: 'c' :: 'o' :: 'm' :: 'm' :: 'a' :: ' ' ::
      (cm ++ ',' :: ' ' :: X)) from rfl]
  rw [Option.some_bind]
  rw [show wsStar (' ' :: 'c' :: 'o' :: 'm' :: 'm' :: 'a' :: ' ' :: (cm ++ ',' :: ' ' :: X))
      = 'c' :: 'o' :: 'm' :: 'm' :: 'a' :: ' ' :: (cm ++ ',' :: ' ' :: X) from rfl]
  rw [show eatCI "comma".data ('c' :: 'o' :: 'm' :: 'm' :: 'a' :: ' ' :: (cm ++ ',' :: ' ' :: X))
      = some ("comma".data, ' ' :: (cm ++ ',' :: ' ' :: X)) from rfl]
  rw [Option.some_bind]
  rw [ws1_digits cm (',' :: ' ' :: X) hcm hcmd]
  rw [Option.some_bind]
  rw [digits1_run cm (',' :: ' ' :: X) hcm hcmd
    (by intro c hc; simp at hc; subst hc; decide)]
  rw [Option.some_bind]
  rw [show wsStar (',' :: ' ' :: X) = ',' :: ' ' :: X from rfl]
  rw [show eatChar ',' (',' :: ' ' :: X) = some (' ' :: X) from rfl]
  rw [Option.some_bind]
  rw [show wsStar (' ' :: X) = X from hX]
  rw [hk]

/-- `matchCodice` fails on a formatted citation without a paragraph slot
whose instrument name is not a `Codice` title. -/
theorem matchCodice_fmt_none (a sfxPart X : List Char) (ha : a ≠ [])
    (had : ∀ c ∈ a, isDigitC c = true)
    (hs : (sfxPart = [] ∧ True) ∨ ∃ sfx ∈ ARTICLE_SUFFIXES, sfxPart = '-' :: sfx)
    (hX : X.dropWhile isWsC = X)
    (h1 : innerComma X = none)
    (h2 : commaWs X = none)
    (hc1 : codiceCapture X = none)
    (hc2 : codiceCapture (',' :: ' ' :: X) = none) :
    matchCodice ('A' :: 'r' :: 't' :: '.' :: ' ' ::
      (a ++ sfxPart ++ ',' :: ' ' :: X)) = none := by
  unfold matchCodice
  rw [art_ref_eval a sfxPart (' ' :: X) _ ha had hs]
  simp only
  rw [show wsStar (',' :: ' ' :: X) = ',' :: ' ' :: X from rfl]
  rw [commaSlot_nocomma (' ' :: X) _
    (by rw [show wsStar (' ' :: X) = X from hX]; exact h1)
    (by rw [show wsStar (' ' :: X) = X from hX]; exact h2)]
  rw [show wsStar (' ' :: X) = X from hX]
  rw [hc1, hc2]
  rfl

/-- `matchFull` fails on a formatted citation without a paragraph slot when
the full-type alternation cannot complete (there is no date in the input). -/
theorem matchFull_fmt_none (a sfxPart X : List Char) (ha : a ≠ [])
    (had : ∀ c ∈ a, isDigitC c = true)
    (hs : (sfxPart = [] ∧ True) ∨ ∃ sfx ∈ ARTICLE_SUFFIXES, sfxPart = '-' :: sfx)
    (hX : X.dropWhile isWsC = X)
    (h1 : innerComma X = none)
    (h2 : commaWs X = none)
    (hk1 : tryAlts fullTypeAlts X (fun traw s4 => (fullTail s4).map fun r =>
        (⟨a ++ sfxPart, none, traw, r.1, r.2.1, r.2.2.1, r.2.2.2.1, r.2.2.2.2⟩ : FullCaps))
      = none)
    (hk2 : tryAlts fullTypeAlts (',' :: ' ' :: X) (fun traw s4 => (fullTail s4).map fun r =>
        (⟨a ++ sfxPart, none, traw, r.1, r.2.1, r.2.2.1, r.2.2.2.1, r.2.2.2.2⟩ : FullCaps))
      = none) :
    matchFull ('A' :: 'r' :: 't' :: '.' :: ' ' ::
      (a ++ sfxPart ++ ',' :: ' ' :: X)) = none := by
  unfold matchFull
  rw [art_ref_eval a sfxPart (' ' :: X) _ ha had hs]
  simp only
  rw [show wsStar (',' :: ' ' :: X) = ',' :: ' ' :: X from rfl]
  rw [commaSlot_nocomma (' ' :: X) _
    (by rw [show wsStar (' ' :: X) = X from hX]; exact h1)
    (by rw [show wsStar (' ' :: X) = X from hX]; exact h2)]
  rw [show wsStar (' ' :: X) = X from hX]
  rw [hk1, hk2]
  rfl

/-- A formatted citation starting with `A` and ending in the year digits
has no surrounding whitespace, so `trim()` leaves it unchanged. -/
theorem trimChars_art (G : List Char) (y : Nat) :
    trimChars ('A' :: (G ++ renderNat y)) = 'A' :: (G ++ renderNat y) := by
  apply trimChars_eq_self
  · intro c hc
    simp only [List.head?_cons, Option.some.injEq] at hc
    subst hc
    decide
  · intro c hc
    rw [show ('A' :: (G ++ renderNat y)) = ('A' :: G) ++ renderNat y from by simp] at hc
    rw [List.getLast?_append_of_ne_nil _ (renderNat_ne_nil y)] at hc
    exact digit_not_ws c (renderNat_digits y c (List.mem_of_mem_getLast? hc))

theorem truthyNat_pos (n : Nat) (h : 1 ≤ n) : truthyNat (some n) = true := by
  cases n with
  | zero => omega
  | succ m => rfl

theorem truthyStr_ne_nil (a : List Char) (h : a ≠ []) : truthyStr (some a) = true := by
  cases a with
  | nil => exact absurd rfl h
  | cons c t => rfl

end ItalianLaw

namespace ItalianLaw

/-- `parseCitation` only looks at the trimmed input, and `trim` is
idempotent, so pre-trimming does not change the result. -/
theorem parseCitation_trimChars (s : List Char) :
    parseCitation (trimChars s) = parseCitation s := by
  simp only [parseCitation, trimChars_idem]

/-- Skip an alternation branch whose match (or whose continuation) fails. -/
theorem tryAlts_skip {α : Type} (toks : List RTok) (alts : List (List RTok))
    (s : List Char) (k : List Char → List Char → Option α) (r : Option α)
    (h : ((eatToks toks s).bind fun pr => k pr.1 pr.2) = none)
    (h2 : tryAlts alts s k = r) :
    tryAlts (toks :: alts) s k = r := by
  simp only [tryAlts, List.findSome?_cons, h]
  exact h2

/-- Reassociation of a short-style formatted citation without paragraph. -/
theorem reassocS0 (A B T R1 R2 : List Char) :
    "Art. ".data ++ (A ++ B) ++ [] ++ ", ".data ++ T ++ " ".data ++ R1 ++ '/' :: R2
      = 'A' :: 'r' :: 't' :: '.' :: ' ' ::
        (A ++ B ++ ',' :: ' ' :: (T ++ ' ' :: (R1 ++ '/' :: R2))) := by
  simp [show ("Art. ".data : List Char) = ['A', 'r', 't', '.', ' '] from rfl,
    show (", ".data : List Char) = [',', ' '] from rfl,
    show (" ".data : List Char) = [' '] from rfl]

/-- Reassociation of a short-style formatted citation with paragraph. -/
theorem reassocS1 (A B D T R1 R2 : List Char) :
    "Art. ".data ++ (A ++ B) ++ (", comma ".data ++ D) ++ ", ".data ++ T ++ " ".data
        ++ R1 ++ '/' :: R2
      = 'A' :: 'r' :: 't' :: '.' :: ' ' ::
        (A ++ B ++ ',' :: ' ' :: 'c' :: 'o' :: 'm' :: 'm' :: 'a' :: ' ' ::
          (D ++ ',' :: ' ' :: (T ++ ' ' :: (R1 ++ '/' :: R2)))) := by
  simp [show ("Art. ".data : List Char) = ['A', 'r', 't', '.', ' '] from rfl,
    show (", comma ".data : List Char) = [',', ' ', 'c', 'o', 'm', 'm', 'a', ' '] from rfl,
    show (", ".data : List Char) = [',', ' '] from rfl,
    show (" ".data : List Char) = [' '] from rfl]

/-- Reassociation of a full-style formatted citation without paragraph. -/
theorem reassocF0 (A B T R1 R2 : List Char) :
    "Art. ".data ++ (A ++ B) ++ [] ++ ", ".data ++ T ++ " n. ".data ++ R1 ++ '/' :: R2
      = 'A' :: 'r' :: 't' :: '.' :: ' ' ::
        (A ++ B ++ ',' :: ' ' :: (T ++ ' ' :: 'n' :: '.' :: ' ' :: (R1 ++ '/' :: R2))) := by
  simp [show ("Art. ".data : List Char) = ['A', 'r', 't', '.', ' '] from rfl,
    show (", ".data : List Char) = [',', ' '] from rfl,
    show (" n. ".data : List Char) = [' ', 'n', '.', ' '] from rfl]

/-- Reassociation of a full-style formatted citation with paragraph. -/
theorem reassocF1 (A B D T R1 R2 : List Char) :
    "Art. ".data ++ (A ++ B) ++ (", comma ".data ++ D) ++ ", ".data ++ T ++ " n. ".data
        ++ R1 ++ '/' :: R2
      = 'A' :: 'r' :: 't' :: '.' :: ' ' ::
        (A ++ B ++ ',' :: ' ' :: 'c' :: 'o' :: 'm' :: 'm' :: 'a' :: ' ' ::
          (D ++ ',' :: ' ' :: (T ++ ' ' :: 'n' :: '.' :: ' ' :: (R1 ++ '/' :: R2)))) := by
  simp [show ("Art. ".data : List Char) = ['A', 'r', 't', '.', ' '] from rfl,
    show (", comma ".data : List Char) = [',', ' ', 'c', 'o', 'm', 'm', 'a', ' '] from rfl,
    show (", ".data : List Char) = [',', ' '] from rfl,
    show (" n. ".data : List Char) = [' ', 'n', '.', ' '] from rfl]

/-- Parsing a `short_dlgs`-shaped formatted citation without a paragraph slot. -/
theorem rt_short_dlgs_nc (a sfxPart : List Char) (n y : Nat)
    (ha : a ≠ []) (had : ∀ c ∈ a, isDigitC c = true)
    (hs : (sfxPart = [] ∧ True) ∨ ∃ s ∈ ARTICLE_SUFFIXES, sfxPart = '-' :: s)
    (hy1 : 1000 ≤ y) (hy2 : y ≤ 9999) :
    parseCitation ('A' :: 'r' :: 't' :: '.' :: ' ' ::
        (a ++ sfxPart ++ ',' :: ' ' ::
          ('D' :: '.' :: 'L' :: 'g' :: 's' :: '.' :: ' ' :: (renderNat n ++ '/' :: renderNat y)))) =
      { valid := true, type := DocType.dlgs,
        article := some a,
        suffix := match sfxPart with | [] => none | _ :: t => some t,
        comma := none, number := some n, year := some y,
        document_id := some (buildDocumentId DocType.dlgs n y) } := by
  have h4 : (renderNat y).length = 4 := renderNat_len4 y hy1 hy2
  have htrim : trimChars ('A' :: 'r' :: 't' :: '.' :: ' ' ::
        (a ++ sfxPart ++ ',' :: ' ' ::
          ('D' :: '.' :: 'L' :: 'g' :: 's' :: '.' :: ' ' :: (renderNat n ++ '/' :: renderNat y)))) =
      'A' :: 'r' :: 't' :: '.' :: ' ' ::
        (a ++ sfxPart ++ ',' :: ' ' ::
          ('D' :: '.' :: 'L' :: 'g' :: 's' :: '.' :: ' ' :: (renderNat n ++ '/' :: renderNat y))) := by
    rw [show ('A' :: 'r' :: 't' :: '.' :: ' ' ::
        (a ++ sfxPart ++ ',' :: ' ' ::
          ('D' :: '.' :: 'L' :: 'g' :: 's' :: '.' :: ' ' :: (renderNat n ++ '/' :: renderNat y))))
        = 'A' :: (('r' :: 't' :: '.' :: ' ' ::
            (a ++ sfxPart ++ ',' :: ' ' ::
              ('D' :: '.' :: 'L' :: 'g' :: 's' :: '.' :: ' ' :: (renderNat n ++ ['/']))))
            ++ renderNat y) from by simp]
    exact trimChars_art _ y
  have hmc : matchComma ('A' :: 'r' :: 't' :: '.' :: ' ' ::
        (a ++ sfxPart ++ ',' :: ' ' ::
          ('D' :: '.' :: 'L' :: 'g' :: 's' :: '.' :: ' ' :: (renderNat n ++ '/' :: renderNat y)))) = none :=
    matchComma_fmt_none a sfxPart _ ha had hs rfl rfl
  have hmi : matchId ('A' :: 'r' :: 't' :: '.' :: ' ' ::
        (a ++ sfxPart ++ ',' :: ' ' ::
          ('D' :: '.' :: 'L' :: 'g' :: 's' :: '.' :: ' ' :: (renderNat n ++ '/' :: renderNat y)))) = none := rfl
  have hcod : matchCodice ('A' :: 'r' :: 't' :: '.' :: ' ' ::
        (a ++ sfxPart ++ ',' :: ' ' ::
          ('D' :: '.' :: 'L' :: 'g' :: 's' :: '.' :: ' ' :: (renderNat n ++ '/' :: renderNat y)))) = none :=
    matchCodice_fmt_none a sfxPart _ ha had hs rfl rfl rfl rfl rfl
  have hmf : matchFull ('A' :: 'r' :: 't' :: '.' :: ' ' ::
        (a ++ sfxPart ++ ',' :: ' ' ::
          ('D' :: '.' :: 'L' :: 'g' :: 's' :: '.' :: ' ' :: (renderNat n ++ '/' :: renderNat y)))) = none :=
    matchFull_fmt_none a sfxPart _ ha had hs rfl rfl rfl rfl rfl
  have hms : matchShort ('A' :: 'r' :: 't' :: '.' :: ' ' ::
        (a ++ sfxPart ++ ',' :: ' ' ::
          ('D' :: '.' :: 'L' :: 'g' :: 's' :: '.' :: ' ' :: (renderNat n ++ '/' :: renderNat y)))) =
      some ⟨a ++ sfxPart, none, "D.Lgs.".data, renderNat n, renderNat y, []⟩ := by
    apply matchShort_fmt a sfxPart
      ('D' :: '.' :: 'L' :: 'g' :: 's' :: '.' :: ' ' :: (renderNat n ++ '/' :: renderNat y))
      _ ha had hs rfl rfl rfl
    unfold shortTypeAlts
    apply tryAlts_cons_success
    rw [show eatToks [RTok.lit "d.lgs".data, RTok.dotOpt]
        ('D' :: '.' :: 'L' :: 'g' :: 's' :: '.' :: ' ' :: (renderNat n ++ '/' :: renderNat y))
        = some ("D.Lgs.".data, ' ' :: (renderNat n ++ '/' :: renderNat y)) from rfl]
    rw [Option.some_bind]
    simp only [shortTail_fmt1 n y h4, Option.map_some']
  simp only [parseCitation, htrim, hmc, hmi, hcod, hmf, hms]
  unfold mkShortCit
  rw [parseArticleRef_formatted a sfxPart ha had hs]
  simp only [parseNat_renderNat]
  rfl

/-- Parsing a `short_dlgs`-shaped formatted citation with a paragraph slot. -/
theorem rt_short_dlgs_c (a sfxPart cm : List Char) (n y : Nat)
    (ha : a ≠ []) (had : ∀ c ∈ a, isDigitC c = true)
    (hs : (sfxPart = [] ∧ True) ∨ ∃ s ∈ ARTICLE_SUFFIXES, sfxPart = '-' :: s)
    (hcm : cm ≠ []) (hcmd : ∀ c ∈ cm, isDigitC c = true)
    (hy1 : 1000 ≤ y) (hy2 : y ≤ 9999) :
    parseCitation ('A' :: 'r' :: 't' :: '.' :: ' ' ::
        (a ++ sfxPart ++ ',' :: ' ' :: 'c' :: 'o' :: 'm' :: 'm' :: 'a' :: ' ' ::
          (cm ++ ',' :: ' ' ::
            ('D' :: '.' :: 'L' :: 'g' :: 's' :: '.' :: ' ' :: (renderNat n ++ '/' :: renderNat y))))) =
      { valid := true, type := DocType.dlgs,
        article := some a,
        suffix := match sfxPart with | [] => none | _ :: t => some t,
        comma := some cm, number := some n, year := some y,
        document_id := some (buildDocumentId DocType.dlgs n y) } := by
  have h4 : (renderNat y).length = 4 := renderNat_len4 y hy1 hy2
  have htrim : trimChars ('A' :: 'r' :: 't' :: '.' :: ' ' ::
        (a ++ sfxPart ++ ',' :: ' ' :: 'c' :: 'o' :: 'm' :: 'm' :: 'a' :: ' ' ::
          (cm ++ ',' :: ' ' ::
            ('D' :: '.' :: 'L' :: 'g' :: 's' :: '.' :: ' ' :: (renderNat n ++ '/' :: renderNat y))))) =
      'A' :: 'r' :: 't' :: '.' :: ' ' ::
        (a ++ sfxPart ++ ',' :: ' ' :: 'c' :: 'o' :: 'm' :: 'm' :: 'a' :: ' ' ::
          (cm ++ ',' :: ' ' ::
            ('D' :: '.' :: 'L' :: 'g' :: 's' :: '.' :: ' ' :: (renderNat n ++ '/' :: renderNat y)))) := by
    rw [show ('A' :: 'r' :: 't' :: '.' :: ' ' ::
        (a ++ sfxPart ++ ',' :: ' ' :: 'c' :: 'o' :: 'm' :: 'm' :: 'a' :: ' ' ::
          (cm ++ ',' :: ' ' ::
            ('D' :: '.' :: 'L' :: 'g' :: 's' :: '.' :: ' ' :: (renderNat n ++ '/' :: renderNat y)))))
        = 'A' :: (('r' :: 't' :: '.' :: ' ' ::
            (a ++ sfxPart ++ ',' :: ' ' :: 'c' :: 'o' :: 'm' :: 'm' :: 'a' :: ' ' ::
              (cm ++ ',' :: ' ' ::
                ('D' :: '.' :: 'L' :: 'g' :: 's' :: '.' :: ' ' :: (renderNat n ++ ['/'])))))
            ++ renderNat y) from by simp]
    exact trimChars_art _ y
  have hmc : matchComma ('A' :: 'r' :: 't' :: '.' :: ' ' ::
        (a ++ sfxPart ++ ',' :: ' ' :: 'c' :: 'o' :: 'm' :: 'm' :: 'a' :: ' ' ::
          (cm ++ ',' :: ' ' ::
            ('D' :: '.' :: 'L' :: 'g' :: 's' :: '.' :: ' ' :: (renderNat n ++ '/' :: renderNat y))))) =
      some ⟨a ++ sfxPart, cm, "D.Lgs.".data, renderNat n, renderNat y, []⟩ := by
    apply matchComma_fmt a sfxPart cm
      ('D' :: '.' :: 'L' :: 'g' :: 's' :: '.' :: ' ' :: (renderNat n ++ '/' :: renderNat y))
      _ ha had hs hcm hcmd rfl
    unfold shortTypeAlts
    apply tryAlts_cons_success
    rw [show eatToks [RTok.lit "d.lgs".data, RTok.dotOpt]
        ('D' :: '.' :: 'L' :: 'g' :: 's' :: '.' :: ' ' :: (renderNat n ++ '/' :: renderNat y))
        = some ("D.Lgs.".data, ' ' :: (renderNat n ++ '/' :: renderNat y)) from rfl]
    rw [Option.some_bind]
    simp only [shortTail_fmt1 n y h4, Option.map_some']
  simp only [parseCitation, htrim, hmc]
  unfold mkCommaCit
  rw [parseArticleRef_formatted a sfxPart ha had hs]
  simp only [parseNat_renderNat]
  rfl

/-- Parsing a `short_dl`-shaped formatted citation without a paragraph slot. -/
theorem rt_short_dl_nc (a sfxPart : List Char) (n y : Nat)
    (ha : a ≠ []) (had : ∀ c ∈ a, isDigitC c = true)
    (hs : (sfxPart = [] ∧ True) ∨ ∃ s ∈ ARTICLE_SUFFIXES, sfxPart = '-' :: s)
    (hy1 : 1000 ≤ y) (hy2 : y ≤ 9999) :
    parseCitation ('A' :: 'r' :: 't' :: '.' :: ' ' ::
        (a ++ sfxPart ++ ',' :: ' ' ::
          ('D' :: '.' :: 'L' :: '.' :: ' ' :: (renderNat n ++ '/' :: renderNat y)))) =
      { valid := true, type := DocType.dl,
        article := some a,
        suffix := match sfxPart with | [] => none | _ :: t => some t,
        comma := none, number := some n, year := some y,
        document_id := some (buildDocumentId DocType.dl n y) } := by
  have h4 : (renderNat y).length = 4 := renderNat_len4 y hy1 hy2
  have htrim : trimChars ('A' :: 'r' :: 't' :: '.' :: ' ' ::
        (a ++ sfxPart ++ ',' :: ' ' ::
          ('D' :: '.' :: 'L' :: '.' :: ' ' :: (renderNat n ++ '/' :: renderNat y)))) =
      'A' :: 'r' :: 't' :: '.' :: ' ' ::
        (a ++ sfxPart ++ ',' :: ' ' ::
          ('D' :: '.' :: 'L' :: '.' :: ' ' :: (renderNat n ++ '/' :: renderNat y))) := by
    rw [show ('A' :: 'r' :: 't' :: '.' :: ' ' ::
        (a ++ sfxPart ++ ',' :: ' ' ::
          ('D' :: '.' :: 'L' :: '.' :: ' ' :: (renderNat n ++ '/' :: renderNat y))))
        = 'A' :: (('r' :: 't' :: '.' :: ' ' ::
            (a ++ sfxPart ++ ',' :: ' ' ::
              ('D' :: '.' :: 'L' :: '.' :: ' ' :: (renderNat n ++ ['/']))))
            ++ renderNat y) from by simp]
    exact trimChars_art _ y
  have hmc : matchComma ('A' :: 'r' :: 't' :: '.' :: ' ' ::
        (a ++ sfxPart ++ ',' :: ' ' ::
          ('D' :: '.' :: 'L' :: '.' :: ' ' :: (renderNat n ++ '/' :: renderNat y)))) = none :=
    matchComma_fmt_none a sfxPart _ ha had hs rfl rfl
  have hmi : matchId ('A' :: 'r' :: 't' :: '.' :: ' ' ::
        (a ++ sfxPart ++ ',' :: ' ' ::
          ('D' :: '.' :: 'L' :: '.' :: ' ' :: (renderNat n ++ '/' :: renderNat y)))) = none := rfl
  have hcod : matchCodice ('A' :: 'r' :: 't' :: '.' :: ' ' ::
        (a ++ sfxPart ++ ',' :: ' ' ::
          ('D' :: '.' :: 'L' :: '.' :: ' ' :: (renderNat n ++ '/' :: renderNat y)))) = none :=
    matchCodice_fmt_none a sfxPart _ ha had hs rfl rfl rfl rfl rfl
  have hmf : matchFull ('A' :: 'r' :: 't' :: '.' :: ' ' ::
        (a ++ sfxPart ++ ',' :: ' ' ::
          ('D' :: '.' :: 'L' :: '.' :: ' ' :: (renderNat n ++ '/' :: renderNat y)))) = none :=
    matchFull_fmt_none a sfxPart _ ha had hs rfl rfl rfl rfl rfl
  have hms : matchShort ('A' :: 'r' :: 't' :: '.' :: ' ' ::
        (a ++ sfxPart ++ ',' :: ' ' ::
          ('D' :: '.' :: 'L' :: '.' :: ' ' :: (renderNat n ++ '/' :: renderNat y)))) =
      some ⟨a ++ sfxPart, none, "D.L.".data, renderNat n, renderNat y, []⟩ := by
    apply matchShort_fmt a sfxPart
      ('D' :: '.' :: 'L' :: '.' :: ' ' :: (renderNat n ++ '/' :: renderNat y))
      _ ha had hs rfl rfl rfl
    unfold shortTypeAlts
    apply tryAlts_skip
    · rfl
    apply tryAlts_cons_success
    rw [show eatToks [RTok.lit "d.l".data, RTok.dotOpt]
        ('D' :: '.' :: 'L' :: '.' :: ' ' :: (renderNat n ++ '/' :: renderNat y))
        = some ("D.L.".data, ' ' :: (renderNat n ++ '/' :: renderNat y)) from rfl]
    rw [Option.some_bind]
    simp only [shortTail_fmt1 n y h4, Option.map_some']
  simp only [parseCitation, htrim, hmc, hmi, hcod, hmf, hms]
  unfold mkShortCit
  rw [parseArticleRef_formatted a sfxPart ha had hs]
  simp only [parseNat_renderNat]
  rfl

/-- Parsing a `short_dl`-shaped formatted citation with a paragraph slot. -/
theorem rt_short_dl_c (a sfxPart cm : List Char) (n y : Nat)
    (ha : a ≠ []) (had : ∀ c ∈ a, isDigitC c = true)
    (hs : (sfxPart = [] ∧ True) ∨ ∃ s ∈ ARTICLE_SUFFIXES, sfxPart = '-' :: s)
    (hcm : cm ≠ []) (hcmd : ∀ c ∈ cm, isDigitC c = true)
    (hy1 : 1000 ≤ y) (hy2 : y ≤ 9999) :
    parseCitation ('A' :: 'r' :: 't' :: '.' :: ' ' ::
        (a ++ sfxPart ++ ',' :: ' ' :: 'c' :: 'o' :: 'm' :: 'm' :: 'a' :: ' ' ::
          (cm ++ ',' :: ' ' ::
            ('D' :: '.' :: 'L' :: '.' :: ' ' :: (renderNat n ++ '/' :: renderNat y))))) =
      { valid := true, type := DocType.dl,
        article := some a,
        suffix := match sfxPart with | [] => none | _ :: t => some t,
        comma := some cm, number := some n, year := some y,
        document_id := some (buildDocumentId DocType.dl n y) } := by
  have h4 : (renderNat y).length = 4 := renderNat_len4 y hy1 hy2
  have htrim : trimChars ('A' :: 'r' :: 't' :: '.' :: ' ' ::
        (a ++ sfxPart ++ ',' :: ' ' :: 'c' :: 'o' :: 'm' :: 'm' :: 'a' :: ' ' ::
          (cm ++ ',' :: ' ' ::
            ('D' :: '.' :: 'L' :: '.' :: ' ' :: (renderNat n ++ '/' :: renderNat y))))) =
      'A' :: 'r' :: 't' :: '.' :: ' ' ::
        (a ++ sfxPart ++ ',' :: ' ' :: 'c' :: 'o' :: 'm' :: 'm' :: 'a' :: ' ' ::
          (cm ++ ',' :: ' ' ::
            ('D' :: '.' :: 'L' :: '.' :: ' ' :: (renderNat n ++ '/' :: renderNat y)))) := by
    rw [show ('A' :: 'r' :: 't' :: '.' :: ' ' ::
        (a ++ sfxPart ++ ',' :: ' ' :: 'c' :: 'o' :: 'm' :: 'm' :: 'a' :: ' ' ::
          (cm ++ ',' :: ' ' ::
            ('D' :: '.' :: 'L' :: '.' :: ' ' :: (renderNat n ++ '/' :: renderNat y)))))
        = 'A' :: (('r' :: 't' :: '.' :: ' ' ::
            (a ++ sfxPart ++ ',' :: ' ' :: 'c' :: 'o' :: 'm' :: 'm' :: 'a' :: ' ' ::
              (cm ++ ',' :: ' ' ::
                ('D' :: '.' :: 'L' :: '.' :: ' ' :: (renderNat n ++ ['/'])))))
            ++ renderNat y) from by simp]
    exact trimChars_art _ y
  have hmc : matchComma ('A' :: 'r' :: 't' :: '.' :: ' ' ::
        (a ++ sfxPart ++ ',' :: ' ' :: 'c' :: 'o' :: 'm' :: 'm' :: 'a' :: ' ' ::
          (cm ++ ',' :: ' ' ::
            ('D' :: '.' :: 'L' :: '.' :: ' ' :: (renderNat n ++ '/' :: renderNat y))))) =
      some ⟨a ++ sfxPart, cm, "D.L.".data, renderNat n, renderNat y, []⟩ := by
    apply matchComma_fmt a sfxPart cm
      ('D' :: '.' :: 'L' :: '.' :: ' ' :: (renderNat n ++ '/' :: renderNat y))
      _ ha had hs hcm hcmd rfl
    unfold shortTypeAlts
    apply tryAlts_skip
    · rfl
    apply tryAlts_cons_success
    rw [show eatToks [RTok.lit "d.l".data, RTok.dotOpt]
        ('D' :: '.' :: 'L' :: '.' :: ' ' :: (renderNat n ++ '/' :: renderNat y))
        = some ("D.L.".data, ' ' :: (renderNat n ++ '/' :: renderNat y)) from rfl]
    rw [Option.some_bind]
    simp only [shortTail_fmt1 n y h4, Option.map_some']
  simp only [parseCitation, htrim, hmc]
  unfold mkCommaCit
  rw [parseArticleRef_formatted a sfxPart ha had hs]
  simp only [parseNat_renderNat]
  rfl

/-- Parsing a `short_legge`-shaped formatted citation without a paragraph slot. -/
theorem rt_short_legge_nc (a sfxPart : List Char) (n y : Nat)
    (ha : a ≠ []) (had : ∀ c ∈ a, isDigitC c = true)
    (hs : (sfxPart = [] ∧ True) ∨ ∃ s ∈ ARTICLE_SUFFIXES, sfxPart = '-' :: s)
    (hy1 : 1000 ≤ y) (hy2 : y ≤ 9999) :
    parseCitation ('A' :: 'r' :: 't' :: '.' :: ' ' ::
        (a ++ sfxPart ++ ',' :: ' ' ::
          ('L' :: '.' :: ' ' :: (renderNat n ++ '/' :: renderNat y)))) =
      { valid := true, type := DocType.legge,
        article := some a,
        suffix := match sfxPart with | [] => none | _ :: t => some t,
        comma := none, number := some n, year := some y,
        document_id := some (buildDocumentId DocType.legge n y) } := by
  have h4 : (renderNat y).length = 4 := renderNat_len4 y hy1 hy2
  have htrim : trimChars ('A' :: 'r' :: 't' :: '.' :: ' ' ::
        (a ++ sfxPart ++ ',' :: ' ' ::
          ('L' :: '.' :: ' ' :: (renderNat n ++ '/' :: renderNat y)))) =
      'A' :: 'r' :: 't' :: '.' :: ' ' ::
        (a ++ sfxPart ++ ',' :: ' ' ::
          ('L' :: '.' :: ' ' :: (renderNat n ++ '/' :: renderNat y))) := by
    rw [show ('A' :: 'r' :: 't' :: '.' :: ' ' ::
        (a ++ sfxPart ++ ',' :: ' ' ::
          ('L' :: '.' :: ' ' :: (renderNat n ++ '/' :: renderNat y))))
        = 'A' :: (('r' :: 't' :: '.' :: ' ' ::
            (a ++ sfxPart ++ ',' :: ' ' ::
              ('L' :: '.' :: ' ' :: (renderNat n ++ ['/']))))
            ++ renderNat y) from by simp]
    exact trimChars_art _ y
  have hmc : matchComma ('A' :: 'r' :: 't' :: '.' :: ' ' ::
        (a ++ sfxPart ++ ',' :: ' ' ::
          ('L' :: '.' :: ' ' :: (renderNat n ++ '/' :: renderNat y)))) = none :=
    matchComma_fmt_none a sfxPart _ ha had hs rfl rfl
  have hmi : matchId ('A' :: 'r' :: 't' :: '.' :: ' ' ::
        (a ++ sfxPart ++ ',' :: ' ' ::
          ('L' :: '.' :: ' ' :: (renderNat n ++ '/' :: renderNat y)))) = none := rfl
  have hcod : matchCodice ('A' :: 'r' :: 't' :: '.' :: ' ' ::
        (a ++ sfxPart ++ ',' :: ' ' ::
          ('L' :: '.' :: ' ' :: (renderNat n ++ '/' :: renderNat y)))) = none :=
    matchCodice_fmt_none a sfxPart _ ha had hs rfl rfl rfl rfl rfl
  have hmf : matchFull ('A' :: 'r' :: 't' :: '.' :: ' ' ::
        (a ++ sfxPart ++ ',' :: ' ' ::
          ('L' :: '.' :: ' ' :: (renderNat n ++ '/' :: renderNat y)))) = none :=
    matchFull_fmt_none a sfxPart _ ha had hs rfl rfl rfl rfl rfl
  have hms : matchShort ('A' :: 'r' :: 't' :: '.' :: ' ' ::
        (a ++ sfxPart ++ ',' :: ' ' ::
          ('L' :: '.' :: ' ' :: (renderNat n ++ '/' :: renderNat y)))) =
      some ⟨a ++ sfxPart, none, "L.".data, renderNat n, renderNat y, []⟩ := by
    apply matchShort_fmt a sfxPart
      ('L' :: '.' :: ' ' :: (renderNat n ++ '/' :: renderNat y))
      _ ha had hs rfl rfl rfl
    unfold shortTypeAlts
    apply tryAlts_skip
    · rfl
    apply tryAlts_skip
    · rfl
    apply tryAlts_cons_success
    rw [show eatToks [RTok.lit "l".data, RTok.dotOpt]
        ('L' :: '.' :: ' ' :: (renderNat n ++ '/' :: renderNat y))
        = some ("L.".data, ' ' :: (renderNat n ++ '/' :: renderNat y)) from rfl]
    rw [Option.some_bind]
    simp only [shortTail_fmt1 n y h4, Option.map_some']
  simp only [parseCitation, htrim, hmc, hmi, hcod, hmf, hms]
  unfold mkShortCit
  rw [parseArticleRef_formatted a sfxPart ha had hs]
  simp only [parseNat_renderNat]
  rfl

/-- Parsing a `short_legge`-shaped formatted citation with a paragraph slot. -/
theorem rt_short_legge_c (a sfxPart cm : List Char) (n y : Nat)
    (ha : a ≠ []) (had : ∀ c ∈ a, isDigitC c = true)
    (hs : (sfxPart = [] ∧ True) ∨ ∃ s ∈ ARTICLE_SUFFIXES, sfxPart = '-' :: s)
    (hcm : cm ≠ []) (hcmd : ∀ c ∈ cm, isDigitC c = true)
    (hy1 : 1000 ≤ y) (hy2 : y ≤ 9999) :
    parseCitation ('A' :: 'r' :: 't' :: '.' :: ' ' ::
        (a ++ sfxPart ++ ',' :: ' ' :: 'c' :: 'o' :: 'm' :: 'm' :: 'a' :: ' ' ::
          (cm ++ ',' :: ' ' ::
            ('L' :: '.' :: ' ' :: (renderNat n ++ '/' :: renderNat y))))) =
      { valid := true, type := DocType.legge,
        article := some a,
        suffix := match sfxPart with | [] => none | _ :: t => some t,
        comma := some cm, number := some n, year := some y,
        document_id := some (buildDocumentId DocType.legge n y) } := by
  have h4 : (renderNat y).length = 4 := renderNat_len4 y hy1 hy2
  have htrim : trimChars ('A' :: 'r' :: 't' :: '.' :: ' ' ::
        (a ++ sfxPart ++ ',' :: ' ' :: 'c' :: 'o' :: 'm' :: 'm' :: 'a' :: ' ' ::
          (cm ++ ',' :: ' ' ::
            ('L' :: '.' :: ' ' :: (renderNat n ++ '/' :: renderNat y))))) =
      'A' :: 'r' :: 't' :: '.' :: ' ' ::
        (a ++ sfxPart ++ ',' :: ' ' :: 'c' :: 'o' :: 'm' :: 'm' :: 'a' :: ' ' ::
          (cm ++ ',' :: ' ' ::
            ('L' :: '.' :: ' ' :: (renderNat n ++ '/' :: renderNat y)))) := by
    rw [show ('A' :: 'r' :: 't' :: '.' :: ' ' ::
        (a ++ sfxPart ++ ',' :: ' ' :: 'c' :: 'o' :: 'm' :: 'm' :: 'a' :: ' ' ::
          (cm ++ ',' :: ' ' ::
            ('L' :: '.' :: ' ' :: (renderNat n ++ '/' :: renderNat y)))))
        = 'A' :: (('r' :: 't' :: '.' :: ' ' ::
            (a ++ sfxPart ++ ',' :: ' ' :: 'c' :: 'o' :: 'm' :: 'm' :: 'a' :: ' ' ::
              (cm ++ ',' :: ' ' ::
                ('L' :: '.' :: ' ' :: (renderNat n ++ ['/'])))))
            ++ renderNat y) from by simp]
    exact trimChars_art _ y
  have hmc : matchComma ('A' :: 'r' :: 't' :: '.' :: ' ' ::
        (a ++ sfxPart ++ ',' :: ' ' :: 'c' :: 'o' :: 'm' :: 'm' :: 'a' :: ' ' ::
          (cm ++ ',' :: ' ' ::
            ('L' :: '.' :: ' ' :: (renderNat n ++ '/' :: renderNat y))))) =
      some ⟨a ++ sfxPart, cm, "L.".data, renderNat n, renderNat y, []⟩ := by
    apply matchComma_fmt a sfxPart cm
      ('L' :: '.' :: ' ' :: (renderNat n ++ '/' :: renderNat y))
      _ ha had hs hcm hcmd rfl
    unfold shortTypeAlts
    apply tryAlts_skip
    · rfl
    apply tryAlts_skip
    · rfl
    apply tryAlts_cons_success
    rw [show eatToks [RTok.lit "l".data, RTok.dotOpt]
        ('L' :: '.' :: ' ' :: (renderNat n ++ '/' :: renderNat y))
        = some ("L.".data, ' ' :: (renderNat n ++ '/' :: renderNat y)) from rfl]
    rw [Option.some_bind]
    simp only [shortTail_fmt1 n y h4, Option.map_some']
  simp only [parseCitation, htrim, hmc]
  unfold mkCommaCit
  rw [parseArticleRef_formatted a sfxPart ha had hs]
  simp only [parseNat_renderNat]
  rfl

/-- Parsing a `short_dpr`-shaped formatted citation without a paragraph slot. -/
theorem rt_short_dpr_nc (a sfxPart : List Char) (n y : Nat)
    (ha : a ≠ []) (had : ∀ c ∈ a, isDigitC c = true)
    (hs : (sfxPart = [] ∧ True) ∨ ∃ s ∈ ARTICLE_SUFFIXES, sfxPart = '-' :: s)
    (hy1 : 1000 ≤ y) (hy2 : y ≤ 9999) :
    parseCitation ('A' :: 'r' :: 't' :: '.' :: ' ' ::
        (a ++ sfxPart ++ ',' :: ' ' ::
          ('D' :: '.' :: 'P' :: '.' :: 'R' :: '.' :: ' ' :: (renderNat n ++ '/' :: renderNat y)))) =
      { valid := true, type := DocType.dpr,
        article := some a,
        suffix := match sfxPart with | [] => none | _ :: t => some t,
        comma := none, number := some n, year := some y,
        document_id := some (buildDocumentId DocType.dpr n y) } := by
  have h4 : (renderNat y).length = 4 := renderNat_len4 y hy1 hy2
  have htrim : trimChars ('A' :: 'r' :: 't' :: '.' :: ' ' ::
        (a ++ sfxPart ++ ',' :: ' ' ::
          ('D' :: '.' :: 'P' :: '.' :: 'R' :: '.' :: ' ' :: (renderNat n ++ '/' :: renderNat y)))) =
      'A' :: 'r' :: 't' :: '.' :: ' ' ::
        (a ++ sfxPart ++ ',' :: ' ' ::
          ('D' :: '.' :: 'P' :: '.' :: 'R' :: '.' :: ' ' :: (renderNat n ++ '/' :: renderNat y))) := by
    rw [show ('A' :: 'r' :: 't' :: '.' :: ' ' ::
        (a ++ sfxPart ++ ',' :: ' ' ::
          ('D' :: '.' :: 'P' :: '.' :: 'R' :: '.' :: ' ' :: (renderNat n ++ '/' :: renderNat y))))
        = 'A' :: (('r' :: 't' :: '.' :: ' ' ::
            (a ++ sfxPart ++ ',' :: ' ' ::
              ('D' :: '.' :: 'P' :: '.' :: 'R' :: '.' :: ' ' :: (renderNat n ++ ['/']))))
            ++ renderNat y) from by simp]
    exact trimChars_art _ y
  have hmc : matchComma ('A' :: 'r' :: 't' :: '.' :: ' ' ::
        (a ++ sfxPart ++ ',' :: ' ' ::
          ('D' :: '.' :: 'P' :: '.' :: 'R' :: '.' :: ' ' :: (renderNat n ++ '/' :: renderNat y)))) = none :=
    matchComma_fmt_none a sfxPart _ ha had hs rfl rfl
  have hmi : matchId ('A' :: 'r' :: 't' :: '.' :: ' ' ::
        (a ++ sfxPart ++ ',' :: ' ' ::
          ('D' :: '.' :: 'P' :: '.' :: 'R' :: '.' :: ' ' :: (renderNat n ++ '/' :: renderNat y)))) = none := rfl
  have hcod : matchCodice ('A' :: 'r' :: 't' :: '.' :: ' ' ::
        (a ++ sfxPart ++ ',' :: ' ' ::
          ('D' :: '.' :: 'P' :: '.' :: 'R' :: '.' :: ' ' :: (renderNat n ++ '/' :: renderNat y)))) = none :=
    matchCodice_fmt_none a sfxPart _ ha had hs rfl rfl rfl rfl rfl
  have hmf : matchFull ('A' :: 'r' :: 't' :: '.' :: ' ' ::
        (a ++ sfxPart ++ ',' :: ' ' ::
          ('D' :: '.' :: 'P' :: '.' :: 'R' :: '.' :: ' ' :: (renderNat n ++ '/' :: renderNat y)))) = none := by
    apply matchFull_fmt_none a sfxPart
      ('D' :: '.' :: 'P' :: '.' :: 'R' :: '.' :: ' ' :: (renderNat n ++ '/' :: renderNat y))
      ha had hs rfl rfl rfl
    · unfold fullTypeAlts
      apply tryAlts_skip
      · rfl
      apply tryAlts_skip
      · rfl
      apply tryAlts_skip
      · rfl
      apply tryAlts_skip
      · rfl
      apply tryAlts_skip
      · rfl
      apply tryAlts_skip
      · rw [show eatToks [RTok.lit "d.p.r".data, RTok.dotOpt]
            ('D' :: '.' :: 'P' :: '.' :: 'R' :: '.' :: ' ' :: (renderNat n ++ '/' :: renderNat y))
            = some ("D.P.R.".data, ' ' :: (renderNat n ++ '/' :: renderNat y)) from rfl]
        rw [Option.some_bind]
        simp only [fullTail_slash_none n y, Option.map_none']
      exact tryAlts_nil _ _
    · rfl
  have hms : matchShort ('A' :: 'r' :: 't' :: '.' :: ' ' ::
        (a ++ sfxPart ++ ',' :: ' ' ::
          ('D' :: '.' :: 'P' :: '.' :: 'R' :: '.' :: ' ' :: (renderNat n ++ '/' :: renderNat y)))) =
      some ⟨a ++ sfxPart, none, "D.P.R.".data, renderNat n, renderNat y, []⟩ := by
    apply matchShort_fmt a sfxPart
      ('D' :: '.' :: 'P' :: '.' :: 'R' :: '.' :: ' ' :: (renderNat n ++ '/' :: renderNat y))
      _ ha had hs rfl rfl rfl
    unfold shortTypeAlts
    apply tryAlts_skip
    · rfl
    apply tryAlts_skip
    · rfl
    apply tryAlts_skip
    · rfl
    apply tryAlts_cons_success
    rw [show eatToks [RTok.lit "d.p.r".data, RTok.dotOpt]
        ('D' :: '.' :: 'P' :: '.' :: 'R' :: '.' :: ' ' :: (renderNat n ++ '/' :: renderNat y))
        = some ("D.P.R.".data, ' ' :: (renderNat n ++ '/' :: renderNat y)) from rfl]
    rw [Option.some_bind]
    simp only [shortTail_fmt1 n y h4, Option.map_some']
  simp only [parseCitation, htrim, hmc, hmi, hcod, hmf, hms]
  unfold mkShortCit
  rw [parseArticleRef_formatted a sfxPart ha had hs]
  simp only [parseNat_renderNat]
  rfl

/-- Parsing a `short_dpr`-shaped formatted citation with a paragraph slot. -/
theorem rt_short_dpr_c (a sfxPart cm : List Char) (n y : Nat)
    (ha : a ≠ []) (had : ∀ c ∈ a, isDigitC c = true)
    (hs : (sfxPart = [] ∧ True) ∨ ∃ s ∈ ARTICLE_SUFFIXES, sfxPart = '-' :: s)
    (hcm : cm ≠ []) (hcmd : ∀ c ∈ cm, isDigitC c = true)
    (hy1 : 1000 ≤ y) (hy2 : y ≤ 9999) :
    parseCitation ('A' :: 'r' :: 't' :: '.' :: ' ' ::
        (a ++ sfxPart ++ ',' :: ' ' :: 'c' :: 'o' :: 'm' :: 'm' :: 'a' :: ' ' ::
          (cm ++ ',' :: ' ' ::
            ('D' :: '.' :: 'P' :: '.' :: 'R' :: '.' :: ' ' :: (renderNat n ++ '/' :: renderNat y))))) =
      { valid := true, type := DocType.dpr,
        article := some a,
        suffix := match sfxPart with | [] => none | _ :: t => some t,
        comma := some cm, number := some n, year := some y,
        document_id := some (buildDocumentId DocType.dpr n y) } := by
  have h4 : (renderNat y).length = 4 := renderNat_len4 y hy1 hy2
  have htrim : trimChars ('A' :: 'r' :: 't' :: '.' :: ' ' ::
        (a ++ sfxPart ++ ',' :: ' ' :: 'c' :: 'o' :: 'm' :: 'm' :: 'a' :: ' ' ::
          (cm ++ ',' :: ' ' ::
            ('D' :: '.' :: 'P' :: '.' :: 'R' :: '.' :: ' ' :: (renderNat n ++ '/' :: renderNat y))))) =
      'A' :: 'r' :: 't' :: '.' :: ' ' ::
        (a ++ sfxPart ++ ',' :: ' ' :: 'c' :: 'o' :: 'm' :: 'm' :: 'a' :: ' ' ::
          (cm ++ ',' :: ' ' ::
            ('D' :: '.' :: 'P' :: '.' :: 'R' :: '.' :: ' ' :: (renderNat n ++ '/' :: renderNat y)))) := by
    rw [show ('A' :: 'r' :: 't' :: '.' :: ' ' ::
        (a ++ sfxPart ++ ',' :: ' ' :: 'c' :: 'o' :: 'm' :: 'm' :: 'a' :: ' ' ::
          (cm ++ ',' :: ' ' ::
            ('D' :: '.' :: 'P' :: '.' :: 'R' :: '.' :: ' ' :: (renderNat n ++ '/' :: renderNat y)))))
        = 'A' :: (('r' :: 't' :: '.' :: ' ' ::
            (a ++ sfxPart ++ ',' :: ' ' :: 'c' :: 'o' :: 'm' :: 'm' :: 'a' :: ' ' ::
              (cm ++ ',' :: ' ' ::
                ('D' :: '.' :: 'P' :: '.' :: 'R' :: '.' :: ' ' :: (renderNat n ++ ['/'])))))
            ++ renderNat y) from by simp]
    exact trimChars_art _ y
  have hmc : matchComma ('A' :: 'r' :: 't' :: '.' :: ' ' ::
        (a ++ sfxPart ++ ',' :: ' ' :: 'c' :: 'o' :: 'm' :: 'm' :: 'a' :: ' ' ::
          (cm ++ ',' :: ' ' ::
            ('D' :: '.' :: 'P' :: '.' :: 'R' :: '.' :: ' ' :: (renderNat n ++ '/' :: renderNat y))))) =
      some ⟨a ++ sfxPart, cm, "D.P.R.".data, renderNat n, renderNat y, []⟩ := by
    apply matchComma_fmt a sfxPart cm
      ('D' :: '.' :: 'P' :: '.' :: 'R' :: '.' :: ' ' :: (renderNat n ++ '/' :: renderNat y))
      _ ha had hs hcm hcmd rfl
    unfold shortTypeAlts
    apply tryAlts_skip
    · rfl
    apply tryAlts_skip
    · rfl
    apply tryAlts_skip
    · rfl
    apply tryAlts_cons_success
    rw [show eatToks [RTok.lit "d.p.r".data, RTok.dotOpt]
        ('D' :: '.' :: 'P' :: '.' :: 'R' :: '.' :: ' ' :: (renderNat n ++ '/' :: renderNat y))
        = some ("D.P.R.".data, ' ' :: (renderNat n ++ '/' :: renderNat y)) from rfl]
    rw [Option.some_bind]
    simp only [shortTail_fmt1 n y h4, Option.map_some']
  simp only [parseCitation, htrim, hmc]
  unfold mkCommaCit
  rw [parseArticleRef_formatted a sfxPart ha had hs]
  simp only [parseNat_renderNat]
  rfl

/-- Parsing a `short_rd`-shaped formatted citation without a paragraph slot. -/
theorem rt_short_rd_nc (a sfxPart : List Char) (n y : Nat)
    (ha : a ≠ []) (had : ∀ c ∈ a, isDigitC c = true)
    (hs : (sfxPart = [] ∧ True) ∨ ∃ s ∈ ARTICLE_SUFFIXES, sfxPart = '-' :: s)
    (hy1 : 1000 ≤ y) (hy2 : y ≤ 9999) :
    parseCitation ('A' :: 'r' :: 't' :: '.' :: ' ' ::
        (a ++ sfxPart ++ ',' :: ' ' ::
          ('R' :: '.' :: 'D' :: '.' :: ' ' :: (renderNat n ++ '/' :: renderNat y)))) =
      { valid := true, type := DocType.rd,
        article := some a,
        suffix := match sfxPart with | [] => none | _ :: t => some t,
        comma := none, number := some n, year := some y,
        document_id := some (buildDocumentId DocType.rd n y) } := by
  have h4 : (renderNat y).length = 4 := renderNat_len4 y hy1 hy2
  have htrim : trimChars ('A' :: 'r' :: 't' :: '.' :: ' ' ::
        (a ++ sfxPart ++ ',' :: ' ' ::
          ('R' :: '.' :: 'D' :: '.' :: ' ' :: (renderNat n ++ '/' :: renderNat y)))) =
      'A' :: 'r' :: 't' :: '.' :: ' ' ::
        (a ++ sfxPart ++ ',' :: ' ' ::
          ('R' :: '.' :: 'D' :: '.' :: ' ' :: (renderNat n ++ '/' :: renderNat y))) := by
    rw [show ('A' :: 'r' :: 't' :: '.' :: ' ' ::
        (a ++ sfxPart ++ ',' :: ' ' ::
          ('R' :: '.' :: 'D' :: '.' :: ' ' :: (renderNat n ++ '/' :: renderNat y))))
        = 'A' :: (('r' :: 't' :: '.' :: ' ' ::
            (a ++ sfxPart ++ ',' :: ' ' ::
              ('R' :: '.' :: 'D' :: '.' :: ' ' :: (renderNat n ++ ['/']))))
            ++ renderNat y) from by simp]
    exact trimChars_art _ y
  have hmc : matchComma ('A' :: 'r' :: 't' :: '.' :: ' ' ::
        (a ++ sfxPart ++ ',' :: ' ' ::
          ('R' :: '.' :: 'D' :: '.' :: ' ' :: (renderNat n ++ '/' :: renderNat y)))) = none :=
    matchComma_fmt_none a sfxPart _ ha had hs rfl rfl
  have hmi : matchId ('A' :: 'r' :: 't' :: '.' :: ' ' ::
        (a ++ sfxPart ++ ',' :: ' ' ::
          ('R' :: '.' :: 'D' :: '.' :: ' ' :: (renderNat n ++ '/' :: renderNat y)))) = none := rfl
  have hcod : matchCodice ('A' :: 'r' :: 't' :: '.' :: ' ' ::
        (a ++ sfxPart ++ ',' :: ' ' ::
          ('R' :: '.' :: 'D' :: '.' :: ' ' :: (renderNat n ++ '/' :: renderNat y)))) = none :=
    matchCodice_fmt_none a sfxPart _ ha had hs rfl rfl rfl rfl rfl
  have hmf : matchFull ('A' :: 'r' :: 't' :: '.' :: ' ' ::
        (a ++ sfxPart ++ ',' :: ' ' ::
          ('R' :: '.' :: 'D' :: '.' :: ' ' :: (renderNat n ++ '/' :: renderNat y)))) = none :=
    matchFull_fmt_none a sfxPart _ ha had hs rfl rfl rfl rfl rfl
  have hms : matchShort ('A' :: 'r' :: 't' :: '.' :: ' ' ::
        (a ++ sfxPart ++ ',' :: ' ' ::
          ('R' :: '.' :: 'D' :: '.' :: ' ' :: (renderNat n ++ '/' :: renderNat y)))) =
      some ⟨a ++ sfxPart, none, "R.D.".data, renderNat n, renderNat y, []⟩ := by
    apply matchShort_fmt a sfxPart
      ('R' :: '.' :: 'D' :: '.' :: ' ' :: (renderNat n ++ '/' :: renderNat y))
      _ ha had hs rfl rfl rfl
    unfold shortTypeAlts
    apply tryAlts_skip
    · rfl
    apply tryAlts_skip
    · rfl
    apply tryAlts_skip
    · rfl
    apply tryAlts_skip
    · rfl
    apply tryAlts_cons_success
    rw [show eatToks [RTok.lit "r.d".data, RTok.dotOpt]
        ('R' :: '.' :: 'D' :: '.' :: ' ' :: (renderNat n ++ '/' :: renderNat y))
        = some ("R.D.".data, ' ' :: (renderNat n ++ '/' :: renderNat y)) from rfl]
    rw [Option.some_bind]
    simp only [shortTail_fmt1 n y h4, Option.map_some']
  simp only [parseCitation, htrim, hmc, hmi, hcod, hmf, hms]
  unfold mkShortCit
  rw [parseArticleRef_formatted a sfxPart ha had hs]
  simp only [parseNat_renderNat]
  rfl

/-- Parsing a `short_rd`-shaped formatted citation with a paragraph slot. -/
theorem rt_short_rd_c (a sfxPart cm : List Char) (n y : Nat)
    (ha : a ≠ []) (had : ∀ c ∈ a, isDigitC c = true)
    (hs : (sfxPart = [] ∧ True) ∨ ∃ s ∈ ARTICLE_SUFFIXES, sfxPart = '-' :: s)
    (hcm : cm ≠ []) (hcmd : ∀ c ∈ cm, isDigitC c = true)
    (hy1 : 1000 ≤ y) (hy2 : y ≤ 9999) :
    parseCitation ('A' :: 'r' :: 't' :: '.' :: ' ' ::
        (a ++ sfxPart ++ ',' :: ' ' :: 'c' :: 'o' :: 'm' :: 'm' :: 'a' :: ' ' ::
          (cm ++ ',' :: ' ' ::
            ('R' :: '.' :: 'D' :: '.' :: ' ' :: (renderNat n ++ '/' :: renderNat y))))) =
      { valid := true, type := DocType.rd,
        article := some a,
        suffix := match sfxPart with | [] => none | _ :: t => some t,
        comma := some cm, number := some n, year := some y,
        document_id := some (buildDocumentId DocType.rd n y) } := by
  have h4 : (renderNat y).length = 4 := renderNat_len4 y hy1 hy2
  have htrim : trimChars ('A' :: 'r' :: 't' :: '.' :: ' ' ::
        (a ++ sfxPart ++ ',' :: ' ' :: 'c' :: 'o' :: 'm' :: 'm' :: 'a' :: ' ' ::
          (cm ++ ',' :: ' ' ::
            ('R' :: '.' :: 'D' :: '.' :: ' ' :: (renderNat n ++ '/' :: renderNat y))))) =
      'A' :: 'r' :: 't' :: '.' :: ' ' ::
        (a ++ sfxPart ++ ',' :: ' ' :: 'c' :: 'o' :: 'm' :: 'm' :: 'a' :: ' ' ::
          (cm ++ ',' :: ' ' ::
            ('R' :: '.' :: 'D' :: '.' :: ' ' :: (renderNat n ++ '/' :: renderNat y)))) := by
    rw [show ('A' :: 'r' :: 't' :: '.' :: ' ' ::
        (a ++ sfxPart ++ ',' :: ' ' :: 'c' :: 'o' :: 'm' :: 'm' :: 'a' :: ' ' ::
          (cm ++ ',' :: ' ' ::
            ('R' :: '.' :: 'D' :: '.' :: ' ' :: (renderNat n ++ '/' :: renderNat y)))))
        = 'A' :: (('r' :: 't' :: '.' :: ' ' ::
            (a ++ sfxPart ++ ',' :: ' ' :: 'c' :: 'o' :: 'm' :: 'm' :: 'a' :: ' ' ::
              (cm ++ ',' :: ' ' ::
                ('R' :: '.' :: 'D' :: '.' :: ' ' :: (renderNat n ++ ['/'])))))
            ++ renderNat y) from by simp]
    exact trimChars_art _ y
  have hmc : matchComma ('A' :: 'r' :: 't' :: '.' :: ' ' ::
        (a ++ sfxPart ++ ',' :: ' ' :: 'c' :: 'o' :: 'm' :: 'm' :: 'a' :: ' ' ::
          (cm ++ ',' :: ' ' ::
            ('R' :: '.' :: 'D' :: '.' :: ' ' :: (renderNat n ++ '/' :: renderNat y))))) =
      some ⟨a ++ sfxPart, cm, "R.D.".data, renderNat n, renderNat y, []⟩ := by
    apply matchComma_fmt a sfxPart cm
      ('R' :: '.' :: 'D' :: '.' :: ' ' :: (renderNat n ++ '/' :: renderNat y))
      _ ha had hs hcm hcmd rfl
    unfold shortTypeAlts
    apply tryAlts_skip
    · rfl
    apply tryAlts_skip
    · rfl
    apply tryAlts_skip
    · rfl
    apply tryAlts_skip
    · rfl
    apply tryAlts_cons_success
    rw [show eatToks [RTok.lit "r.d".data, RTok.dotOpt]
        ('R' :: '.' :: 'D' :: '.' :: ' ' :: (renderNat n ++ '/' :: renderNat y))
        = some ("R.D.".data, ' ' :: (renderNat n ++ '/' :: renderNat y)) from rfl]
    rw [Option.some_bind]
    simp only [shortTail_fmt1 n y h4, Option.map_some']
  simp only [parseCitation, htrim, hmc]
  unfold mkCommaCit
  rw [parseArticleRef_formatted a sfxPart ha had hs]
  simp only [parseNat_renderNat]
  rfl

/-- Parsing a `full_legge`-shaped formatted citation without a paragraph slot. -/
theorem rt_full_legge_nc (a sfxPart : List Char) (n y : Nat)
    (ha : a ≠ []) (had : ∀ c ∈ a, isDigitC c = true)
    (hs : (sfxPart = [] ∧ True) ∨ ∃ s ∈ ARTICLE_SUFFIXES, sfxPart = '-' :: s)
    (hy1 : 1000 ≤ y) (hy2 : y ≤ 9999) :
    parseCitation ('A' :: 'r' :: 't' :: '.' :: ' ' ::
        (a ++ sfxPart ++ ',' :: ' ' ::
          ('L' :: 'e' :: 'g' :: 'g' :: 'e' :: ' ' :: 'n' :: '.' :: ' ' :: (renderNat n ++ '/' :: renderNat y)))) =
      { valid := true, type := DocType.legge,
        article := some a,
        suffix := match sfxPart with | [] => none | _ :: t => some t,
        comma := none, number := some n, year := some y,
        document_id := some (buildDocumentId DocType.legge n y) } := by
  have h4 : (renderNat y).length = 4 := renderNat_len4 y hy1 hy2
  have htrim : trimChars ('A' :: 'r' :: 't' :: '.' :: ' ' ::
        (a ++ sfxPart ++ ',' :: ' ' ::
          ('L' :: 'e' :: 'g' :: 'g' :: 'e' :: ' ' :: 'n' :: '.' :: ' ' :: (renderNat n ++ '/' :: renderNat y)))) =
      'A' :: 'r' :: 't' :: '.' :: ' ' ::
        (a ++ sfxPart ++ ',' :: ' ' ::
          ('L' :: 'e' :: 'g' :: 'g' :: 'e' :: ' ' :: 'n' :: '.' :: ' ' :: (renderNat n ++ '/' :: renderNat y))) := by
    rw [show ('A' :: 'r' :: 't' :: '.' :: ' ' ::
        (a ++ sfxPart ++ ',' :: ' ' ::
          ('L' :: 'e' :: 'g' :: 'g' :: 'e' :: ' ' :: 'n' :: '.' :: ' ' :: (renderNat n ++ '/' :: renderNat y))))
        = 'A' :: (('r' :: 't' :: '.' :: ' ' ::
            (a ++ sfxPart ++ ',' :: ' ' ::
              ('L' :: 'e' :: 'g' :: 'g' :: 'e' :: ' ' :: 'n' :: '.' :: ' ' :: (renderNat n ++ ['/']))))
            ++ renderNat y) from by simp]
    exact trimChars_art _ y
  have hmc : matchComma ('A' :: 'r' :: 't' :: '.' :: ' ' ::
        (a ++ sfxPart ++ ',' :: ' ' ::
          ('L' :: 'e' :: 'g' :: 'g' :: 'e' :: ' ' :: 'n' :: '.' :: ' ' :: (renderNat n ++ '/' :: renderNat y)))) = none :=
    matchComma_fmt_none a sfxPart _ ha had hs rfl rfl
  have hmi : matchId ('A' :: 'r' :: 't' :: '.' :: ' ' ::
        (a ++ sfxPart ++ ',' :: ' ' ::
          ('L' :: 'e' :: 'g' :: 'g' :: 'e' :: ' ' :: 'n' :: '.' :: ' ' :: (renderNat n ++ '/' :: renderNat y)))) = none := rfl
  have hcod : matchCodice ('A' :: 'r' :: 't' :: '.' :: ' ' ::
        (a ++ sfxPart ++ ',' :: ' ' ::
          ('L' :: 'e' :: 'g' :: 'g' :: 'e' :: ' ' :: 'n' :: '.' :: ' ' :: (renderNat n ++ '/' :: renderNat y)))) = none :=
    matchCodice_fmt_none a sfxPart _ ha had hs rfl rfl rfl rfl rfl
  have hmf : matchFull ('A' :: 'r' :: 't' :: '.' :: ' ' ::
        (a ++ sfxPart ++ ',' :: ' ' ::
          ('L' :: 'e' :: 'g' :: 'g' :: 'e' :: ' ' :: 'n' :: '.' :: ' ' :: (renderNat n ++ '/' :: renderNat y)))) = none :=
    matchFull_fmt_none a sfxPart _ ha had hs rfl rfl rfl rfl rfl
  have hms : matchShort ('A' :: 'r' :: 't' :: '.' :: ' ' ::
        (a ++ sfxPart ++ ',' :: ' ' ::
          ('L' :: 'e' :: 'g' :: 'g' :: 'e' :: ' ' :: 'n' :: '.' :: ' ' :: (renderNat n ++ '/' :: renderNat y)))) =
      some ⟨a ++ sfxPart, none, "Legge".data, renderNat n, renderNat y, []⟩ := by
    apply matchShort_fmt a sfxPart
      ('L' :: 'e' :: 'g' :: 'g' :: 'e' :: ' ' :: 'n' :: '.' :: ' ' :: (renderNat n ++ '/' :: renderNat y))
      _ ha had hs rfl rfl rfl
    unfold shortTypeAlts
    apply tryAlts_skip
    · rfl
    apply tryAlts_skip
    · rfl
    apply tryAlts_skip
    · rfl
    apply tryAlts_skip
    · rfl
    apply tryAlts_skip
    · rfl
    apply tryAlts_cons_success
    rw [show eatToks [RTok.lit "legge".data]
        ('L' :: 'e' :: 'g' :: 'g' :: 'e' :: ' ' :: 'n' :: '.' :: ' ' :: (renderNat n ++ '/' :: renderNat y))
        = some ("Legge".data, ' ' :: 'n' :: '.' :: ' ' :: (renderNat n ++ '/' :: renderNat y)) from rfl]
    rw [Option.some_bind]
    simp only [shortTail_fmt2 n y h4, Option.map_some']
  simp only [parseCitation, htrim, hmc, hmi, hcod, hmf, hms]
  unfold mkShortCit
  rw [parseArticleRef_formatted a sfxPart ha had hs]
  simp only [parseNat_renderNat]
  rfl

/-- Parsing a `full_legge`-shaped formatted citation with a paragraph slot. -/
theorem rt_full_legge_c (a sfxPart cm : List Char) (n y : Nat)
    (ha : a ≠ []) (had : ∀ c ∈ a, isDigitC c = true)
    (hs : (sfxPart = [] ∧ True) ∨ ∃ s ∈ ARTICLE_SUFFIXES, sfxPart = '-' :: s)
    (hcm : cm ≠ []) (hcmd : ∀ c ∈ cm, isDigitC c = true)
    (hy1 : 1000 ≤ y) (hy2 : y ≤ 9999) :
    parseCitation ('A' :: 'r' :: 't' :: '.' :: ' ' ::
        (a ++ sfxPart ++ ',' :: ' ' :: 'c' :: 'o' :: 'm' :: 'm' :: 'a' :: ' ' ::
          (cm ++ ',' :: ' ' ::
            ('L' :: 'e' :: 'g' :: 'g' :: 'e' :: ' ' :: 'n' :: '.' :: ' ' :: (renderNat n ++ '/' :: renderNat y))))) =
      { valid := true, type := DocType.legge,
        article := some a,
        suffix := match sfxPart with | [] => none | _ :: t => some t,
        comma := some cm, number := some n, year := some y,
        document_id := some (buildDocumentId DocType.legge n y) } := by
  have h4 : (renderNat y).length = 4 := renderNat_len4 y hy1 hy2
  have htrim : trimChars ('A' :: 'r' :: 't' :: '.' :: ' ' ::
        (a ++ sfxPart ++ ',' :: ' ' :: 'c' :: 'o' :: 'm' :: 'm' :: 'a' :: ' ' ::
          (cm ++ ',' :: ' ' ::
            ('L' :: 'e' :: 'g' :: 'g' :: 'e' :: ' ' :: 'n' :: '.' :: ' ' :: (renderNat n ++ '/' :: renderNat y))))) =
      'A' :: 'r' :: 't' :: '.' :: ' ' ::
        (a ++ sfxPart ++ ',' :: ' ' :: 'c' :: 'o' :: 'm' :: 'm' :: 'a' :: ' ' ::
          (cm ++ ',' :: ' ' ::
            ('L' :: 'e' :: 'g' :: 'g' :: 'e' :: ' ' :: 'n' :: '.' :: ' ' :: (renderNat n ++ '/' :: renderNat y)))) := by
    rw [show ('A' :: 'r' :: 't' :: '.' :: ' ' ::
        (a ++ sfxPart ++ ',' :: ' ' :: 'c' :: 'o' :: 'm' :: 'm' :: 'a' :: ' ' ::
          (cm ++ ',' :: ' ' ::
            ('L' :: 'e' :: 'g' :: 'g' :: 'e' :: ' ' :: 'n' :: '.' :: ' ' :: (renderNat n ++ '/' :: renderNat y)))))
        = 'A' :: (('r' :: 't' :: '.' :: ' ' ::
            (a ++ sfxPart ++ ',' :: ' ' :: 'c' :: 'o' :: 'm' :: 'm' :: 'a' :: ' ' ::
              (cm ++ ',' :: ' ' ::
                ('L' :: 'e' :: 'g' :: 'g' :: 'e' :: ' ' :: 'n' :: '.' :: ' ' :: (renderNat n ++ ['/'])))))
            ++ renderNat y) from by simp]
    exact trimChars_art _ y
  have hmc : matchComma ('A' :: 'r' :: 't' :: '.' :: ' ' ::
        (a ++ sfxPart ++ ',' :: ' ' :: 'c' :: 'o' :: 'm' :: 'm' :: 'a' :: ' ' ::
          (cm ++ ',' :: ' ' ::
            ('L' :: 'e' :: 'g' :: 'g' :: 'e' :: ' ' :: 'n' :: '.' :: ' ' :: (renderNat n ++ '/' :: renderNat y))))) =
      some ⟨a ++ sfxPart, cm, "Legge".data, renderNat n, renderNat y, []⟩ := by
    apply matchComma_fmt a sfxPart cm
      ('L' :: 'e' :: 'g' :: 'g' :: 'e' :: ' ' :: 'n' :: '.' :: ' ' :: (renderNat n ++ '/' :: renderNat y))
      _ ha had hs hcm hcmd rfl
    unfold shortTypeAlts
    apply tryAlts_skip
    · rfl
    apply tryAlts_skip
    · rfl
    apply tryAlts_skip
    · rfl
    apply tryAlts_skip
    · rfl
    apply tryAlts_skip
    · rfl
    apply tryAlts_cons_success
    rw [show eatToks [RTok.lit "legge".data]
        ('L' :: 'e' :: 'g' :: 'g' :: 'e' :: ' ' :: 'n' :: '.' :: ' ' :: (renderNat n ++ '/' :: renderNat y))
        = some ("Legge".data, ' ' :: 'n' :: '.' :: ' ' :: (renderNat n ++ '/' :: renderNat y)) from rfl]
    rw [Option.some_bind]
    simp only [shortTail_fmt2 n y h4, Option.map_some']
  simp only [parseCitation, htrim, hmc]
  unfold mkCommaCit
  rw [parseArticleRef_formatted a sfxPart ha had hs]
  simp only [parseNat_renderNat]
  rfl

/-- Parsing a `full_dlgs`-shaped formatted citation without a paragraph slot. -/
theorem rt_full_dlgs_nc (a sfxPart : List Char) (n y : Nat)
    (ha : a ≠ []) (had : ∀ c ∈ a, isDigitC c = true)
    (hs : (sfxPart = [] ∧ True) ∨ ∃ s ∈ ARTICLE_SUFFIXES, sfxPart = '-' :: s)
    (hy1 : 1000 ≤ y) (hy2 : y ≤ 9999) :
    parseCitation ('A' :: 'r' :: 't' :: '.' :: ' ' ::
        (a ++ sfxPart ++ ',' :: ' ' ::
          ('D' :: 'e' :: 'c' :: 'r' :: 'e' :: 't' :: 'o' :: ' ' :: 'l' :: 'e' :: 'g' :: 'i' :: 's' :: 'l' :: 'a' :: 't' :: 'i' :: 'v' :: 'o' :: ' ' :: 'n' :: '.' :: ' ' :: (renderNat n ++ '/' :: renderNat y)))) =
      { valid := true, type := DocType.dlgs,
        article := some a,
        suffix := match sfxPart with | [] => none | _ :: t => some t,
        comma := none, number := some n, year := some y,
        document_id := some (buildDocumentId DocType.dlgs n y) } := by
  have h4 : (renderNat y).length = 4 := renderNat_len4 y hy1 hy2
  have htrim : trimChars ('A' :: 'r' :: 't' :: '.' :: ' ' ::
        (a ++ sfxPart ++ ',' :: ' ' ::
          ('D' :: 'e' :: 'c' :: 'r' :: 'e' :: 't' :: 'o' :: ' ' :: 'l' :: 'e' :: 'g' :: 'i' :: 's' :: 'l' :: 'a' :: 't' :: 'i' :: 'v' :: 'o' :: ' ' :: 'n' :: '.' :: ' ' :: (renderNat n ++ '/' :: renderNat y)))) =
      'A' :: 'r' :: 't' :: '.' :: ' ' ::
        (a ++ sfxPart ++ ',' :: ' ' ::
          ('D' :: 'e' :: 'c' :: 'r' :: 'e' :: 't' :: 'o' :: ' ' :: 'l' :: 'e' :: 'g' :: 'i' :: 's' :: 'l' :: 'a' :: 't' :: 'i' :: 'v' :: 'o' :: ' ' :: 'n' :: '.' :: ' ' :: (renderNat n ++ '/' :: renderNat y))) := by
    rw [show ('A' :: 'r' :: 't' :: '.' :: ' ' ::
        (a ++ sfxPart ++ ',' :: ' ' ::
          ('D' :: 'e' :: 'c' :: 'r' :: 'e' :: 't' :: 'o' :: ' ' :: 'l' :: 'e' :: 'g' :: 'i' :: 's' :: 'l' :: 'a' :: 't' :: 'i' :: 'v' :: 'o' :: ' ' :: 'n' :: '.' :: ' ' :: (renderNat n ++ '/' :: renderNat y))))
        = 'A' :: (('r' :: 't' :: '.' :: ' ' ::
            (a ++ sfxPart ++ ',' :: ' ' ::
              ('D' :: 'e' :: 'c' :: 'r' :: 'e' :: 't' :: 'o' :: ' ' :: 'l' :: 'e' :: 'g' :: 'i' :: 's' :: 'l' :: 'a' :: 't' :: 'i' :: 'v' :: 'o' :: ' ' :: 'n' :: '.' :: ' ' :: (renderNat n ++ ['/']))))
            ++ renderNat y) from by simp]
    exact trimChars_art _ y
  have hmc : matchComma ('A' :: 'r' :: 't' :: '.' :: ' ' ::
        (a ++ sfxPart ++ ',' :: ' ' ::
          ('D' :: 'e' :: 'c' :: 'r' :: 'e' :: 't' :: 'o' :: ' ' :: 'l' :: 'e' :: 'g' :: 'i' :: 's' :: 'l' :: 'a' :: 't' :: 'i' :: 'v' :: 'o' :: ' ' :: 'n' :: '.' :: ' ' :: (renderNat n ++ '/' :: renderNat y)))) = none :=
    matchComma_fmt_none a sfxPart _ ha had hs rfl rfl
  have hmi : matchId ('A' :: 'r' :: 't' :: '.' :: ' ' ::
        (a ++ sfxPart ++ ',' :: ' ' ::
          ('D' :: 'e' :: 'c' :: 'r' :: 'e' :: 't' :: 'o' :: ' ' :: 'l' :: 'e' :: 'g' :: 'i' :: 's' :: 'l' :: 'a' :: 't' :: 'i' :: 'v' :: 'o' :: ' ' :: 'n' :: '.' :: ' ' :: (renderNat n ++ '/' :: renderNat y)))) = none := rfl
  have hcod : matchCodice ('A' :: 'r' :: 't' :: '.' :: ' ' ::
        (a ++ sfxPart ++ ',' :: ' ' ::
          ('D' :: 'e' :: 'c' :: 'r' :: 'e' :: 't' :: 'o' :: ' ' :: 'l' :: 'e' :: 'g' :: 'i' :: 's' :: 'l' :: 'a' :: 't' :: 'i' :: 'v' :: 'o' :: ' ' :: 'n' :: '.' :: ' ' :: (renderNat n ++ '/' :: renderNat y)))) = none :=
    matchCodice_fmt_none a sfxPart _ ha had hs rfl rfl rfl rfl rfl
  have hmf : matchFull ('A' :: 'r' :: 't' :: '.' :: ' ' ::
        (a ++ sfxPart ++ ',' :: ' ' ::
          ('D' :: 'e' :: 'c' :: 'r' :: 'e' :: 't' :: 'o' :: ' ' :: 'l' :: 'e' :: 'g' :: 'i' :: 's' :: 'l' :: 'a' :: 't' :: 'i' :: 'v' :: 'o' :: ' ' :: 'n' :: '.' :: ' ' :: (renderNat n ++ '/' :: renderNat y)))) = none :=
    matchFull_fmt_none a sfxPart _ ha had hs rfl rfl rfl rfl rfl
  have hms : matchShort ('A' :: 'r' :: 't' :: '.' :: ' ' ::
        (a ++ sfxPart ++ ',' :: ' ' ::
          ('D' :: 'e' :: 'c' :: 'r' :: 'e' :: 't' :: 'o' :: ' ' :: 'l' :: 'e' :: 'g' :: 'i' :: 's' :: 'l' :: 'a' :: 't' :: 'i' :: 'v' :: 'o' :: ' ' :: 'n' :: '.' :: ' ' :: (renderNat n ++ '/' :: renderNat y)))) =
      some ⟨a ++ sfxPart, none, "Decreto legislativo".data, renderNat n, renderNat y, []⟩ := by
    apply matchShort_fmt a sfxPart
      ('D' :: 'e' :: 'c' :: 'r' :: 'e' :: 't' :: 'o' :: ' ' :: 'l' :: 'e' :: 'g' :: 'i' :: 's' :: 'l' :: 'a' :: 't' :: 'i' :: 'v' :: 'o' :: ' ' :: 'n' :: '.' :: ' ' :: (renderNat n ++ '/' :: renderNat y))
      _ ha had hs rfl rfl rfl
    unfold shortTypeAlts
    apply tryAlts_skip
    · rfl
    apply tryAlts_skip
    · rfl
    apply tryAlts_skip
    · rfl
    apply tryAlts_skip
    · rfl
    apply tryAlts_skip
    · rfl
    apply tryAlts_skip
    · rfl
    apply tryAlts_cons_success
    rw [show eatToks [RTok.lit "decreto".data, RTok.wsPlus, RTok.lit "legislativo".data]
        ('D' :: 'e' :: 'c' :: 'r' :: 'e' :: 't' :: 'o' :: ' ' :: 'l' :: 'e' :: 'g' :: 'i' :: 's' :: 'l' :: 'a' :: 't' :: 'i' :: 'v' :: 'o' :: ' ' :: 'n' :: '.' :: ' ' :: (renderNat n ++ '/' :: renderNat y))
        = some ("Decreto legislativo".data, ' ' :: 'n' :: '.' :: ' ' :: (renderNat n ++ '/' :: renderNat y)) from rfl]
    rw [Option.some_bind]
    simp only [shortTail_fmt2 n y h4, Option.map_some']
  simp only [parseCitation, htrim, hmc, hmi, hcod, hmf, hms]
  unfold mkShortCit
  rw [parseArticleRef_formatted a sfxPart ha had hs]
  simp only [parseNat_renderNat]
  rfl

/-- Parsing a `full_dlgs`-shaped formatted citation with a paragraph slot. -/
theorem rt_full_dlgs_c (a sfxPart cm : List Char) (n y : Nat)
    (ha : a ≠ []) (had : ∀ c ∈ a, isDigitC c = true)
    (hs : (sfxPart = [] ∧ True) ∨ ∃ s ∈ ARTICLE_SUFFIXES, sfxPart = '-' :: s)
    (hcm : cm ≠ []) (hcmd : ∀ c ∈ cm, isDigitC c = true)
    (hy1 : 1000 ≤ y) (hy2 : y ≤ 9999) :
    parseCitation ('A' :: 'r' :: 't' :: '.' :: ' ' ::
        (a ++ sfxPart ++ ',' :: ' ' :: 'c' :: 'o' :: 'm' :: 'm' :: 'a' :: ' ' ::
          (cm ++ ',' :: ' ' ::
            ('D' :: 'e' :: 'c' :: 'r' :: 'e' :: 't' :: 'o' :: ' ' :: 'l' :: 'e' :: 'g' :: 'i' :: 's' :: 'l' :: 'a' :: 't' :: 'i' :: 'v' :: 'o' :: ' ' :: 'n' :: '.' :: ' ' :: (renderNat n ++ '/' :: renderNat y))))) =
      { valid := true, type := DocType.dlgs,
        article := some a,
        suffix := match sfxPart with | [] => none | _ :: t => some t,
        comma := some cm, number := some n, year := some y,
        document_id := some (buildDocumentId DocType.dlgs n y) } := by
  have h4 : (renderNat y).length = 4 := renderNat_len4 y hy1 hy2
  have htrim : trimChars ('A' :: 'r' :: 't' :: '.' :: ' ' ::
        (a ++ sfxPart ++ ',' :: ' ' :: 'c' :: 'o' :: 'm' :: 'm' :: 'a' :: ' ' ::
          (cm ++ ',' :: ' ' ::
            ('D' :: 'e' :: 'c' :: 'r' :: 'e' :: 't' :: 'o' :: ' ' :: 'l' :: 'e' :: 'g' :: 'i' :: 's' :: 'l' :: 'a' :: 't' :: 'i' :: 'v' :: 'o' :: ' ' :: 'n' :: '.' :: ' ' :: (renderNat n ++ '/' :: renderNat y))))) =
      'A' :: 'r' :: 't' :: '.' :: ' ' ::
        (a ++ sfxPart ++ ',' :: ' ' :: 'c' :: 'o' :: 'm' :: 'm' :: 'a' :: ' ' ::
          (cm ++ ',' :: ' ' ::
            ('D' :: 'e' :: 'c' :: 'r' :: 'e' :: 't' :: 'o' :: ' ' :: 'l' :: 'e' :: 'g' :: 'i' :: 's' :: 'l' :: 'a' :: 't' :: 'i' :: 'v' :: 'o' :: ' ' :: 'n' :: '.' :: ' ' :: (renderNat n ++ '/' :: renderNat y)))) := by
    rw [show ('A' :: 'r' :: 't' :: '.' :: ' ' ::
        (a ++ sfxPart ++ ',' :: ' ' :: 'c' :: 'o' :: 'm' :: 'm' :: 'a' :: ' ' ::
          (cm ++ ',' :: ' ' ::
            ('D' :: 'e' :: 'c' :: 'r' :: 'e' :: 't' :: 'o' :: ' ' :: 'l' :: 'e' :: 'g' :: 'i' :: 's' :: 'l' :: 'a' :: 't' :: 'i' :: 'v' :: 'o' :: ' ' :: 'n' :: '.' :: ' ' :: (renderNat n ++ '/' :: renderNat y)))))
        = 'A' :: (('r' :: 't' :: '.' :: ' ' ::
            (a ++ sfxPart ++ ',' :: ' ' :: 'c' :: 'o' :: 'm' :: 'm' :: 'a' :: ' ' ::
              (cm ++ ',' :: ' ' ::
                ('D' :: 'e' :: 'c' :: 'r' :: 'e' :: 't' :: 'o' :: ' ' :: 'l' :: 'e' :: 'g' :: 'i' :: 's' :: 'l' :: 'a' :: 't' :: 'i' :: 'v' :: 'o' :: ' ' :: 'n' :: '.' :: ' ' :: (renderNat n ++ ['/'])))))
            ++ renderNat y) from by simp]
    exact trimChars_art _ y
  have hmc : matchComma ('A' :: 'r' :: 't' :: '.' :: ' ' ::
        (a ++ sfxPart ++ ',' :: ' ' :: 'c' :: 'o' :: 'm' :: 'm' :: 'a' :: ' ' ::
          (cm ++ ',' :: ' ' ::
            ('D' :: 'e' :: 'c' :: 'r' :: 'e' :: 't' :: 'o' :: ' ' :: 'l' :: 'e' :: 'g' :: 'i' :: 's' :: 'l' :: 'a' :: 't' :: 'i' :: 'v' :: 'o' :: ' ' :: 'n' :: '.' :: ' ' :: (renderNat n ++ '/' :: renderNat y))))) =
      some ⟨a ++ sfxPart, cm, "Decreto legislativo".data, renderNat n, renderNat y, []⟩ := by
    apply matchComma_fmt a sfxPart cm
      ('D' :: 'e' :: 'c' :: 'r' :: 'e' :: 't' :: 'o' :: ' ' :: 'l' :: 'e' :: 'g' :: 'i' :: 's' :: 'l' :: 'a' :: 't' :: 'i' :: 'v' :: 'o' :: ' ' :: 'n' :: '.' :: ' ' :: (renderNat n ++ '/' :: renderNat y))
      _ ha had hs hcm hcmd rfl
    unfold shortTypeAlts
    apply tryAlts_skip
    · rfl
    apply tryAlts_skip
    · rfl
    apply tryAlts_skip
    · rfl
    apply tryAlts_skip
    · rfl
    apply tryAlts_skip
    · rfl
    apply tryAlts_skip
    · rfl
    apply tryAlts_cons_success
    rw [show eatToks [RTok.lit "decreto".data, RTok.wsPlus, RTok.lit "legislativo".data]
        ('D' :: 'e' :: 'c' :: 'r' :: 'e' :: 't' :: 'o' :: ' ' :: 'l' :: 'e' :: 'g' :: 'i' :: 's' :: 'l' :: 'a' :: 't' :: 'i' :: 'v' :: 'o' :: ' ' :: 'n' :: '.' :: ' ' :: (renderNat n ++ '/' :: renderNat y))
        = some ("Decreto legislativo".data, ' ' :: 'n' :: '.' :: ' ' :: (renderNat n ++ '/' :: renderNat y)) from rfl]
    rw [Option.some_bind]
    simp only [shortTail_fmt2 n y h4, Option.map_some']
  simp only [parseCitation, htrim, hmc]
  unfold mkCommaCit
  rw [parseArticleRef_formatted a sfxPart ha had hs]
  simp only [parseNat_renderNat]
  rfl

/-- Parsing a `full_dl`-shaped formatted citation without a paragraph slot. -/
theorem rt_full_dl_nc (a sfxPart : List Char) (n y : Nat)
    (ha : a ≠ []) (had : ∀ c ∈ a, isDigitC c = true)
    (hs : (sfxPart = [] ∧ True) ∨ ∃ s ∈ ARTICLE_SUFFIXES, sfxPart = '-' :: s)
    (hy1 : 1000 ≤ y) (hy2 : y ≤ 9999) :
    parseCitation ('A' :: 'r' :: 't' :: '.' :: ' ' ::
        (a ++ sfxPart ++ ',' :: ' ' ::
          ('D' :: 'e' :: 'c' :: 'r' :: 'e' :: 't' :: 'o' :: '-' :: 'l' :: 'e' :: 'g' :: 'g' :: 'e' :: ' ' :: 'n' :: '.' :: ' ' :: (renderNat n ++ '/' :: renderNat y)))) =
      { valid := true, type := DocType.dl,
        article := some a,
        suffix := match sfxPart with | [] => none | _ :: t => some t,
        comma := none, number := some n, year := some y,
        document_id := some (buildDocumentId DocType.dl n y) } := by
  have h4 : (renderNat y).length = 4 := renderNat_len4 y hy1 hy2
  have htrim : trimChars ('A' :: 'r' :: 't' :: '.' :: ' ' ::
        (a ++ sfxPart ++ ',' :: ' ' ::
          ('D' :: 'e' :: 'c' :: 'r' :: 'e' :: 't' :: 'o' :: '-' :: 'l' :: 'e' :: 'g' :: 'g' :: 'e' :: ' ' :: 'n' :: '.' :: ' ' :: (renderNat n ++ '/' :: renderNat y)))) =
      'A' :: 'r' :: 't' :: '.' :: ' ' ::
        (a ++ sfxPart ++ ',' :: ' ' ::
          ('D' :: 'e' :: 'c' :: 'r' :: 'e' :: 't' :: 'o' :: '-' :: 'l' :: 'e' :: 'g' :: 'g' :: 'e' :: ' ' :: 'n' :: '.' :: ' ' :: (renderNat n ++ '/' :: renderNat y))) := by
    rw [show ('A' :: 'r' :: 't' :: '.' :: ' ' ::
        (a ++ sfxPart ++ ',' :: ' ' ::
          ('D' :: 'e' :: 'c' :: 'r' :: 'e' :: 't' :: 'o' :: '-' :: 'l' :: 'e' :: 'g' :: 'g' :: 'e' :: ' ' :: 'n' :: '.' :: ' ' :: (renderNat n ++ '/' :: renderNat y))))
        = 'A' :: (('r' :: 't' :: '.' :: ' ' ::
            (a ++ sfxPart ++ ',' :: ' ' ::
              ('D' :: 'e' :: 'c' :: 'r' :: 'e' :: 't' :: 'o' :: '-' :: 'l' :: 'e' :: 'g' :: 'g' :: 'e' :: ' ' :: 'n' :: '.' :: ' ' :: (renderNat n ++ ['/']))))
            ++ renderNat y) from by simp]
    exact trimChars_art _ y
  have hmc : matchComma ('A' :: 'r' :: 't' :: '.' :: ' ' ::
        (a ++ sfxPart ++ ',' :: ' ' ::
          ('D' :: 'e' :: 'c' :: 'r' :: 'e' :: 't' :: 'o' :: '-' :: 'l' :: 'e' :: 'g' :: 'g' :: 'e' :: ' ' :: 'n' :: '.' :: ' ' :: (renderNat n ++ '/' :: renderNat y)))) = none :=
    matchComma_fmt_none a sfxPart _ ha had hs rfl rfl
  have hmi : matchId ('A' :: 'r' :: 't' :: '.' :: ' ' ::
        (a ++ sfxPart ++ ',' :: ' ' ::
          ('D' :: 'e' :: 'c' :: 'r' :: 'e' :: 't' :: 'o' :: '-' :: 'l' :: 'e' :: 'g' :: 'g' :: 'e' :: ' ' :: 'n' :: '.' :: ' ' :: (renderNat n ++ '/' :: renderNat y)))) = none := rfl
  have hcod : matchCodice ('A' :: 'r' :: 't' :: '.' :: ' ' ::
        (a ++ sfxPart ++ ',' :: ' ' ::
          ('D' :: 'e' :: 'c' :: 'r' :: 'e' :: 't' :: 'o' :: '-' :: 'l' :: 'e' :: 'g' :: 'g' :: 'e' :: ' ' :: 'n' :: '.' :: ' ' :: (renderNat n ++ '/' :: renderNat y)))) = none :=
    matchCodice_fmt_none a sfxPart _ ha had hs rfl rfl rfl rfl rfl
  have hmf : matchFull ('A' :: 'r' :: 't' :: '.' :: ' ' ::
        (a ++ sfxPart ++ ',' :: ' ' ::
          ('D' :: 'e' :: 'c' :: 'r' :: 'e' :: 't' :: 'o' :: '-' :: 'l' :: 'e' :: 'g' :: 'g' :: 'e' :: ' ' :: 'n' :: '.' :: ' ' :: (renderNat n ++ '/' :: renderNat y)))) = none :=
    matchFull_fmt_none a sfxPart _ ha had hs rfl rfl rfl rfl rfl
  have hms : matchShort ('A' :: 'r' :: 't' :: '.' :: ' ' ::
        (a ++ sfxPart ++ ',' :: ' ' ::
          ('D' :: 'e' :: 'c' :: 'r' :: 'e' :: 't' :: 'o' :: '-' :: 'l' :: 'e' :: 'g' :: 'g' :: 'e' :: ' ' :: 'n' :: '.' :: ' ' :: (renderNat n ++ '/' :: renderNat y)))) =
      some ⟨a ++ sfxPart, none, "Decreto-legge".data, renderNat n, renderNat y, []⟩ := by
    apply matchShort_fmt a sfxPart
      ('D' :: 'e' :: 'c' :: 'r' :: 'e' :: 't' :: 'o' :: '-' :: 'l' :: 'e' :: 'g' :: 'g' :: 'e' :: ' ' :: 'n' :: '.' :: ' ' :: (renderNat n ++ '/' :: renderNat y))
      _ ha had hs rfl rfl rfl
    unfold shortTypeAlts
    apply tryAlts_skip
    · rfl
    apply tryAlts_skip
    · rfl
    apply tryAlts_skip
    · rfl
    apply tryAlts_skip
    · rfl
    apply tryAlts_skip
    · rfl
    apply tryAlts_skip
    · rfl
    apply tryAlts_skip
    · rfl
    apply tryAlts_cons_success
    rw [show eatToks [RTok.lit "decreto-legge".data]
        ('D' :: 'e' :: 'c' :: 'r' :: 'e' :: 't' :: 'o' :: '-' :: 'l' :: 'e' :: 'g' :: 'g' :: 'e' :: ' ' :: 'n' :: '.' :: ' ' :: (renderNat n ++ '/' :: renderNat y))
        = some ("Decreto-legge".data, ' ' :: 'n' :: '.' :: ' ' :: (renderNat n ++ '/' :: renderNat y)) from rfl]
    rw [Option.some_bind]
    simp only [shortTail_fmt2 n y h4, Option.map_some']
  simp only [parseCitation, htrim, hmc, hmi, hcod, hmf, hms]
  unfold mkShortCit
  rw [parseArticleRef_formatted a sfxPart ha had hs]
  simp only [parseNat_renderNat]
  rfl

/-- Parsing a `full_dl`-shaped formatted citation with a paragraph slot. -/
theorem rt_full_dl_c (a sfxPart cm : List Char) (n y : Nat)
    (ha : a ≠ []) (had : ∀ c ∈ a, isDigitC c = true)
    (hs : (sfxPart = [] ∧ True) ∨ ∃ s ∈ ARTICLE_SUFFIXES, sfxPart = '-' :: s)
    (hcm : cm ≠ []) (hcmd : ∀ c ∈ cm, isDigitC c = true)
    (hy1 : 1000 ≤ y) (hy2 : y ≤ 9999) :
    parseCitation ('A' :: 'r' :: 't' :: '.' :: ' ' ::
        (a ++ sfxPart ++ ',' :: ' ' :: 'c' :: 'o' :: 'm' :: 'm' :: 'a' :: ' ' ::
          (cm ++ ',' :: ' ' ::
            ('D' :: 'e' :: 'c' :: 'r' :: 'e' :: 't' :: 'o' :: '-' :: 'l' :: 'e' :: 'g' :: 'g' :: 'e' :: ' ' :: 'n' :: '.' :: ' ' :: (renderNat n ++ '/' :: renderNat y))))) =
      { valid := true, type := DocType.dl,
        article := some a,
        suffix := match sfxPart with | [] => none | _ :: t => some t,
        comma := some cm, number := some n, year := some y,
        document_id := some (buildDocumentId DocType.dl n y) } := by
  have h4 : (renderNat y).length = 4 := renderNat_len4 y hy1 hy2
  have htrim : trimChars ('A' :: 'r' :: 't' :: '.' :: ' ' ::
        (a ++ sfxPart ++ ',' :: ' ' :: 'c' :: 'o' :: 'm' :: 'm' :: 'a' :: ' ' ::
          (cm ++ ',' :: ' ' ::
            ('D' :: 'e' :: 'c' :: 'r' :: 'e' :: 't' :: 'o' :: '-' :: 'l' :: 'e' :: 'g' :: 'g' :: 'e' :: ' ' :: 'n' :: '.' :: ' ' :: (renderNat n ++ '/' :: renderNat y))))) =
      'A' :: 'r' :: 't' :: '.' :: ' ' ::
        (a ++ sfxPart ++ ',' :: ' ' :: 'c' :: 'o' :: 'm' :: 'm' :: 'a' :: ' ' ::
          (cm ++ ',' :: ' ' ::
            ('D' :: 'e' :: 'c' :: 'r' :: 'e' :: 't' :: 'o' :: '-' :: 'l' :: 'e' :: 'g' :: 'g' :: 'e' :: ' ' :: 'n' :: '.' :: ' ' :: (renderNat n ++ '/' :: renderNat y)))) := by
    rw [show ('A' :: 'r' :: 't' :: '.' :: ' ' ::
        (a ++ sfxPart ++ ',' :: ' ' :: 'c' :: 'o' :: 'm' :: 'm' :: 'a' :: ' ' ::
          (cm ++ ',' :: ' ' ::
            ('D' :: 'e' :: 'c' :: 'r' :: 'e' :: 't' :: 'o' :: '-' :: 'l' :: 'e' :: 'g' :: 'g' :: 'e' :: ' ' :: 'n' :: '.' :: ' ' :: (renderNat n ++ '/' :: renderNat y)))))
        = 'A' :: (('r' :: 't' :: '.' :: ' ' ::
            (a ++ sfxPart ++ ',' :: ' ' :: 'c' :: 'o' :: 'm' :: 'm' :: 'a' :: ' ' ::
              (cm ++ ',' :: ' ' ::
                ('D' :: 'e' :: 'c' :: 'r' :: 'e' :: 't' :: 'o' :: '-' :: 'l' :: 'e' :: 'g' :: 'g' :: 'e' :: ' ' :: 'n' :: '.' :: ' ' :: (renderNat n ++ ['/'])))))
            ++ renderNat y) from by simp]
    exact trimChars_art _ y
  have hmc : matchComma ('A' :: 'r' :: 't' :: '.' :: ' ' ::
        (a ++ sfxPart ++ ',' :: ' ' :: 'c' :: 'o' :: 'm' :: 'm' :: 'a' :: ' ' ::
          (cm ++ ',' :: ' ' ::
            ('D' :: 'e' :: 'c' :: 'r' :: 'e' :: 't' :: 'o' :: '-' :: 'l' :: 'e' :: 'g' :: 'g' :: 'e' :: ' ' :: 'n' :: '.' :: ' ' :: (renderNat n ++ '/' :: renderNat y))))) =
      some ⟨a ++ sfxPart, cm, "Decreto-legge".data, renderNat n, renderNat y, []⟩ := by
    apply matchComma_fmt a sfxPart cm
      ('D' :: 'e' :: 'c' :: 'r' :: 'e' :: 't' :: 'o' :: '-' :: 'l' :: 'e' :: 'g' :: 'g' :: 'e' :: ' ' :: 'n' :: '.' :: ' ' :: (renderNat n ++ '/' :: renderNat y))
      _ ha had hs hcm hcmd rfl
    unfold shortTypeAlts
    apply tryAlts_skip
    · rfl
    apply tryAlts_skip
    · rfl
    apply tryAlts_skip
    · rfl
    apply tryAlts_skip
    · rfl
    apply tryAlts_skip
    · rfl
    apply tryAlts_skip
    · rfl
    apply tryAlts_skip
    · rfl
    apply tryAlts_cons_success
    rw [show eatToks [RTok.lit "decreto-legge".data]
        ('D' :: 'e' :: 'c' :: 'r' :: 'e' :: 't' :: 'o' :: '-' :: 'l' :: 'e' :: 'g' :: 'g' :: 'e' :: ' ' :: 'n' :: '.' :: ' ' :: (renderNat n ++ '/' :: renderNat y))
        = some ("Decreto-legge".data, ' ' :: 'n' :: '.' :: ' ' :: (renderNat n ++ '/' :: renderNat y)) from rfl]
    rw [Option.some_bind]
    simp only [shortTail_fmt2 n y h4, Option.map_some']
  simp only [parseCitation, htrim, hmc]
  unfold mkCommaCit
  rw [parseArticleRef_formatted a sfxPart ha had hs]
  simp only [parseNat_renderNat]
  rfl
/-- C2 (amended: the round-trip holds for the short style for all five
instrument types, and for the full style for the types dlgs, dl and legge
whose spelled-out names the short grammar also recognises; the full-style
renderings of dpr and rd match none of the parser grammars, see the
counterexample): for every valid parsed citation carrying a nonempty
digit-string article, an optional recognised ordinal suffix, an optional
nonempty digit-string paragraph number, an instrument type among dlgs, dl,
legge, dpr, rd, a positive number and a four-digit year, formatting it with
`formatCitation` and re-parsing with `parseCitation` returns exactly the
same structured citation: same type, article, suffix, paragraph, number,
year and derived document identifier. -/
theorem formatCitation_roundtrip
    (t : DocType) (a : List Char) (sfx cm : Option (List Char)) (n y : Nat)
    (fmt : CitationFormat)
    (ht : t = DocType.dlgs ∨ t = DocType.dl ∨ t = DocType.legge ∨
      t = DocType.dpr ∨ t = DocType.rd)
    (ha : a ≠ []) (had : ∀ c ∈ a, isDigitC c = true)
    (hsfx : ∀ s, sfx = some s → s ∈ ARTICLE_SUFFIXES)
    (hcm : ∀ d, cm = some d → d ≠ [] ∧ ∀ c ∈ d, isDigitC c = true)
    (hn : 1 ≤ n) (hy1 : 1000 ≤ y) (hy2 : y ≤ 9999)
    (hfmt : fmt = CitationFormat.short ∨ (fmt = CitationFormat.full ∧
      (t = DocType.dlgs ∨ t = DocType.dl ∨ t = DocType.legge))) :
    parseCitation (formatCitation
      { valid := true, type := t, article := some a, suffix := sfx, comma := cm,
        number := some n, year := some y,
        document_id := some (buildDocumentId t n y) } fmt) =
      { valid := true, type := t, article := some a, suffix := sfx, comma := cm,
        number := some n, year := some y,
        document_id := some (buildDocumentId t n y) } := by
  cases a with
  | nil => exact absurd rfl ha
  | cons a0 as =>
  cases n with
  | zero => omega
  | succ n' =>
  cases y with
  | zero => omega
  | succ y' =>
  rcases hfmt with rfl | ⟨rfl, ht3⟩
  · rcases ht with rfl | rfl | rfl | rfl | rfl
    · rcases sfx with _ | s
      · rcases cm with _ | d
        · show parseCitation (trimChars ("Art. ".data ++ ((a0 :: as) ++ []) ++ [] ++ ", ".data
              ++ "D.Lgs.".data ++ " ".data ++ renderNat (n' + 1) ++ '/' :: renderNat (y' + 1))) = _
          rw [reassocS0, parseCitation_trimChars]
          exact rt_short_dlgs_nc (a0 :: as) ([]) (n' + 1) (y' + 1) (List.cons_ne_nil a0 as) had
            (Or.inl ⟨rfl, trivial⟩) hy1 hy2
        · obtain ⟨hd, hdd⟩ := hcm d rfl
          cases d with
          | nil => exact absurd rfl hd
          | cons d0 ds =>
          show parseCitation (trimChars ("Art. ".data ++ ((a0 :: as) ++ [])
              ++ (", comma ".data ++ (d0 :: ds)) ++ ", ".data
              ++ "D.Lgs.".data ++ " ".data ++ renderNat (n' + 1) ++ '/' :: renderNat (y' + 1))) = _
          rw [reassocS1, parseCitation_trimChars]
          exact rt_short_dlgs_c (a0 :: as) ([]) (d0 :: ds) (n' + 1) (y' + 1)
            (List.cons_ne_nil a0 as) had (Or.inl ⟨rfl, trivial⟩)
            (List.cons_ne_nil d0 ds) hdd hy1 hy2
      · rcases cm with _ | d
        · show parseCitation (trimChars ("Art. ".data ++ ((a0 :: as) ++ '-' :: s) ++ [] ++ ", ".data
              ++ "D.Lgs.".data ++ " ".data ++ renderNat (n' + 1) ++ '/' :: renderNat (y' + 1))) = _
          rw [reassocS0, parseCitation_trimChars]
          exact rt_short_dlgs_nc (a0 :: as) ('-' :: s) (n' + 1) (y' + 1) (List.cons_ne_nil a0 as) had
            (Or.inr ⟨s, hsfx s rfl, rfl⟩) hy1 hy2
        · obtain ⟨hd, hdd⟩ := hcm d rfl
          cases d with
          | nil => exact absurd rfl hd
          | cons d0 ds =>
          show parseCitation (trimChars ("Art. ".data ++ ((a0 :: as) ++ '-' :: s)
              ++ (", comma ".data ++ (d0 :: ds)) ++ ", ".data
              ++ "D.Lgs.".data ++ " ".data ++ renderNat (n' + 1) ++ '/' :: renderNat (y' + 1))) = _
          rw [reassocS1, parseCitation_trimChars]
          exact rt_short_dlgs_c (a0 :: as) ('-' :: s) (d0 :: ds) (n' + 1) (y' + 1)
            (List.cons_ne_nil a0 as) had (Or.inr ⟨s, hsfx s rfl, rfl⟩)
            (List.cons_ne_nil d0 ds) hdd hy1 hy2
    · rcases sfx with _ | s
      · rcases cm with _ | d
        · show parseCitation (trimChars ("Art. ".data ++ ((a0 :: as) ++ []) ++ [] ++ ", ".data
              ++ "D.L.".data ++ " ".data ++ renderNat (n' + 1) ++ '/' :: renderNat (y' + 1))) = _
          rw [reassocS0, parseCitation_trimChars]
          exact rt_short_dl_nc (a0 :: as) ([]) (n' + 1) (y' + 1) (List.cons_ne_nil a0 as) had
            (Or.inl ⟨rfl, trivial⟩) hy1 hy2
        · obtain ⟨hd, hdd⟩ := hcm d rfl
          cases d with
          | nil => exact absurd rfl hd
          | cons d0 ds =>
          show parseCitation (trimChars ("Art. ".data ++ ((a0 :: as) ++ [])
              ++ (", comma ".data ++ (d0 :: ds)) ++ ", ".data
              ++ "D.L.".data ++ " ".data ++ renderNat (n' + 1) ++ '/' :: renderNat (y' + 1))) = _
          rw [reassocS1, parseCitation_trimChars]
          exact rt_short_dl_c (a0 :: as) ([]) (d0 :: ds) (n' + 1) (y' + 1)
            (List.cons_ne_nil a0 as) had (Or.inl ⟨rfl, trivial⟩)
            (List.cons_ne_nil d0 ds) hdd hy1 hy2
      · rcases cm with _ | d
        · show parseCitation (trimChars ("Art. ".data ++ ((a0 :: as) ++ '-' :: s) ++ [] ++ ", ".data
              ++ "D.L.".data ++ " ".data ++ renderNat (n' + 1) ++ '/' :: renderNat (y' + 1))) = _
          rw [reassocS0, parseCitation_trimChars]
          exact rt_short_dl_nc (a0 :: as) ('-' :: s) (n' + 1) (y' + 1) (List.cons_ne_nil a0 as) had
            (Or.inr ⟨s, hsfx s rfl, rfl⟩) hy1 hy2
        · obtain ⟨hd, hdd⟩ := hcm d rfl
          cases d with
          | nil => exact absurd rfl hd
          | cons d0 ds =>
          show parseCitation (trimChars ("Art. ".data ++ ((a0 :: as) ++ '-' :: s)
              ++ (", comma ".data ++ (d0 :: ds)) ++ ", ".data
              ++ "D.L.".data ++ " ".data ++ renderNat (n' + 1) ++ '/' :: renderNat (y' + 1))) = _
          rw [reassocS1, parseCitation_trimChars]
          exact rt_short_dl_c (a0 :: as) ('-' :: s) (d0 :: ds) (n' + 1) (y' + 1)
            (List.cons_ne_nil a0 as) had (Or.inr ⟨s, hsfx s rfl, rfl⟩)
            (List.cons_ne_nil d0 ds) hdd hy1 hy2
    · rcases sfx with _ | s
      · rcases cm with _ | d
        · show parseCitation (trimChars ("Art. ".data ++ ((a0 :: as) ++ []) ++ [] ++ ", ".data
              ++ "L.".data ++ " ".data ++ renderNat (n' + 1) ++ '/' :: renderNat (y' + 1))) = _
          rw [reassocS0, parseCitation_trimChars]
          exact rt_short_legge_nc (a0 :: as) ([]) (n' + 1) (y' + 1) (List.cons_ne_nil a0 as) had
            (Or.inl ⟨rfl, trivial⟩) hy1 hy2
        · obtain ⟨hd, hdd⟩ := hcm d rfl
          cases d with
          | nil => exact absurd rfl hd
          | cons d0 ds =>
          show parseCitation (trimChars ("Art. ".data ++ ((a0 :: as) ++ [])
              ++ (", comma ".data ++ (d0 :: ds)) ++ ", ".data
              ++ "L.".data ++ " ".data ++ renderNat (n' + 1) ++ '/' :: renderNat (y' + 1))) = _
          rw [reassocS1, parseCitation_trimChars]
          exact rt_short_legge_c (a0 :: as) ([]) (d0 :: ds) (n' + 1) (y' + 1)
            (List.cons_ne_nil a0 as) had (Or.inl ⟨rfl, trivial⟩)
            (List.cons_ne_nil d0 ds) hdd hy1 hy2
      · rcases cm with _ | d
        · show parseCitation (trimChars ("Art. ".data ++ ((a0 :: as) ++ '-' :: s) ++ [] ++ ", ".data
              ++ "L.".data ++ " ".data ++ renderNat (n' + 1) ++ '/' :: renderNat (y' + 1))) = _
          rw [reassocS0, parseCitation_trimChars]
          exact rt_short_legge_nc (a0 :: as) ('-' :: s) (n' + 1) (y' + 1) (List.cons_ne_nil a0 as) had
            (Or.inr ⟨s, hsfx s rfl, rfl⟩) hy1 hy2
        · obtain ⟨hd, hdd⟩ := hcm d rfl
          cases d with
          | nil => exact absurd rfl hd
          | cons d0 ds =>
          show parseCitation (trimChars ("Art. ".data ++ ((a0 :: as) ++ '-' :: s)
              ++ (", comma ".data ++ (d0 :: ds)) ++ ", ".data
              ++ "L.".data ++ " ".data ++ renderNat (n' + 1) ++ '/' :: renderNat (y' + 1))) = _
          rw [reassocS1, parseCitation_trimChars]
          exact rt_short_legge_c (a0 :: as) ('-' :: s) (d0 :: ds) (n' + 1) (y' + 1)
            (List.cons_ne_nil a0 as) had (Or.inr ⟨s, hsfx s rfl, rfl⟩)
            (List.cons_ne_nil d0 ds) hdd hy1 hy2
    · rcases sfx with _ | s
      · rcases cm with _ | d
        · show parseCitation (trimChars ("Art. ".data ++ ((a0 :: as) ++ []) ++ [] ++ ", ".data
              ++ "D.P.R.".data ++ " ".data ++ renderNat (n' + 1) ++ '/' :: renderNat (y' + 1))) = _
          rw [reassocS0, parseCitation_trimChars]
          exact rt_short_dpr_nc (a0 :: as) ([]) (n' + 1) (y' + 1) (List.cons_ne_nil a0 as) had
            (Or.inl ⟨rfl, trivial⟩) hy1 hy2
        · obtain ⟨hd, hdd⟩ := hcm d rfl
          cases d with
          | nil => exact absurd rfl hd
          | cons d0 ds =>
          show parseCitation (trimChars ("Art. ".data ++ ((a0 :: as) ++ [])
              ++ (", comma ".data ++ (d0 :: ds)) ++ ", ".data
              ++ "D.P.R.".data ++ " ".data ++ renderNat (n' + 1) ++ '/' :: renderNat (y' + 1))) = _
          rw [reassocS1, parseCitation_trimChars]
          exact rt_short_dpr_c (a0 :: as) ([]) (d0 :: ds) (n' + 1) (y' + 1)
            (List.cons_ne_nil a0 as) had (Or.inl ⟨rfl, trivial⟩)
            (List.cons_ne_nil d0 ds) hdd hy1 hy2
      · rcases cm with _ | d
        · show parseCitation (trimChars ("Art. ".data ++ ((a0 :: as) ++ '-' :: s) ++ [] ++ ", ".data
              ++ "D.P.R.".data ++ " ".data ++ renderNat (n' + 1) ++ '/' :: renderNat (y' + 1))) = _
          rw [reassocS0, parseCitation_trimChars]
          exact rt_short_dpr_nc (a0 :: as) ('-' :: s) (n' + 1) (y' + 1) (List.cons_ne_nil a0 as) had
            (Or.inr ⟨s, hsfx s rfl, rfl⟩) hy1 hy2
        · obtain ⟨hd, hdd⟩ := hcm d rfl
          cases d with
          | nil => exact absurd rfl hd
          | cons d0 ds =>
          show parseCitation (trimChars ("Art. ".data ++ ((a0 :: as) ++ '-' :: s)
              ++ (", comma ".data ++ (d0 :: ds)) ++ ", ".data
              ++ "D.P.R.".data ++ " ".data ++ renderNat (n' + 1) ++ '/' :: renderNat (y' + 1))) = _
          rw [reassocS1, parseCitation_trimChars]
          exact rt_short_dpr_c (a0 :: as) ('-' :: s) (d0 :: ds) (n' + 1) (y' + 1)
            (List.cons_ne_nil a0 as) had (Or.inr ⟨s, hsfx s rfl, rfl⟩)
            (List.cons_ne_nil d0 ds) hdd hy1 hy2
    · rcases sfx with _ | s
      · rcases cm with _ | d
        · show parseCitation (trimChars ("Art. ".data ++ ((a0 :: as) ++ []) ++ [] ++ ", ".data
              ++ "R.D.".data ++ " ".data ++ renderNat (n' + 1) ++ '/' :: renderNat (y' + 1))) = _
          rw [reassocS0, parseCitation_trimChars]
          exact rt_short_rd_nc (a0 :: as) ([]) (n' + 1) (y' + 1) (List.cons_ne_nil a0 as) had
            (Or.inl ⟨rfl, trivial⟩) hy1 hy2
        · obtain ⟨hd, hdd⟩ := hcm d rfl
          cases d with
          | nil => exact absurd rfl hd
          | cons d0 ds =>
          show parseCitation (trimChars ("Art. ".data ++ ((a0 :: as) ++ [])
              ++ (", comma ".data ++ (d0 :: ds)) ++ ", ".data
              ++ "R.D.".data ++ " ".data ++ renderNat (n' + 1) ++ '/' :: renderNat (y' + 1))) = _
          rw [reassocS1, parseCitation_trimChars]
          exact rt_short_rd_c (a0 :: as) ([]) (d0 :: ds) (n' + 1) (y' + 1)
            (List.cons_ne_nil a0 as) had (Or.inl ⟨rfl, trivial⟩)
            (List.cons_ne_nil d0 ds) hdd hy1 hy2
      · rcases cm with _ | d
        · show parseCitation (trimChars ("Art. ".data ++ ((a0 :: as) ++ '-' :: s) ++ [] ++ ", ".data
              ++ "R.D.".data ++ " ".data ++ renderNat (n' + 1) ++ '/' :: renderNat (y' + 1))) = _
          rw [reassocS0, parseCitation_trimChars]
          exact rt_short_rd_nc (a0 :: as) ('-' :: s) (n' + 1) (y' + 1) (List.cons_ne_nil a0 as) had
            (Or.inr ⟨s, hsfx s rfl, rfl⟩) hy1 hy2
        · obtain ⟨hd, hdd⟩ := hcm d rfl
          cases d with
          | nil => exact absurd rfl hd
          | cons d0 ds =>
          show parseCitation (trimChars ("Art. ".data ++ ((a0 :: as) ++ '-' :: s)
              ++ (", comma ".data ++ (d0 :: ds)) ++ ", ".data
              ++ "R.D.".data ++ " ".data ++ renderNat (n' + 1) ++ '/' :: renderNat (y' + 1))) = _
          rw [reassocS1, parseCitation_trimChars]
          exact rt_short_rd_c (a0 :: as) ('-' :: s) (d0 :: ds) (n' + 1) (y' + 1)
            (List.cons_ne_nil a0 as) had (Or.inr ⟨s, hsfx s rfl, rfl⟩)
            (List.cons_ne_nil d0 ds) hdd hy1 hy2
  · rcases ht3 with rfl | rfl | rfl
    · rcases sfx with _ | s
      · rcases cm with _ | d
        · show parseCitation (trimChars ("Art. ".data ++ ((a0 :: as) ++ []) ++ [] ++ ", ".data
              ++ "Decreto legislativo".data ++ " n. ".data ++ renderNat (n' + 1) ++ '/' :: renderNat (y' + 1))) = _
          rw [reassocF0, parseCitation_trimChars]
          exact rt_full_dlgs_nc (a0 :: as) ([]) (n' + 1) (y' + 1) (List.cons_ne_nil a0 as) had
            (Or.inl ⟨rfl, trivial⟩) hy1 hy2
        · obtain ⟨hd, hdd⟩ := hcm d rfl
          cases d with
          | nil => exact absurd rfl hd
          | cons d0 ds =>
          show parseCitation (trimChars ("Art. ".data ++ ((a0 :: as) ++ [])
              ++ (", comma ".data ++ (d0 :: ds)) ++ ", ".data
              ++ "Decreto legislativo".data ++ " n. ".data ++ renderNat (n' + 1) ++ '/' :: renderNat (y' + 1))) = _
          rw [reassocF1, parseCitation_trimChars]
          exact rt_full_dlgs_c (a0 :: as) ([]) (d0 :: ds) (n' + 1) (y' + 1)
            (List.cons_ne_nil a0 as) had (Or.inl ⟨rfl, trivial⟩)
            (List.cons_ne_nil d0 ds) hdd hy1 hy2
      · rcases cm with _ | d
        · show parseCitation (trimChars ("Art. ".data ++ ((a0 :: as) ++ '-' :: s) ++ [] ++ ", ".data
              ++ "Decreto legislativo".data ++ " n. ".data ++ renderNat (n' + 1) ++ '/' :: renderNat (y' + 1))) = _
          rw [reassocF0, parseCitation_trimChars]
          exact rt_full_dlgs_nc (a0 :: as) ('-' :: s) (n' + 1) (y' + 1) (List.cons_ne_nil a0 as) had
            (Or.inr ⟨s, hsfx s rfl, rfl⟩) hy1 hy2
        · obtain ⟨hd, hdd⟩ := hcm d rfl
          cases d with
          | nil => exact absurd rfl hd
          | cons d0 ds =>
          show parseCitation (trimChars ("Art. ".data ++ ((a0 :: as) ++ '-' :: s)
              ++ (", comma ".data ++ (d0 :: ds)) ++ ", ".data
              ++ "Decreto legislativo".data ++ " n. ".data ++ renderNat (n' + 1) ++ '/' :: renderNat (y' + 1))) = _
          rw [reassocF1, parseCitation_trimChars]
          exact rt_full_dlgs_c (a0 :: as) ('-' :: s) (d0 :: ds) (n' + 1) (y' + 1)
            (List.cons_ne_nil a0 as) had (Or.inr ⟨s, hsfx s rfl, rfl⟩)
            (List.cons_ne_nil d0 ds) hdd hy1 hy2
    · rcases sfx with _ | s
      · rcases cm with _ | d
        · show parseCitation (trimChars ("Art. ".data ++ ((a0 :: as) ++ []) ++ [] ++ ", ".data
              ++ "Decreto-legge".data ++ " n. ".data ++ renderNat (n' + 1) ++ '/' :: renderNat (y' + 1))) = _
          rw [reassocF0, parseCitation_trimChars]
          exact rt_full_dl_nc (a0 :: as) ([]) (n' + 1) (y' + 1) (List.cons_ne_nil a0 as) had
            (Or.inl ⟨rfl, trivial⟩) hy1 hy2
        · obtain ⟨hd, hdd⟩ := hcm d rfl
          cases d with
          | nil => exact absurd rfl hd
          | cons d0 ds =>
          show parseCitation (trimChars ("Art. ".data ++ ((a0 :: as) ++ [])
              ++ (", comma ".data ++ (d0 :: ds)) ++ ", ".data
              ++ "Decreto-legge".data ++ " n. ".data ++ renderNat (n' + 1) ++ '/' :: renderNat (y' + 1))) = _
          rw [reassocF1, parseCitation_trimChars]
          exact rt_full_dl_c (a0 :: as) ([]) (d0 :: ds) (n' + 1) (y' + 1)
            (List.cons_ne_nil a0 as) had (Or.inl ⟨rfl, trivial⟩)
            (List.cons_ne_nil d0 ds) hdd hy1 hy2
      · rcases cm with _ | d
        · show parseCitation (trimChars ("Art. ".data ++ ((a0 :: as) ++ '-' :: s) ++ [] ++ ", ".data
              ++ "Decreto-legge".data ++ " n. ".data ++ renderNat (n' + 1) ++ '/' :: renderNat (y' + 1))) = _
          rw [reassocF0, parseCitation_trimChars]
          exact rt_full_dl_nc (a0 :: as) ('-' :: s) (n' + 1) (y' + 1) (List.cons_ne_nil a0 as) had
            (Or.inr ⟨s, hsfx s rfl, rfl⟩) hy1 hy2
        · obtain ⟨hd, hdd⟩ := hcm d rfl
          cases d with
          | nil => exact absurd rfl hd
          | cons d0 ds =>
          show parseCitation (trimChars ("Art. ".data ++ ((a0 :: as) ++ '-' :: s)
              ++ (", comma ".data ++ (d0 :: ds)) ++ ", ".data
              ++ "Decreto-legge".data ++ " n. ".data ++ renderNat (n' + 1) ++ '/' :: renderNat (y' + 1))) = _
          rw [reassocF1, parseCitation_trimChars]
          exact rt_full_dl_c (a0 :: as) ('-' :: s) (d0 :: ds) (n' + 1) (y' + 1)
            (List.cons_ne_nil a0 as) had (Or.inr ⟨s, hsfx s rfl, rfl⟩)
            (List.cons_ne_nil d0 ds) hdd hy1 hy2
    · rcases sfx with _ | s
      · rcases cm with _ | d
        · show parseCitation (trimChars ("Art. ".data ++ ((a0 :: as) ++ []) ++ [] ++ ", ".data
              ++ "Legge".data ++ " n. ".data ++ renderNat (n' + 1) ++ '/' :: renderNat (y' + 1))) = _
          rw [reassocF0, parseCitation_trimChars]
          exact rt_full_legge_nc (a0 :: as) ([]) (n' + 1) (y' + 1) (List.cons_ne_nil a0 as) had
            (Or.inl ⟨rfl, trivial⟩) hy1 hy2
        · obtain ⟨hd, hdd⟩ := hcm d rfl
          cases d with
          | nil => exact absurd rfl hd
          | cons d0 ds =>
          show parseCitation (trimChars ("Art. ".data ++ ((a0 :: as) ++ [])
              ++ (", comma ".data ++ (d0 :: ds)) ++ ", ".data
              ++ "Legge".data ++ " n. ".data ++ renderNat (n' + 1) ++ '/' :: renderNat (y' + 1))) = _
          rw [reassocF1, parseCitation_trimChars]
          exact rt_full_legge_c (a0 :: as) ([]) (d0 :: ds) (n' + 1) (y' + 1)
            (List.cons_ne_nil a0 as) had (Or.inl ⟨rfl, trivial⟩)
            (List.cons_ne_nil d0 ds) hdd hy1 hy2
      · rcases cm with _ | d
        · show parseCitation (trimChars ("Art. ".data ++ ((a0 :: as) ++ '-' :: s) ++ [] ++ ", ".data
              ++ "Legge".data ++ " n. ".data ++ renderNat (n' + 1) ++ '/' :: renderNat (y' + 1))) = _
          rw [reassocF0, parseCitation_trimChars]
          exact rt_full_legge_nc (a0 :: as) ('-' :: s) (n' + 1) (y' + 1) (List.cons_ne_nil a0 as) had
            (Or.inr ⟨s, hsfx s rfl, rfl⟩) hy1 hy2
        · obtain ⟨hd, hdd⟩ := hcm d rfl
          cases d with
          | nil => exact absurd rfl hd
          | cons d0 ds =>
          show parseCitation (trimChars ("Art. ".data ++ ((a0 :: as) ++ '-' :: s)
              ++ (", comma ".data ++ (d0 :: ds)) ++ ", ".data
              ++ "Legge".data ++ " n. ".data ++ renderNat (n' + 1) ++ '/' :: renderNat (y' + 1))) = _
          rw [reassocF1, parseCitation_trimChars]
          exact rt_full_legge_c (a0 :: as) ('-' :: s) (d0 :: ds) (n' + 1) (y' + 1)
            (List.cons_ne_nil a0 as) had (Or.inr ⟨s, hsfx s rfl, rfl⟩)
            (List.cons_ne_nil d0 ds) hdd hy1 hy2

/-- Witness for C2: a concrete short-style round-trip through
`formatCitation` and `parseCitation` with suffix and paragraph present. -/
theorem formatCitation_roundtrip_witness :
    parseCitation (formatCitation
      { valid := true, type := DocType.dlgs, article := some ['1', '2'],
        suffix := some "bis".data, comma := some ['3'],
        number := some 196, year := some 2003,
        document_id := some (buildDocumentId DocType.dlgs 196 2003) }
      CitationFormat.short) =
      { valid := true, type := DocType.dlgs, article := some ['1', '2'],
        suffix := some "bis".data, comma := some ['3'],
        number := some 196, year := some 2003,
        document_id := some (buildDocumentId DocType.dlgs 196 2003) } :=
  formatCitation_roundtrip DocType.dlgs ['1', '2'] (some "bis".data) (some ['3'])
    196 2003 CitationFormat.short (Or.inl rfl) (by decide) (by decide)
    (fun s hs => by cases hs; decide)
    (fun d hd => by cases hd; exact ⟨by decide, by decide⟩)
    (by decide) (by decide) (by decide) (Or.inl rfl)

set_option maxRecDepth 40000 in
/-- Counterexample to the unrestricted C2 claim: a valid dpr citation
formatted in the full style renders as
`Art. 1, Decreto del Presidente della Repubblica n. 445/2000`, which no
parser grammar matches (the full grammar demands a spelled-out date and the
short grammar does not know the spelled-out dpr name), so re-parsing yields
an invalid citation instead of an equivalent structured form. -/
theorem formatCitation_full_dpr_counterexample :
    parseCitation (formatCitation
      { valid := true, type := DocType.dpr, article := some ['1'],
        number := some 445, year := some 2000,
        document_id := some (buildDocumentId DocType.dpr 445 2000) }
      CitationFormat.full) =
      invalidCitation "Art. 1, Decreto del Presidente della Repubblica n. 445/2000".data := by
  decide


/- The citation validator stack (src/utils/statute-id.ts and
src/citation/validator.ts).  The SQLite database is modelled as in-memory
row lists; `prepare(...).get(...)` is first-match lookup in row order.
SQLite `LIKE '%x%'` is modelled as case-insensitive (ASCII) substring
containment, `LOWER(...)` comparison against a NULL `short_name` is false,
and `ORDER BY LENGTH(title) ASC LIMIT 1` returns the first row of minimal
title length. -/

/-- `TYPE_ABBREVIATIONS` from src/utils/statute-id.ts. -/
def TYPE_ABBREVIATIONS : List (List Char × List Char) :=
  [("d.lgs.".data, "dlgs".data), ("d.lgs".data, "dlgs".data), ("dlgs".data, "dlgs".data),
   ("decreto legislativo".data, "dlgs".data), ("d.l.".data, "dl".data), ("d.l".data, "dl".data),
   ("dl".data, "dl".data), ("decreto-legge".data, "dl".data), ("decreto legge".data, "dl".data),
   ("l.".data, "legge".data), ("legge".data, "legge".data), ("d.p.r.".data, "dpr".data),
   ("dpr".data, "dpr".data), ("r.d.".data, "rd".data), ("rd".data, "rd".data),
   ("regio decreto".data, "rd".data)]

def lookupAbbr : List (List Char × List Char) → List Char → Option (List Char)
  | [], _ => none
  | (k, v) :: t, s => if k = s then some v else lookupAbbr t s

/-- Case-sensitive literal match, returning the rest. -/
def eatLit : List Char → List Char → Option (List Char)
  | [], s => some s
  | _ :: _, [] => none
  | c :: t, x :: xs => if x = c then eatLit t xs else none

/-- `/^(legge|dlgs|dl|dpr|rd)-\d+-\d{4}$/.test(trimmed)` (case-sensitive,
fully anchored; the greedy digit run cannot mask a match). -/
def canonicalTest (s : List Char) : Bool :=
  ["legge".data, "dlgs".data, "dl".data, "dpr".data, "rd".data].any fun tk =>
    match eatLit tk s with
    | none => false
    | some r1 =>
      match eatChar '-' r1 with
      | none => false
      | some r2 =>
        match digits1 r2 with
        | none => false
        | some dr =>
          match eatChar '-' dr.2 with
          | none => false
          | some r4 =>
            match exactly4Digits r4 with
            | some (_, []) => true
            | _ => false

/-- The type alternation of the `shortMatch` regex in
`normalizeDocumentIdentifier`: the parser's short alternation plus the
extra `Decreto\s+legge` branch. -/
def nrmShortAlts : List (List RTok) :=
  [[.lit "d.lgs".data, .dotOpt], [.lit "d.l".data, .dotOpt], [.lit "l".data, .dotOpt],
   [.lit "d.p.r".data, .dotOpt], [.lit "r.d".data, .dotOpt], [.lit "legge".data],
   [.lit "decreto".data, .wsPlus, .lit "legislativo".data], [.lit "decreto-legge".data],
   [.lit "decreto".data, .wsPlus, .lit "legge".data]]

/-- `shortMatch` of `normalizeDocumentIdentifier`:
`^(TYPE)\s+(?:n\.?\s*)?(\d+)\s*\/\s*(\d{4})/i` — the captured raw type,
number and year. -/
def shortMatchNorm (s : List Char) : Option (List Char × List Char × List Char) :=
  tryAlts nrmShortAlts s fun traw s2 =>
    (shortTail s2).map fun nyr => (traw, nyr.1, nyr.2.1)

/-- `parenMatch` of `normalizeDocumentIdentifier`: same shape followed by
`\s*\(`, with the parser's 8-branch type alternation. -/
def parenMatchNorm (s : List Char) : Option (List Char × List Char × List Char) :=
  tryAlts shortTypeAlts s fun traw s2 =>
    (shortTail s2).bind fun nyr =>
      match eatChar '(' (wsStar nyr.2.2) with
      | some _ => some (traw, nyr.1, nyr.2.1)
      | none => none

/-- `TYPE_ABBREVIATIONS[typeRaw] ?? typeRaw.replace(/[.\s]/g, '')` applied
to `match[1].toLowerCase().replace(/\s+/g, ' ').trim()`. -/
def normTypeOf (traw : List Char) : List Char :=
  let typeRaw := trimChars (collapseWs (traw.map lowerC))
  (lookupAbbr TYPE_ABBREVIATIONS typeRaw).getD
    (typeRaw.filter fun c => !(c == '.' || isWsC c))

/-- `normalizeDocumentIdentifier` from src/utils/statute-id.ts. -/
def normalizeDocumentIdentifier (input : List Char) : Option (List Char) :=
  let trimmed := trimChars input
  if canonicalTest trimmed then some trimmed
  else
    match shortMatchNorm trimmed with
    | some r => some (normTypeOf r.1 ++ '-' :: r.2.1 ++ '-' :: r.2.2)
    | none =>
      match parenMatchNorm trimmed with
      | some r => some (normTypeOf r.1 ++ '-' :: r.2.1 ++ '-' :: r.2.2)
      | none => none

/-- A row of the `legal_documents` table. -/
structure DocRow where
  id : List Char
  title : List Char
  short_name : Option (List Char)
  status : List Char
deriving DecidableEq, Repr

/-- A row of the `legal_provisions` table (`sectionRef` is the TS column
`section`). -/
structure ProvRow where
  document_id : List Char
  provision_ref : List Char
  sectionRef : Option (List Char)
deriving DecidableEq, Repr

/-- The database state seen by the validator. -/
structure DB where
  legal_documents : List DocRow
  legal_provisions : List ProvRow
deriving DecidableEq, Repr

/-- `SELECT ... FROM legal_documents WHERE id = ? LIMIT 1`. -/
def findDocById (db : DB) (did : List Char) : Option DocRow :=
  db.legal_documents.find? fun r => r.id == did

/-- `LOWER(a) = LOWER(b)`. -/
def lowersEq (a b : List Char) : Bool := a.map lowerC == b.map lowerC

/-- `hay LIKE '%needle%'` (SQLite LIKE is ASCII case-insensitive). -/
def likeContains (hay needle : List Char) : Bool :=
  containsSub (needle.map lowerC) (hay.map lowerC)

/-- `ORDER BY LENGTH(title) ASC LIMIT 1`: the first row of minimal title
length. -/
def minByTitleLen : List DocRow → Option DocRow
  | [] => none
  | r :: t =>
    match minByTitleLen t with
    | none => some r
    | some m => if m.title.length < r.title.length then some m else some r

/-- `resolveExistingStatuteId` from src/utils/statute-id.ts: exact id,
then normalized id, then case-insensitive exact title / short name, then
substring title / short name match preferring the shortest title. -/
def resolveExistingStatuteId (db : DB) (inputId : List Char) : Option (List Char) :=
  match findDocById db inputId with
  | some r => some r.id
  | none =>
    match (normalizeDocumentIdentifier inputId).bind (findDocById db) with
    | some r => some r.id
    | none =>
      match db.legal_documents.find? fun r =>
          lowersEq r.title inputId ||
          (match r.short_name with | some sn => lowersEq sn inputId | none => false) with
      | some r => some r.id
      | none =>
        match minByTitleLen (db.legal_documents.filter fun r =>
            likeContains r.title inputId ||
            (match r.short_name with | some sn => likeContains sn inputId | none => false)) with
        | some r => some r.id
        | none => none

/-- `ValidationResult` from src/types (string fields as char lists). -/
structure ValidationResult where
  citation : ParsedCitation
  document_exists : Bool
  provision_exists : Bool
  document_title : Option (List Char) := none
  status : Option (List Char) := none
  warnings : List (List Char)
deriving DecidableEq, Repr

/-- JS template interpolation of a possibly-undefined number. -/
def renderOptNat : Option Nat → List Char
  | some n => renderNat n
  | none => "undefined".data

/-- The fallback search term: `parsed.document_id ?? parsed.title` or the
type-number-year template string. -/
def searchTermOf (p : ParsedCitation) : List Char :=
  p.document_id.getD (p.title.getD
    (docTypeStr p.type ++ '-' :: renderOptNat p.number ++ '-' :: renderOptNat p.year))

/-- The document-resolution steps of `validateCitation` (lines 27-35):
resolve `parsed.document_id` when truthy, else `parsed.title` when
truthy. -/
def resolvedDocId (db : DB) (p : ParsedCitation) : Option (List Char) :=
  match (if truthyStr p.document_id then
      resolveExistingStatuteId db (p.document_id.getD []) else none) with
  | some d => some d
  | none =>
    if truthyStr p.title then resolveExistingStatuteId db (p.title.getD []) else none

/-- `parsed.suffix ? article-suffix : article`. -/
def articleRefOf (p : ParsedCitation) : List Char :=
  if truthyStr p.suffix then p.article.getD [] ++ '-' :: p.suffix.getD []
  else p.article.getD []

/-- The provision-existence query of `validateCitation`: a row of
`legal_provisions` of this document whose `provision_ref` or `section`
equals the raw or the `art`-prefixed article token. -/
def provMatches (db : DB) (docId : List Char) (p : ParsedCitation) : Bool :=
  db.legal_provisions.any fun r =>
    r.document_id == docId &&
    (r.provision_ref == "art".data ++ articleRefOf p ||
     r.sectionRef == some (articleRefOf p) ||
     r.provision_ref == articleRefOf p ||
     r.sectionRef == some ("art".data ++ articleRefOf p))

/-- `validateCitation` from src/citation/validator.ts. -/
def validateCitation (db : DB) (citation : List Char) : ValidationResult :=
  let parsed := parseCitation citation
  if parsed.valid = false then
    { citation := parsed, document_exists := false, provision_exists := false,
      warnings := [parsed.error.getD "Invalid citation format".data] }
  else
    match resolvedDocId db parsed with
    | none =>
      { citation := parsed, document_exists := false, provision_exists := false,
        warnings := ["Document \"".data ++ searchTermOf parsed
          ++ "\" not found in database".data] }
    | some docId =>
      match findDocById db docId with
      | none =>
        { citation := parsed, document_exists := false, provision_exists := false,
          warnings := ["Document \"".data ++ docId ++ "\" not found in database".data] }
      | some doc =>
        let warnings0 := if doc.status == "repealed".data
          then ["This law has been repealed".data] else []
        if truthyStr parsed.article then
          let provisionExists := provMatches db doc.id parsed
          let warnings1 := if provisionExists = false then
              warnings0 ++ ["Article ".data ++ articleRefOf parsed
                ++ " not found in ".data ++ doc.title]
            else warnings0
          { citation := parsed, document_exists := true,
            provision_exists := provisionExists,
            document_title := some doc.title, status := some doc.status,
            warnings := warnings1 }
        else
          { citation := parsed, document_exists := true, provision_exists := false,
            document_title := some doc.title, status := some doc.status,
            warnings := warnings0 }

/-- C6: for every citation string that parses as valid and whose document
resolution (identifier, then title) finds a stored Act, `validateCitation`
reports `document_exists = true` together with the Act's title and status
(a normal result, never a hard failure); when the resolved Act's status is
`repealed` the warnings always contain the repealed advisory, whatever the
provision lookup finds; and when the citation names an article that no
stored provision row of the Act matches under either the raw token or the
`art`-prefixed token, compared against both `provision_ref` and `section`,
then `provision_exists = false` and a provision-not-found warning is added
while `document_exists` stays true. -/
theorem validateCitation_resolved_doc (db : DB) (citation : List Char)
    (did : List Char) (doc : DocRow)
    (hvalid : (parseCitation citation).valid = true)
    (hres : resolvedDocId db (parseCitation citation) = some did)
    (hdoc : findDocById db did = some doc) :
    (validateCitation db citation).document_exists = true ∧
    (validateCitation db citation).document_title = some doc.title ∧
    (validateCitation db citation).status = some doc.status ∧
    (doc.status = "repealed".data →
      "This law has been repealed".data ∈ (validateCitation db citation).warnings) ∧
    (truthyStr (parseCitation citation).article = true →
      provMatches db doc.id (parseCitation citation) = false →
      (validateCitation db citation).provision_exists = false ∧
      ("Article ".data ++ articleRefOf (parseCitation citation) ++ " not found in ".data
        ++ doc.title) ∈ (validateCitation db citation).warnings) := by
  cases hart : truthyStr (parseCitation citation).article with
  | false =>
    have hV : validateCitation db citation =
        { citation := parseCitation citation, document_exists := true,
          provision_exists := false,
          document_title := some doc.title, status := some doc.status,
          warnings := if doc.status == "repealed".data
            then ["This law has been repealed".data] else [] } := by
      simp [validateCitation, hvalid, hres, hdoc, hart]
    rw [hV]
    refine ⟨rfl, rfl, rfl, ?_, ?_⟩
    · intro h
      simp [h]
    · intro h
      exact absurd h (by simp)
  | true =>
    cases hprov : provMatches db doc.id (parseCitation citation) with
    | false =>
      have hV : validateCitation db citation =
          { citation := parseCitation citation, document_exists := true,
            provision_exists := false,
            document_title := some doc.title, status := some doc.status,
            warnings := (if doc.status == "repealed".data
                then ["This law has been repealed".data] else []) ++
              ["Article ".data ++ articleRefOf (parseCitation citation)
                ++ " not found in ".data ++ doc.title] } := by
        simp [validateCitation, hvalid, hres, hdoc, hart, hprov]
      rw [hV]
      refine ⟨rfl, rfl, rfl, ?_, ?_⟩
      · intro h
        simp [h]
      · intro _ _
        refine ⟨rfl, ?_⟩
        simp
    | true =>
      have hV : validateCitation db citation =
          { citation := parseCitation citation, document_exists := true,
            provision_exists := true,
            document_title := some doc.title, status := some doc.status,
            warnings := if doc.status == "repealed".data
              then ["This law has been repealed".data] else [] } := by
        simp [validateCitation, hvalid, hres, hdoc, hart, hprov]
      rw [hV]
      refine ⟨rfl, rfl, rfl, ?_, ?_⟩
      · intro h
        simp [h]
      · intro _ h
        exact absurd h (by simp)

set_option maxRecDepth 40000 in
/-- Witness for C6: a one-document, one-provision database in which
`Art. 5, D.Lgs. 196/2003` resolves to a repealed Act whose only stored
provision is `art1`. -/
theorem validateCitation_resolved_doc_witness :
    (validateCitation
        ⟨[⟨"dlgs-196-2003".data, "Codice Privacy".data, none, "repealed".data⟩],
         [⟨"dlgs-196-2003".data, "art1".data, none⟩]⟩
        "Art. 5, D.Lgs. 196/2003".data).document_exists = true ∧
    "This law has been repealed".data ∈ (validateCitation
        ⟨[⟨"dlgs-196-2003".data, "Codice Privacy".data, none, "repealed".data⟩],
         [⟨"dlgs-196-2003".data, "art1".data, none⟩]⟩
        "Art. 5, D.Lgs. 196/2003".data).warnings ∧
    (validateCitation
        ⟨[⟨"dlgs-196-2003".data, "Codice Privacy".data, none, "repealed".data⟩],
         [⟨"dlgs-196-2003".data, "art1".data, none⟩]⟩
        "Art. 5, D.Lgs. 196/2003".data).provision_exists = false := by
  obtain ⟨h1, _, _, h4, h5⟩ := validateCitation_resolved_doc
    ⟨[⟨"dlgs-196-2003".data, "Codice Privacy".data, none, "repealed".data⟩],
     [⟨"dlgs-196-2003".data, "art1".data, none⟩]⟩
    "Art. 5, D.Lgs. 196/2003".data
    "dlgs-196-2003".data
    ⟨"dlgs-196-2003".data, "Codice Privacy".data, none, "repealed".data⟩
    (by decide) (by decide) (by decide)
  exact ⟨h1, h4 (by decide), (h5 (by decide) (by decide)).1⟩

end ItalianLaw
